import Mathlib

/-!
# cybersource_soap_dm — verification development

A shallow embedding of the Go package `cybersource_soap_dm` (Decision Manager
SOAP client) together with theorems about it.

Conventions of the embedding

* A Go `string` / `[]byte` is a list of bytes (`GoString`, each byte a `Nat`).
  `len(s)` is `List.length`, `s[:n]` is `List.take n` (every slice in the
  source is guarded by a length test), `s[0]` is the head byte and the string
  comparison operators are the bytewise lexicographic ones.
* Go `int` values are `Int`; no arithmetic is performed on them in the code
  modelled here.
* A Go `map[int]string` is the list of its entries in the order a `range`
  loop happens to visit them; its keys are pairwise distinct.
* A nil-able pointer is an `Option`.
* Functions of libraries outside the repository are either modelled from
  their documented behaviour or taken as fields of a parameter record.
-/

namespace CybersourceSoapDm

/-! ## Go strings -/

/-- Go string: a sequence of bytes. -/
abbrev GoString := List Nat

/-- Bytes of an ASCII string literal of the source. -/
def str (s : String) : GoString := s.toList.map Char.toNat

/-- Go `a <= b` on strings: bytewise lexicographic order. -/
def GoString.le : GoString → GoString → Bool
  | [], _ => true
  | _ :: _, [] => false
  | x :: xs, y :: ys => x < y || (x == y && GoString.le xs ys)

/-- Go `fmt.Sprintf("%d", k)`: the decimal bytes of an integer. -/
def fmtInt (k : Int) : GoString := str (toString k)

/-! ## card.go -/

/-- Source `DetectCardBrand` (card.go). -/
def DetectCardBrand (number : GoString) : GoString :=
  if number.length < 1 then str ""
  else if number.head? = some 52 then str "visa"                      -- number[0] == '4'
  else if number.length ≥ 2 ∧
      (number.take 2 = str "34" ∨ number.take 2 = str "37") then str "amex"
  else if number.length ≥ 2 ∧
      (GoString.le (str "51") (number.take 2) && GoString.le (number.take 2) (str "55")) = true
    then str "mastercard"
  else if number.length ≥ 2 ∧ number.length ≥ 4 ∧
      (GoString.le (str "2221") (number.take 4) && GoString.le (number.take 4) (str "2720")) = true
    then str "mastercard"
  else if number.length ≥ 2 ∧ number.take 2 = str "65" then str "discover"
  else if number.length ≥ 2 ∧ number.length ≥ 3 ∧
      (GoString.le (str "644") (number.take 3) && GoString.le (number.take 3) (str "649")) = true
    then str "discover"
  else if number.length ≥ 2 ∧ number.length ≥ 4 ∧ number.take 4 = str "6011" then str "discover"
  else if number.length ≥ 2 ∧ number.length ≥ 6 ∧
      (GoString.le (str "622126") (number.take 6) && GoString.le (number.take 6) (str "622925")) = true
    then str "discover"
  else str ""

/-- Source `CyberSourceCardTypeCode` (card.go): the entries of the map literal. -/
def CyberSourceCardTypeCode : List (GoString × GoString) :=
  [ (str "visa", str "001"),
    (str "mastercard", str "002"),
    (str "amex", str "003"),
    (str "discover", str "004") ]

/-- Go map index expression `m[k]` on a `map[string]string`: the stored value,
or the zero value `""` when the key is absent. -/
def mapIndexStr (m : List (GoString × GoString)) (k : GoString) : GoString :=
  match m.lookup k with
  | some v => v
  | none => []

/-! ## unicode/utf8 and the escaping of encoding/xml -/

/-- Go constant `utf8.RuneError`, U+FFFD. -/
def RuneError : Nat := 0xFFFD

/-- Table `first` of `unicode/utf8`, the size part: the number of bytes of the
encoding a byte starts; 1 for an ASCII byte, 0 for a byte that starts none. -/
def runeSize (s0 : Nat) : Nat :=
  if s0 < 0x80 then 1
  else if s0 < 0xC2 then 0
  else if s0 < 0xE0 then 2
  else if s0 < 0xF0 then 3
  else if s0 < 0xF5 then 4
  else 0

/-- Table `acceptRanges` of `unicode/utf8` as selected through `first`: the lowest
and highest second byte accepted after a lead byte. -/
def acceptRange (s0 : Nat) : Nat × Nat :=
  if s0 = 0xE0 then (0xA0, 0xBF)
  else if s0 = 0xED then (0x80, 0x9F)
  else if s0 = 0xF0 then (0x90, 0xBF)
  else if s0 = 0xF4 then (0x80, 0x8F)
  else (0x80, 0xBF)

/-- Library `utf8.DecodeRuneInString`: the first rune of `s` and its width in bytes;
`(RuneError, 0)` for the empty string and `(RuneError, 1)` where no well-formed
encoding starts. The masks `s0&0x1F`, `s0&0x0F`, `s0&0x07` and `s&0x3F` are
remainders, the shifts are products and the disjoint `|` is a sum. -/
def DecodeRuneInString (s : GoString) : Nat × Nat :=
  match s with
  | [] => (RuneError, 0)
  | s0 :: rest =>
    let sz := runeSize s0
    if sz = 1 then (s0, 1)
    else if sz = 0 then (RuneError, 1)
    else if s.length < sz then (RuneError, 1)
    else
      let s1 := rest.getD 0 0
      if s1 < (acceptRange s0).1 ∨ (acceptRange s0).2 < s1 then (RuneError, 1)
      else if sz ≤ 2 then (s0 % 32 * 64 + s1 % 64, 2)
      else
        let s2 := rest.getD 1 0
        if s2 < 0x80 ∨ 0xBF < s2 then (RuneError, 1)
        else if sz ≤ 3 then (s0 % 16 * 4096 + s1 % 64 * 64 + s2 % 64, 3)
        else
          let s3 := rest.getD 2 0
          if s3 < 0x80 ∨ 0xBF < s3 then (RuneError, 1)
          else (s0 % 8 * 262144 + s1 % 64 * 4096 + s2 % 64 * 64 + s3 % 64, 4)

/-- Library `isInCharacterRange` of `encoding/xml`: the rune is in the character
range of the XML specification. -/
def isInCharacterRange (r : Nat) : Bool :=
  r == 0x09 || r == 0x0A || r == 0x0D ||
    (decide (0x20 ≤ r) && decide (r ≤ 0xD7FF)) ||
    (decide (0xE000 ≤ r) && decide (r ≤ 0xFFFD)) ||
    (decide (0x10000 ≤ r) && decide (r ≤ 0x10FFFF))

/-- The `switch` of the loop of `(*printer).EscapeString`: the bytes written in
place of a rune, `none` where the loop continues and the rune's own bytes are
written. -/
def escapeOf (r width : Nat) : Option GoString :=
  if r = 34 then some (str "&#34;")
  else if r = 39 then some (str "&#39;")
  else if r = 38 then some (str "&amp;")
  else if r = 60 then some (str "&lt;")
  else if r = 62 then some (str "&gt;")
  else if r = 9 then some (str "&#x9;")
  else if r = 10 then some (str "&#xA;")
  else if r = 13 then some (str "&#xD;")
  else if isInCharacterRange r = false ∨ (r = 0xFFFD ∧ width = 1) then some [0xEF, 0xBF, 0xBD]
  else none

/-- The loop of `(*printer).EscapeString` on the bytes not yet read: rune by rune,
the replacement or the rune's own bytes (the source copies the bytes between two
replacements in one piece). The first argument bounds the number of runes. -/
def escapeLoop : Nat → GoString → GoString
  | 0, _ => []
  | fuel + 1, s =>
    if s = [] then []
    else
      let rw := DecodeRuneInString s
      (escapeOf rw.1 rw.2).getD (s.take rw.2) ++ escapeLoop fuel (s.drop rw.2)

/-- Library `(*printer).EscapeString` of `encoding/xml`: the escaped form of the
text `s` that the encoder writes as character data. -/
def EscapeString (s : GoString) : GoString := escapeLoop s.length s

/-! ## soap.go — custom merchant fields -/

/-- Go `xml.Name`. -/
structure Name where
  Space : GoString
  Local : GoString
  deriving DecidableEq, Repr

/-- Go `xml.Attr`. -/
structure XMLAttr where
  Name : Name
  Value : GoString
  deriving DecidableEq, Repr

/-- Go `xml.StartElement`. -/
structure StartElement where
  Name : Name
  Attr : List XMLAttr
  deriving DecidableEq, Repr

/-- The tokens an `xml.Encoder` writes: a start tag, the bytes written as character
data (text in its escaped form), an end tag. -/
inductive XMLToken where
  | startElement (s : StartElement)
  | charData (data : GoString)
  | endElement (name : Name)
  deriving DecidableEq, Repr

/-- State of an `xml.Encoder`: the tokens written so far and the stack of
currently open tags (innermost first). -/
structure Encoder where
  out : List XMLToken
  tags : List Name
  deriving DecidableEq, Repr

/-- Errors of the encoder. -/
inductive EncodeError where
  | startTagWithNoName
  | endTagWithNoName
  | endTagWithoutStart
  | endTagMismatch
  deriving DecidableEq, Repr

/-- Library `(*xml.Encoder).EncodeToken` on a start element: refuses an empty
name, otherwise writes the tag and pushes it on the stack. -/
def Encoder.encodeStart (e : Encoder) (s : StartElement) : Except EncodeError Encoder :=
  if s.Name.Local = [] then .error .startTagWithNoName
  else .ok { out := e.out ++ [.startElement s], tags := s.Name :: e.tags }

/-- Library `(*xml.Encoder).EncodeToken` on an end element: the name must match the
innermost open tag. -/
def Encoder.encodeEnd (e : Encoder) (n : Name) : Except EncodeError Encoder :=
  if n.Local = [] then .error .endTagWithNoName
  else match e.tags with
    | [] => .error .endTagWithoutStart
    | t :: rest =>
      if t = n then .ok { out := e.out ++ [.endElement n], tags := rest }
      else .error .endTagMismatch

/-- Library `(*xml.Encoder).EncodeElement` applied to a Go string: the start tag,
the value escaped by `EscapeString`, the end tag. -/
def Encoder.encodeElementString (e : Encoder) (v : GoString) (s : StartElement) :
    Except EncodeError Encoder := do
  let e1 ← e.encodeStart s
  let e2 : Encoder := { e1 with out := e1.out ++ [.charData (EscapeString v)] }
  e2.encodeEnd s.Name

/-- Go `map[int]string`, as the list of its entries in iteration order. -/
abbrev IntMap := List (Int × GoString)

/-- Go map index expression `m[k]` on a `map[int]string`. -/
def IntMap.index (m : IntMap) (k : Int) : GoString :=
  match m.lookup k with
  | some v => v
  | none => []

/-- Source `soapMDD` (soap.go). -/
structure soapMDD where
  Fields : IntMap
  deriving DecidableEq, Repr

/-- The loop `for _, k := range keys { ... EncodeElement(m.Fields[k], el) ... }`
of `soapMDD.MarshalXML`. -/
def soapMDD.encodeFields (m : soapMDD) : List Int → Encoder → Except EncodeError Encoder
  | [], e => .ok e
  | k :: ks, e => do
    let fieldName := str "ns1:field" ++ fmtInt k
    let el : StartElement := { Name := { Space := [], Local := fieldName }, Attr := [] }
    let e1 ← e.encodeElementString (m.Fields.index k) el
    soapMDD.encodeFields m ks e1

/-- Source `soapMDD.MarshalXML` (soap.go). `sort.Ints` is the ascending sort of
the key slice. -/
def soapMDD.MarshalXML (m : soapMDD) (e : Encoder) (start : StartElement) :
    Except EncodeError Encoder := do
  let e1 ← e.encodeStart start
  let keys := m.Fields.map Prod.fst
  let keys := keys.insertionSort (· ≤ ·)
  let e2 ← soapMDD.encodeFields m keys e1
  e2.encodeEnd start.Name

/-! ## models/request.go -/

/-- Source `models.BillTo`. -/
structure BillTo where
  FirstName : GoString
  LastName : GoString
  Street1 : GoString
  City : GoString
  State : GoString
  PostalCode : GoString
  Country : GoString
  PhoneNumber : GoString
  Email : GoString
  IPAddress : GoString
  CustomerID : GoString
  deriving DecidableEq, Repr

/-- Source `models.Card`. -/
structure Card where
  Number : GoString
  ExpirationMonth : GoString
  ExpirationYear : GoString
  CardType : GoString
  deriving DecidableEq, Repr

/-- Source `models.Item`. -/
structure Item where
  UnitPrice : GoString
  Quantity : Int
  ProductCode : GoString
  ProductName : GoString
  ProductSKU : GoString
  deriving DecidableEq, Repr

/-- Source `models.PurchaseTotals`. -/
structure PurchaseTotals where
  Currency : GoString
  GrandTotalAmount : GoString
  deriving DecidableEq, Repr

/-- Source `models.RiskAnalysisRequest`. A nil `MerchantDefinedData` map and an
empty one are both the empty entry list (the code only takes its `len`). -/
structure RiskAnalysisRequest where
  MerchantReferenceCode : GoString
  BillTo : Option BillTo
  Card : Card
  Items : List Item
  PurchaseTotals : PurchaseTotals
  MerchantDefinedData : IntMap
  DeviceFingerprintID : GoString
  deriving DecidableEq, Repr

/-! ## soap.go — request structures -/

/-- Source `soapBillTo`. -/
structure soapBillTo where
  FirstName : GoString
  LastName : GoString
  Street1 : GoString
  City : GoString
  State : GoString
  PostalCode : GoString
  Country : GoString
  PhoneNumber : GoString
  Email : GoString
  IPAddress : GoString
  CustomerID : GoString
  deriving DecidableEq, Repr

/-- Source `soapCard`. -/
structure soapCard where
  AccountNumber : GoString
  ExpirationMonth : GoString
  ExpirationYear : GoString
  CardType : GoString
  Bin : GoString
  deriving DecidableEq, Repr

/-- Source `soapItem`. -/
structure soapItem where
  XMLName : Name
  ID : Int
  UnitPrice : GoString
  Quantity : Int
  ProductCode : GoString
  ProductName : GoString
  ProductSKU : GoString
  deriving DecidableEq, Repr

/-- Source `soapPurchase`. -/
structure soapPurchase where
  Currency : GoString
  GrandTotalAmount : GoString
  deriving DecidableEq, Repr

/-- Source `soapAFSService`. -/
structure soapAFSService where
  Run : GoString
  deriving DecidableEq, Repr

/-- Source `requestMessage`. -/
structure requestMessage where
  MerchantID : GoString
  MerchantReferenceCode : GoString
  ClientLibrary : GoString
  ClientLibraryVersion : GoString
  ClientEnvironment : GoString
  BillTo : Option soapBillTo
  Items : List soapItem
  PurchaseTotals : Option soapPurchase
  Card : Option soapCard
  MerchantDefinedData : Option soapMDD
  AFSService : Option soapAFSService
  DeviceFingerprintID : GoString
  deriving DecidableEq, Repr

/-- Source `soapBody`. -/
structure soapBody where
  RequestMessage : requestMessage
  deriving DecidableEq, Repr

/-- Source `soapEnvelope`. -/
structure soapEnvelope where
  XMLName : Name
  SoapNS : GoString
  CybsNS : GoString
  Header : GoString
  Body : soapBody
  deriving DecidableEq, Repr

/-- The child elements `encoding/xml` writes for a `soapCard`, as (tag, text)
pairs in field order: a field tagged `omitempty` is left out when it is the
empty string, the other fields are always written. -/
def soapCard.marshalChildren (c : soapCard) : List (GoString × GoString) :=
  [(str "ns1:accountNumber", c.AccountNumber),
   (str "ns1:expirationMonth", c.ExpirationMonth),
   (str "ns1:expirationYear", c.ExpirationYear)] ++
  (if c.CardType = [] then [] else [(str "ns1:cardType", c.CardType)]) ++
  (if c.Bin = [] then [] else [(str "ns1:bin", c.Bin)])

/-! ## signing.go — constants -/

def wsuNS : GoString :=
  str "http://docs.oasis-open.org/wss/2004/01/oasis-200401-wss-wssecurity-utility-1.0.xsd"
def wsseNS : GoString :=
  str "http://docs.oasis-open.org/wss/2004/01/oasis-200401-wss-wssecurity-secext-1.0.xsd"
def soapNS : GoString := str "http://schemas.xmlsoap.org/soap/envelope/"
def dsNS : GoString := str "http://www.w3.org/2000/09/xmldsig#"
def cybsNS : GoString := str "urn:schemas-cybersource-com:transaction-data-1.111"
def algExcC14N : GoString := str "http://www.w3.org/2001/10/xml-exc-c14n#"
def algRsaSha256 : GoString := str "http://www.w3.org/2001/04/xmldsig-more#rsa-sha256"
def algSha256 : GoString := str "http://www.w3.org/2001/04/xmlenc#sha256"

/-! ## config.go -/

/-- Source `Config`. -/
structure Config where
  MerchantID : GoString
  P12Path : GoString
  P12Password : GoString
  Env : GoString
  BaseURL : GoString
  deriving DecidableEq, Repr

/-- The values `runtime.Version()` and `runtime.GOOS` of the Go runtime the
client runs on. -/
structure GoRuntime where
  Version : GoString
  GOOS : GoString
  deriving DecidableEq, Repr

/-! ## client.go — building the request -/

/-- The loop `for i, item := range req.Items { msg.Items = append(msg.Items, ...) }`
of `buildSOAPRequest`, from index `i` on. -/
def appendItems (acc : List soapItem) (i : Nat) : List Item → List soapItem
  | [] => acc
  | item :: rest =>
    appendItems
      (acc ++ [{ XMLName := { Space := [], Local := [] },
                 ID := (i : Int),
                 UnitPrice := item.UnitPrice,
                 Quantity := item.Quantity,
                 ProductCode := item.ProductCode,
                 ProductName := item.ProductName,
                 ProductSKU := item.ProductSKU }])
      (i + 1) rest

/-- Source `Client.buildSOAPRequest` (client.go); `cfg` is the client's `cfg` field. -/
def buildSOAPRequest (cfg : Config) (rt : GoRuntime) (req : RiskAnalysisRequest) :
    soapEnvelope :=
  let msg : requestMessage :=
    { MerchantID := cfg.MerchantID,
      MerchantReferenceCode := req.MerchantReferenceCode,
      ClientLibrary := str "Go",
      ClientLibraryVersion := rt.Version,
      ClientEnvironment := rt.GOOS,
      BillTo := none,
      Items := [],
      PurchaseTotals := none,
      Card := none,
      MerchantDefinedData := none,
      AFSService := some { Run := str "true" },
      DeviceFingerprintID := req.DeviceFingerprintID }
  let msg : requestMessage :=
    match req.BillTo with
    | some b =>
      let billTo : soapBillTo :=
        { FirstName := b.FirstName,
          LastName := b.LastName,
          Street1 := b.Street1,
          City := b.City,
          State := b.State,
          PostalCode := b.PostalCode,
          Country := b.Country,
          PhoneNumber := b.PhoneNumber,
          Email := b.Email,
          IPAddress := b.IPAddress,
          CustomerID := b.CustomerID }
      { msg with BillTo := some billTo }
    | none => msg
  let cardType := req.Card.CardType
  let cardType :=
    if cardType = [] then
      let brand := DetectCardBrand req.Card.Number
      mapIndexStr CyberSourceCardTypeCode brand
    else cardType
  let bin : GoString := []
  let bin := if req.Card.Number.length ≥ 6 then req.Card.Number.take 6 else bin
  let card : soapCard :=
    { AccountNumber := req.Card.Number,
      ExpirationMonth := req.Card.ExpirationMonth,
      ExpirationYear := req.Card.ExpirationYear,
      CardType := cardType,
      Bin := bin }
  let msg : requestMessage := { msg with Card := some card }
  let msg : requestMessage := { msg with Items := appendItems msg.Items 0 req.Items }
  let purchaseTotals : soapPurchase :=
    { Currency := req.PurchaseTotals.Currency,
      GrandTotalAmount := req.PurchaseTotals.GrandTotalAmount }
  let msg : requestMessage := { msg with PurchaseTotals := some purchaseTotals }
  let msg : requestMessage :=
    if req.MerchantDefinedData.length > 0 then
      { msg with MerchantDefinedData := some { Fields := req.MerchantDefinedData } }
    else msg
  { XMLName := { Space := [], Local := [] },
    SoapNS := soapNS,
    CybsNS := cybsNS,
    Header := [],
    Body := { RequestMessage := msg } }

/-! ## Specification-side definitions for the card and custom-field claims -/

/-- The numeral of an integer in decimal notation: a minus sign for a negative
number, then the digits of the absolute value, most significant first. -/
def decimal (k : Int) : GoString :=
  (if k < 0 then [45] else []) ++
    (if k = 0 then [48] else (Nat.digits 10 k.natAbs).reverse.map (48 + ·))

/-- A Unicode scalar value: a code point up to U+10FFFF that is not a surrogate. -/
def Scalar (r : Nat) : Prop := r < 0xD800 ∨ (0xE000 ≤ r ∧ r ≤ 0x10FFFF)

/-- The UTF-8 encoding of a scalar value. -/
def utf8 (r : Nat) : GoString :=
  if r < 0x80 then [r]
  else if r < 0x800 then [0xC0 + r / 64, 0x80 + r % 64]
  else if r < 0x10000 then [0xE0 + r / 4096, 0x80 + r / 64 % 64, 0x80 + r % 64]
  else [0xF0 + r / 262144, 0x80 + r / 4096 % 64, 0x80 + r / 64 % 64, 0x80 + r % 64]

/-- A character of XML 1.0 (production `Char`). -/
def XMLChar (r : Nat) : Prop :=
  r = 9 ∨ r = 10 ∨ r = 13 ∨ (0x20 ≤ r ∧ r ≤ 0xD7FF) ∨ (0xE000 ≤ r ∧ r ≤ 0xFFFD) ∨
    (0x10000 ≤ r ∧ r ≤ 0x10FFFF)

instance : DecidablePred XMLChar := fun r => by unfold XMLChar; infer_instance

/-- The characters written as a character reference, with the reference. -/
def charReferences : List (Nat × GoString) :=
  [ (34, str "&#34;"), (39, str "&#39;"), (38, str "&amp;"), (60, str "&lt;"),
    (62, str "&gt;"), (9, str "&#x9;"), (10, str "&#xA;"), (13, str "&#xD;") ]

/-- How a character is written as character data: as its reference if it has one,
as itself if it is an XML character, as U+FFFD otherwise. -/
def writtenChar (r : Nat) : GoString :=
  match charReferences.lookup r with
  | some ref => ref
  | none => if XMLChar r then utf8 r else utf8 0xFFFD

/-- `WrittenAs v out`: `out` is the text `v` written as character data. Reading `v`
from the left, a well-formed UTF-8 character is written as `writtenChar` says, and a
byte at which no well-formed character starts is written as U+FFFD. -/
inductive WrittenAs : GoString → GoString → Prop
  | done : WrittenAs [] []
  | char (r : Nat) (rest out : GoString) : Scalar r → WrittenAs rest out →
      WrittenAs (utf8 r ++ rest) (writtenChar r ++ out)
  | byte (b : Nat) (rest out : GoString) : (∀ r, Scalar r → ¬ utf8 r <+: b :: rest) →
      WrittenAs rest out → WrittenAs (b :: rest) (utf8 0xFFFD ++ out)

/-- The text is a sequence of XML characters in UTF-8. -/
def LegalText (v : GoString) : Prop :=
  ∃ rs : List Nat, (∀ r ∈ rs, XMLChar r) ∧ v = rs.flatMap utf8

/-- `Carries text v`: the character data `text` carries the value `v`, that is, `v` is
a sequence of XML characters and `text` is these characters, each written as itself
or as its character reference. -/
def Carries (text v : GoString) : Prop :=
  ∃ rs : List Nat, (∀ r ∈ rs, XMLChar r) ∧ v = rs.flatMap utf8 ∧
    text = rs.flatMap writtenChar

/-- The three tokens of a child element of the custom-field wrapper: the start tag
`ns1:field<k>` with `k` in decimal notation, the character data `text`, the end tag. -/
def fieldElement (k : Int) (text : GoString) : List XMLToken :=
  let n : Name := { Space := [], Local := str "ns1:field" ++ decimal k }
  [.startElement { Name := n, Attr := [] }, .charData text, .endElement n]

/-- Example: the wrapper element of the custom fields. -/
def exampleWrapper : StartElement :=
  { Name := { Space := [], Local := str "ns1:merchantDefinedData" }, Attr := [] }

/-- Value of a string of decimal digits, most significant digit first. -/
def decVal : GoString → Nat
  | [] => 0
  | d :: ds => (d - 48) * 10 ^ ds.length + decVal ds

/-- Every byte is an ASCII decimal digit. -/
def AllDigits (s : GoString) : Prop := ∀ b ∈ s, 48 ≤ b ∧ b ≤ 57

instance (s : GoString) : Decidable (AllDigits s) := by
  unfold AllDigits; infer_instance

/-- The string has at least `n` bytes and its first `n` digits denote a number in `lo..hi`. -/
def LeadingIn (s : GoString) (n lo hi : Nat) : Prop :=
  n ≤ s.length ∧ lo ≤ decVal (s.take n) ∧ decVal (s.take n) ≤ hi

instance (s : GoString) (n lo hi : Nat) : Decidable (LeadingIn s n lo hi) := by
  unfold LeadingIn; infer_instance

/-- Example client configuration. -/
def exampleConfig : Config :=
  { MerchantID := str "merchant", P12Path := str "cert.p12", P12Password := str "secret",
    Env := str "sandbox", BaseURL := [] }

/-- Example Go runtime. -/
def exampleRuntime : GoRuntime := { Version := str "go1.22", GOOS := str "linux" }

/-- Example request for a card number, without explicit card type. -/
def exampleRequest (number : GoString) : RiskAnalysisRequest :=
  { MerchantReferenceCode := str "order-1",
    BillTo := none,
    Card := { Number := number, ExpirationMonth := str "12", ExpirationYear := str "2027",
              CardType := [] },
    Items := [],
    PurchaseTotals := { Currency := str "USD", GrandTotalAmount := str "10.00" },
    MerchantDefinedData := [],
    DeviceFingerprintID := [] }

/-! ## etree — the element tree of `github.com/beevik/etree`

The library is not part of the repository; its data structure and the
operations `signSOAPEnvelope` calls are modelled from the library's documented
behaviour. A pointer to an element (`*etree.Element`) held by the source is
modelled as the path of that element: the list of positions, each counted
among the child elements of the parent, leading from the document to it. -/

/-- Go `etree.Attr`: namespace prefix, key and value of an attribute. -/
structure Attr where
  Space : GoString
  Key : GoString
  Value : GoString
  deriving DecidableEq, Repr

/-- Go `etree.Token`: an element, character data (with its whitespace flag), a
comment, a directive or a processing instruction. -/
inductive Token where
  | element (Space Tag : GoString) (Attr : List Attr) (Child : List Token)
  | charData (Data : GoString) (whitespace : Bool)
  | comment (Data : GoString)
  | directive (Data : GoString)
  | procInst (Target Inst : GoString)
  deriving Repr

/-- A document: the child tokens of the document's unnamed top element. -/
abbrev Document := List Token

namespace Token

/-- The token is an `*etree.Element`. -/
def isElement : Token → Bool
  | .element _ _ _ _ => true
  | _ => false

/-- The token is an `*etree.CharData`. -/
def isCharData : Token → Bool
  | .charData _ _ => true
  | _ => false

/-- The token is character data flagged as whitespace (`CharData.IsWhitespace`). -/
def isWhitespace : Token → Bool
  | .charData _ w => w
  | _ => false

/-- Field `Element.Space`. -/
def space : Token → GoString
  | .element s _ _ _ => s
  | _ => []

/-- Field `Element.Tag`. -/
def tag : Token → GoString
  | .element _ t _ _ => t
  | _ => []

/-- Field `Element.Attr`. -/
def attrs : Token → List Attr
  | .element _ _ a _ => a
  | _ => []

/-- Field `Element.Child`. -/
def children : Token → List Token
  | .element _ _ _ c => c
  | _ => []

/-- Replace the child tokens of an element. -/
def mapChildren (g : List Token → List Token) : Token → Token
  | .element s t a c => .element s t a (g c)
  | x => x

/-- Replace the attributes of an element. -/
def mapAttrs (g : List Attr → List Attr) : Token → Token
  | .element s t a c => .element s t (g a) c
  | x => x

end Token

/-- The child tokens that are elements, in order. -/
def childElements (cs : List Token) : List Token := cs.filter Token.isElement

/-- Library `(*Element).ChildElements`. -/
def Token.ChildElements (e : Token) : List Token := childElements e.children

/-- Library `spaceDecompose`: split a name at its first colon. -/
def spaceDecompose (s : GoString) : GoString × GoString :=
  match s.span (fun b => b != 58) with
  | (name, []) => ([], name)
  | (space, _ :: key) => (space, key)

/-- Library `etree.NewElement`. -/
def NewElement (tag : GoString) : Token :=
  .element (spaceDecompose tag).1 (spaceDecompose tag).2 [] []

/-- Attribute list after `CreateAttr`: the value of the first attribute with
the same prefix and key is replaced, otherwise the attribute is appended. -/
def createAttr (space key value : GoString) : List Attr → List Attr
  | [] => [{ Space := space, Key := key, Value := value }]
  | a :: rest =>
    if a.Space = space ∧ a.Key = key then { a with Value := value } :: rest
    else a :: createAttr space key value rest

/-- Attribute list after `RemoveAttr`: the first attribute with the prefix and
key is removed. -/
def removeAttr (space key : GoString) : List Attr → List Attr
  | [] => []
  | a :: rest =>
    if a.Space = space ∧ a.Key = key then rest
    else a :: removeAttr space key rest

/-- Library `(*Element).CreateAttr`. -/
def Token.CreateAttr (e : Token) (key value : GoString) : Token :=
  e.mapAttrs (createAttr (spaceDecompose key).1 (spaceDecompose key).2 value)

/-- Library `(*Element).RemoveAttr`. -/
def Token.RemoveAttr (e : Token) (key : GoString) : Token :=
  e.mapAttrs (removeAttr (spaceDecompose key).1 (spaceDecompose key).2)

/-- Library `(*Element).AddChild`: the token becomes the last child. -/
def Token.AddChild (e : Token) (t : Token) : Token :=
  e.mapChildren (fun c => c ++ [t])

/-- Library `(*Element).InsertChildAt`: the token is inserted before the child
token at `index`, or appended when `index` is past the end. -/
def Token.InsertChildAt (e : Token) (index : Nat) (t : Token) : Token :=
  e.mapChildren (fun c =>
    if index ≥ c.length then c ++ [t] else c.take index ++ t :: c.drop index)

/-- Library `(*Element).SetText`: the run of character data at the start of the
children is replaced by the text (by nothing when the text is empty). -/
def Token.SetText (e : Token) (text : GoString) : Token :=
  e.mapChildren (fun c =>
    (if text = [] then [] else [Token.charData text false]) ++ c.dropWhile Token.isCharData)

/-- The string `Indent` inserts at a nesting depth: a newline followed by
`depth * spaces` blanks (only the newline when that count is negative). -/
def indentString (spaces : Nat) (depth : Int) : GoString :=
  if depth * (spaces : Int) < 0 then [10]
  else 10 :: List.replicate (depth * (spaces : Int)).toNat 32

mutual
/-- Library `(*Element).indent`: earlier indentation (whitespace character data)
is stripped; if children remain, a newline and indentation is inserted before each
child that is not character data (except before the first such child of the
document itself) and before the end tag, and the child elements are indented
one level deeper. -/
def Token.indent (spaces : Nat) (depth : Int) : Token → Token
  | .element s t a c =>
    if (c.filter fun x => !x.isWhitespace).isEmpty then .element s t a []
    else .element s t a (indentLoop spaces depth false true c)
  | x => x
/-- The loop of `(*Element).indent` over the children (those stripped as earlier
indentation are skipped), with its two flags, followed by the closing insertion. -/
def indentLoop (spaces : Nat) (depth : Int) (isCharData firstNonCharData : Bool) :
    List Token → List Token
  | [] =>
    if !isCharData && (!firstNonCharData || decide (depth > 0)) then
      [Token.charData (indentString spaces (depth - 1)) true]
    else []
  | c :: rest =>
    if c.isWhitespace then indentLoop spaces depth isCharData firstNonCharData rest
    else
      (if !c.isCharData && (!firstNonCharData || decide (depth > 0)) then
        [Token.charData (indentString spaces depth) true]
      else []) ++
      Token.indent spaces (depth + 1) c ::
        indentLoop spaces depth c.isCharData (firstNonCharData && c.isCharData) rest
end

/-- Library `(*Document).Indent`. -/
def Document.Indent (doc : Document) (spaces : Nat) : Document :=
  if (doc.filter fun x => !x.isWhitespace).isEmpty then []
  else indentLoop spaces 0 false true doc

/-! ### Pointers into the tree -/

/-- The element a pointer designates, if the path leads to one. -/
def deref : List Token → List Nat → Option Token
  | _, [] => none
  | cs, k :: p =>
    match (childElements cs)[k]? with
    | none => none
    | some t => if p.isEmpty then some t else deref t.children p

/-- The element a pointer designates (an empty comment when it dangles; the
pointers of the code modelled here never do). -/
def derefD (cs : List Token) (p : List Nat) : Token :=
  (deref cs p).getD (.comment [])

/-- Apply `f` to the `k`-th child element. -/
def modifyNthElem (f : Token → Token) : List Token → Nat → List Token
  | [], _ => []
  | c :: cs, k =>
    if c.isElement then
      match k with
      | 0 => f c :: cs
      | k + 1 => c :: modifyNthElem f cs k
    else c :: modifyNthElem f cs k

/-- Apply `f` to the element a pointer designates (an in-place mutation of it). -/
def update (f : Token → Token) : List Token → List Nat → List Token
  | cs, [] => cs
  | cs, k :: p =>
    if p.isEmpty then modifyNthElem f cs k
    else modifyNthElem (Token.mapChildren fun c => update f c p) cs k

/-- Library `(*Document).Root`: the first child element of the document. -/
def Document.Root (doc : Document) : Option Token := deref doc [0]

/-! ## signing.go -/

/-- Go `strings.LastIndex(s, ":")` for a one-byte separator `b`. -/
def lastIndexByte : GoString → Nat → Option Nat
  | [], _ => none
  | c :: cs, b =>
    match lastIndexByte cs b with
    | some i => some (i + 1)
    | none => if c = b then some 0 else none

/-- The test of the loop body of `findChild` on one child's tag. -/
def tagMatches (tag localName : GoString) : Bool :=
  if tag = localName then true
  else match lastIndexByte tag 58 with
    | some idx => decide (tag.drop (idx + 1) = localName)
    | none => false

/-- The loop of `findChild` over the child elements, counting positions from `i`. -/
def findChildFrom (localName : GoString) : List Token → Nat → Option Nat
  | [], _ => none
  | c :: cs, i => if tagMatches c.tag localName then some i else findChildFrom localName cs (i + 1)

/-- Source `findChild` (signing.go): the first child element whose tag is
`localName`, or ends with `":" + localName`; the result is the position of that
child among the child elements (the pointer returned), `none` for nil. -/
def findChild (parent : Token) (localName : GoString) : Option Nat :=
  findChildFrom localName parent.ChildElements 0

/-- Source `ensureXMLNS` (signing.go). -/
def ensureXMLNS (el : Token) (pfx uri : GoString) : Token :=
  let attrName := str "xmlns:" ++ pfx
  if el.attrs.any (fun a => decide (a.Key = attrName)) then el
  else el.CreateAttr attrName uri

/-- Errors reported by a library function. -/
abbrev LibError := GoString

/-- Go `x509.Certificate`, with the field read by the code. -/
structure X509Certificate where
  Raw : GoString
  deriving DecidableEq, Repr

/-- The dynamic value of the `crypto.PrivateKey` interface of a certificate:
nil, an RSA private key, or a key of another type (named by `kind`). -/
inductive PrivateKey where
  | nil
  | rsa (key : GoString)
  | other (kind : GoString)
  deriving DecidableEq, Repr

/-- Go `tls.Certificate`. -/
structure TLSCertificate where
  Certificate : List GoString
  PrivateKey : PrivateKey
  Leaf : Option X509Certificate
  deriving DecidableEq, Repr

/-- The library functions called by `signSOAPEnvelope`. -/
structure SignLib where
  /-- The library function `(*etree.Document).ReadFromBytes`. -/
  ReadFromBytes : GoString → Except LibError Document
  /-- The library function `(*etree.Document).WriteTo`. -/
  WriteTo : Document → Except LibError GoString
  /-- The library function `etreeutils.TransformExcC14n` of `goxmldsig` (empty prefix
  list, comments dropped), the first step of the exclusive canonicalizer. It rewrites
  the element it is given in place: throughout the subtree it drops the namespace
  declarations that are not visibly used, declares the used ones, sorts the attributes
  and removes the comments. The result is the attributes and the child tokens the
  element holds afterwards. -/
  TransformExcC14n : Token → Except LibError (List Attr × List Token)
  /-- The library function `canonicalSerialize` of `goxmldsig`, the second step of the
  exclusive canonicalizer: the canonical bytes of an element (it serializes a copy). -/
  canonicalSerialize : Token → Except LibError GoString
  /-- The SHA-256 digest. -/
  sha256 : GoString → GoString
  /-- The library function `rsa.SignPKCS1v15` with SHA-256. -/
  SignPKCS1v15 : GoString → GoString → Except LibError GoString
  /-- The library function `base64.StdEncoding.EncodeToString`. -/
  base64 : GoString → GoString
  /-- The library function `x509.ParseCertificate`. -/
  ParseCertificate : GoString → Except LibError X509Certificate

/-- The errors `signSOAPEnvelope` returns. -/
inductive SignError where
  | parseSoapXML (e : LibError)
  | envelopeMissing
  | bodyNotFound
  | noCertificateChain
  | parseLeaf (e : LibError)
  | notRSA (key : PrivateKey)
  | c14nBody (e : LibError)
  | c14nSignedInfo (e : LibError)
  | rsaSign (e : LibError)
  | serialize (e : LibError)
  deriving DecidableEq, Repr

/-- Source `leafCertFromTLS` (signing.go). -/
def leafCertFromTLS (lib : SignLib) (cert : TLSCertificate) : Except SignError X509Certificate :=
  match cert.Leaf with
  | some leaf => .ok leaf
  | none =>
    match cert.Certificate with
    | [] => .error .noCertificateChain
    | first :: _ =>
      match lib.ParseCertificate first with
      | .error e => .error (.parseLeaf e)
      | .ok leaf => .ok leaf

/-- The element once its fields `Attr` and `Child` have been assigned. -/
def Token.setAttrChild (e : Token) (attr : List Attr) (child : List Token) : Token :=
  match e with
  | .element s t _ _ => .element s t attr child
  | x => x

/-- What a call of the exclusive canonicalizer leaves: the attributes and the child
tokens the element it was given now holds, and the canonical bytes returned. -/
structure Canonical where
  Attr : List Attr
  Child : List Token
  bytes : GoString

/-- Library `(*c14N10ExclusiveCanonicalizer).Canonicalize` of `goxmldsig`: the
element is rewritten in place by `TransformExcC14n`, then the rewritten element is
serialized by `canonicalSerialize`. -/
def Canonicalize (lib : SignLib) (el : Token) : Except LibError Canonical :=
  match lib.TransformExcC14n el with
  | .error e => .error e
  | .ok (attr, child) =>
    match lib.canonicalSerialize (el.setAttrChild attr child) with
    | .error e => .error e
    | .ok bytes => .ok { Attr := attr, Child := child, bytes := bytes }

/-- Source `exclusiveC14N` (signing.go): the canonical bytes of the node, which the
canonicalizer has rewritten in place. -/
def exclusiveC14N (lib : SignLib) (node : Token) : Except LibError Canonical :=
  Canonicalize lib node

/-- Source `sha256Sum` (signing.go). -/
def sha256Sum (lib : SignLib) (data : GoString) : GoString := lib.sha256 data

/-- The `wsse:Security` subtree assembled by `signSOAPEnvelope` (signing.go,
from `security := etree.NewElement(...)` to `str.AddChild(ref2)`), each child
added to its parent in the order of the source. -/
def securityElement (lib : SignLib) (leaf : X509Certificate) : Token :=
  let security := NewElement (str "wsse:Security")
  let security := ensureXMLNS security (str "wsse") wsseNS
  let bst := NewElement (str "wsse:BinarySecurityToken")
  let bst := ensureXMLNS bst (str "wsu") wsuNS
  let bst := bst.CreateAttr (str "ValueType")
    (str "http://docs.oasis-open.org/wss/2004/01/oasis-200401-wss-x509-token-profile-1.0#X509v3")
  let bst := bst.CreateAttr (str "EncodingType")
    (str "http://docs.oasis-open.org/wss/2004/01/oasis-200401-wss-soap-message-security-1.0#Base64Binary")
  let bst := bst.CreateAttr (str "wsu:Id") (str "X509Token")
  let bst := bst.SetText (lib.base64 leaf.Raw)
  let security := security.AddChild bst
  let sig := NewElement (str "ds:Signature")
  let sig := ensureXMLNS sig (str "ds") dsNS
  let signedInfo := NewElement (str "ds:SignedInfo")
  let signedInfo := ensureXMLNS signedInfo (str "ds") dsNS
  let cm := NewElement (str "ds:CanonicalizationMethod")
  let cm := cm.CreateAttr (str "Algorithm") algExcC14N
  let signedInfo := signedInfo.AddChild cm
  let sm := NewElement (str "ds:SignatureMethod")
  let sm := sm.CreateAttr (str "Algorithm") algRsaSha256
  let signedInfo := signedInfo.AddChild sm
  let ref := NewElement (str "ds:Reference")
  let ref := ref.CreateAttr (str "URI") (str "#Body")
  let transforms := NewElement (str "ds:Transforms")
  let tr := NewElement (str "ds:Transform")
  let tr := tr.CreateAttr (str "Algorithm") algExcC14N
  let transforms := transforms.AddChild tr
  let ref := ref.AddChild transforms
  let dm := NewElement (str "ds:DigestMethod")
  let dm := dm.CreateAttr (str "Algorithm") algSha256
  let ref := ref.AddChild dm
  let dv := NewElement (str "ds:DigestValue")
  let ref := ref.AddChild dv
  let signedInfo := signedInfo.AddChild ref
  let sig := sig.AddChild signedInfo
  let sv := NewElement (str "ds:SignatureValue")
  let sig := sig.AddChild sv
  let ki := NewElement (str "ds:KeyInfo")
  let str_ := NewElement (str "wsse:SecurityTokenReference")
  let ref2 := NewElement (str "wsse:Reference")
  let ref2 := ref2.CreateAttr (str "URI") (str "#X509Token")
  let str_ := str_.AddChild ref2
  let ki := ki.AddChild str_
  let sig := sig.AddChild ki
  security.AddChild sig

/-- The pointers `signSOAPEnvelope` holds once the tree is assembled. -/
structure Pointers where
  env : List Nat
  header : List Nat
  body : List Nat
  security : List Nat
  deriving DecidableEq, Repr

/-- Pointer `sig`: second child of `security`. -/
def Pointers.sig (p : Pointers) : List Nat := p.security ++ [1]
/-- Pointer `signedInfo`: first child of `sig`. -/
def Pointers.signedInfo (p : Pointers) : List Nat := p.security ++ [1, 0]
/-- Pointer `dv`: third child of `ref`, itself the third child of `signedInfo`. -/
def Pointers.dv (p : Pointers) : List Nat := p.security ++ [1, 0, 2, 2]
/-- Pointer `sv`: second child of `sig`. -/
def Pointers.sv (p : Pointers) : List Nat := p.security ++ [1, 1]

/-- State of `signSOAPEnvelope` before `doc.Indent(2)`. -/
structure Assembled where
  doc : Document
  ptr : Pointers
  privKey : GoString

/-- Source `signSOAPEnvelope` (signing.go), from the namespace declarations on the
body up to and including the removal of the namespace attributes from the envelope,
given the pointers `header` and `body`: the body is marked, the credential is
checked and the security header is added to the header. -/
def markAndSecure (lib : SignLib) (doc : Document) (headerP bodyP : List Nat)
    (tlsCert : TLSCertificate) : Except SignError Assembled :=
  let envP : List Nat := [0]
  let doc := update (fun e => ensureXMLNS e (str "SOAP-ENV") soapNS) doc bodyP
  let doc := update (fun e => ensureXMLNS e (str "wsu") wsuNS) doc bodyP
  let doc := match findChild (derefD doc bodyP) (str "requestMessage") with
    | some rm => update (fun e => ensureXMLNS e (str "ns1") cybsNS) doc (bodyP ++ [rm])
    | none => doc
  let doc := update (fun e => e.RemoveAttr (str "wsu:Id")) doc bodyP
  let doc := update (fun e => e.CreateAttr (str "wsu:Id") (str "Body")) doc bodyP
  match leafCertFromTLS lib tlsCert with
  | .error e => .error e
  | .ok leaf =>
    match tlsCert.PrivateKey with
    | .rsa privKey =>
      let securityP := headerP ++ [(derefD doc headerP).ChildElements.length]
      let doc := update (fun e => e.AddChild (securityElement lib leaf)) doc headerP
      let doc := update (fun e => e.RemoveAttr (str "xmlns:wsse")) doc envP
      let doc := update (fun e => e.RemoveAttr (str "xmlns:wsu")) doc envP
      let doc := update (fun e => e.RemoveAttr (str "xmlns:ds")) doc envP
      .ok { doc := doc,
            ptr := { env := envP, header := headerP, body := bodyP, security := securityP },
            privKey := privKey }
    | key => .error (.notRSA key)

/-- Source `signSOAPEnvelope` (signing.go), from `doc.Root()` up to and including
the removal of the namespace attributes from the envelope: the header is located
or created (inserted as first child of the envelope, which moves the body one
position on), then `markAndSecure` runs. -/
def assemble (lib : SignLib) (doc : Document) (tlsCert : TLSCertificate) :
    Except SignError Assembled :=
  match doc.Root with
  | none => .error .envelopeMissing
  | some env =>
    let header := findChild env (str "Header")
    let body := findChild env (str "Body")
    match body with
    | none => .error .bodyNotFound
    | some b =>
      match header with
      | some h => markAndSecure lib doc [0, h] [0, b] tlsCert
      | none =>
        let doc := update (fun e => e.InsertChildAt 0 (NewElement (str "SOAP-ENV:Header"))) doc [0]
        markAndSecure lib doc [0, 0] [0, b + 1] tlsCert

/-- Source `signSOAPEnvelope` (signing.go), from the computation of the digest to
the setting of the signature value, on the indented document. Each call of
`exclusiveC14N` leaves the element behind the pointer it is given rewritten. -/
def digestAndSign (lib : SignLib) (doc : Document) (ptr : Pointers) (privKey : GoString) :
    Except SignError Document :=
  match exclusiveC14N lib (derefD doc ptr.body) with
  | .error e => .error (.c14nBody e)
  | .ok bodyC14N =>
    let doc := update (fun e => e.setAttrChild bodyC14N.Attr bodyC14N.Child) doc ptr.body
    let doc := update (fun e => e.SetText (lib.base64 (sha256Sum lib bodyC14N.bytes))) doc ptr.dv
    match exclusiveC14N lib (derefD doc ptr.signedInfo) with
    | .error e => .error (.c14nSignedInfo e)
    | .ok signedInfoC14N =>
      let doc := update (fun e => e.setAttrChild signedInfoC14N.Attr signedInfoC14N.Child)
        doc ptr.signedInfo
      let hashed := sha256Sum lib signedInfoC14N.bytes
      match lib.SignPKCS1v15 privKey hashed with
      | .error e => .error (.rsaSign e)
      | .ok signature =>
        .ok (update (fun e => e.SetText (lib.base64 signature)) doc ptr.sv)

/-- Source `signSOAPEnvelope` (signing.go) on the parsed document: the tree that
is serialized. -/
def signDocument (lib : SignLib) (doc : Document) (tlsCert : TLSCertificate) :
    Except SignError Document :=
  match assemble lib doc tlsCert with
  | .error e => .error e
  | .ok a => digestAndSign lib (a.doc.Indent 2) a.ptr a.privKey

/-- Source `signSOAPEnvelope` (signing.go). -/
def signSOAPEnvelope (lib : SignLib) (unsignedXML : GoString) (tlsCert : TLSCertificate) :
    Except SignError GoString :=
  match lib.ReadFromBytes unsignedXML with
  | .error e => .error (.parseSoapXML e)
  | .ok doc =>
    match signDocument lib doc tlsCert with
    | .error e => .error e
    | .ok signed =>
      match lib.WriteTo signed with
      | .error e => .error (.serialize e)
      | .ok out => .ok out

/-! ## Specification-side definitions for the signing claims -/

/-- `f` maps elements to elements. -/
def KeepsElements (f : Token → Token) : Prop := ∀ t, t.isElement = true → (f t).isElement = true

/-- `f` changes at most the attributes of an element. -/
def AttrsOnly (f : Token → Token) : Prop := ∀ t, ∃ g, f t = t.mapAttrs g

/-! ## soap.go — response structures -/

/-- Source `soapAFSReply`. -/
structure soapAFSReply where
  ReasonCode : Int
  AFSResult : GoString
  HostSeverity : GoString
  AFSFactorCode : GoString
  AddressInfoCode : GoString
  IPCountry : GoString
  IPState : GoString
  IPCity : GoString
  ScoreModelUsed : GoString
  BinCountry : GoString
  CardScheme : GoString
  CardIssuer : GoString
  deriving DecidableEq, Repr

/-- Source `soapReplyMessage`. -/
structure soapReplyMessage where
  MerchantReferenceCode : GoString
  RequestID : GoString
  Decision : GoString
  ReasonCode : Int
  RequestToken : GoString
  AFSReply : Option soapAFSReply
  deriving DecidableEq, Repr

/-- Source `soapFaultBody`. -/
structure soapFaultBody where
  FaultCode : GoString
  FaultString : GoString
  deriving DecidableEq, Repr

/-- Source `soapResponseBody`. -/
structure soapResponseBody where
  ReplyMessage : soapReplyMessage
  Fault : Option soapFaultBody
  deriving DecidableEq, Repr

/-- Source `soapResponseEnvelope`. -/
structure soapResponseEnvelope where
  XMLName : Name
  Body : soapResponseBody
  deriving DecidableEq, Repr

/-! ## models/response.go -/

/-- Source `models.AFSReply`. -/
structure AFSReply where
  ReasonCode : Int
  AFSResult : GoString
  HostSeverity : GoString
  AFSFactorCode : GoString
  AddressInfoCode : GoString
  IPCountry : GoString
  IPState : GoString
  IPCity : GoString
  ScoreModelUsed : GoString
  BinCountry : GoString
  CardScheme : GoString
  CardIssuer : GoString
  deriving DecidableEq, Repr

/-- Source `models.RiskAnalysisResponse`. -/
structure RiskAnalysisResponse where
  RequestID : GoString
  Decision : GoString
  ReasonCode : Int
  RequestToken : GoString
  MerchantReferenceCode : GoString
  AFSReply : Option AFSReply
  deriving DecidableEq, Repr

/-- Source `models.RiskAnalysisAPIResponse`. -/
structure RiskAnalysisAPIResponse where
  HTTPStatus : Int
  Body : GoString
  Data : RiskAnalysisResponse
  deriving DecidableEq, Repr

/-- The zero value `models.RiskAnalysisResponse{}`. -/
def RiskAnalysisResponse.zero : RiskAnalysisResponse :=
  { RequestID := [], Decision := [], ReasonCode := 0, RequestToken := [],
    MerchantReferenceCode := [], AFSReply := none }

/-- The zero value `models.RiskAnalysisAPIResponse{}`. -/
def RiskAnalysisAPIResponse.zero : RiskAnalysisAPIResponse :=
  { HTTPStatus := 0, Body := [], Data := RiskAnalysisResponse.zero }

/-! ## errors.go -/

/-- Source `SOAPFault`: an error value (the type has an `Error` method). -/
structure SOAPFault where
  FaultCode : GoString
  FaultString : GoString
  RawBody : GoString
  deriving DecidableEq, Repr

/-! ## Go `strings.TrimSpace` -/

/-- The UTF-8 encodings of the code points that `unicode.IsSpace` accepts: tab,
line feed, vertical tab, form feed, carriage return, space, U+0085, U+00A0, U+1680,
U+2000 to U+200A, U+2028, U+2029, U+202F, U+205F and U+3000. -/
def spaceEncodings : List GoString :=
  [[9], [10], [11], [12], [13], [32], [0xC2, 0x85], [0xC2, 0xA0], [0xE1, 0x9A, 0x80],
   [0xE2, 0x80, 0x80], [0xE2, 0x80, 0x81], [0xE2, 0x80, 0x82], [0xE2, 0x80, 0x83],
   [0xE2, 0x80, 0x84], [0xE2, 0x80, 0x85], [0xE2, 0x80, 0x86], [0xE2, 0x80, 0x87],
   [0xE2, 0x80, 0x88], [0xE2, 0x80, 0x89], [0xE2, 0x80, 0x8A], [0xE2, 0x80, 0xA8],
   [0xE2, 0x80, 0xA9], [0xE2, 0x80, 0xAF], [0xE2, 0x81, 0x9F], [0xE3, 0x80, 0x80]]

/-- Number of bytes of the white-space character the string starts with, 0 if it
starts with none. -/
def leadingSpaceLen (s : GoString) : Nat :=
  match spaceEncodings.find? (fun enc => enc.isPrefixOf s) with
  | some enc => enc.length
  | none => 0

/-- Number of bytes of the white-space character the string ends with, 0 if it
ends with none. -/
def trailingSpaceLen (s : GoString) : Nat :=
  match spaceEncodings.find? (fun enc => enc.reverse.isPrefixOf s.reverse) with
  | some enc => enc.length
  | none => 0

/-- Remove leading white space, at most `fuel` characters. -/
def trimLeftFuel : Nat → GoString → GoString
  | 0, s => s
  | fuel + 1, s =>
    if leadingSpaceLen s = 0 then s else trimLeftFuel fuel (s.drop (leadingSpaceLen s))

/-- Remove trailing white space, at most `fuel` characters. -/
def trimRightFuel : Nat → GoString → GoString
  | 0, s => s
  | fuel + 1, s =>
    if trailingSpaceLen s = 0 then s
    else trimRightFuel fuel (s.take (s.length - trailingSpaceLen s))

/-- Go `strings.TrimSpace`: the string without its leading and trailing white
space, as defined by Unicode (the length of the string is enough fuel, each step
removes at least one byte). -/
def TrimSpace (s : GoString) : GoString :=
  let t := trimLeftFuel s.length s
  trimRightFuel t.length t

/-! ## client.go — the call -/

/-- Source `Client`, with the fields read by `AnalyzeRisk`; the HTTP client is
part of `ClientLib`. -/
structure Client where
  cfg : Config
  soapURL : GoString
  tlsCert : TLSCertificate
  deriving DecidableEq, Repr

/-- Go `http.Request`, with the parts the code sets. -/
structure HTTPRequest where
  Method : GoString
  URL : GoString
  Body : GoString
  Header : List (GoString × GoString)
  deriving DecidableEq, Repr

/-- Go `http.Header.Set`: the value of the key is replaced, or the entry is added. -/
def setHeader (key value : GoString) : List (GoString × GoString) → List (GoString × GoString)
  | [] => [(key, value)]
  | (k, v) :: rest => if k = key then (key, value) :: rest else (k, v) :: setHeader key value rest

/-- Go `http.Response` as the code reads it: the status code and the outcome of
`io.ReadAll(resp.Body)`. -/
structure HTTPResponse where
  StatusCode : Int
  Body : Except LibError GoString

/-- The library functions and the environment `AnalyzeRisk` depends on. -/
structure ClientLib where
  /-- The library functions of the signing step. -/
  sign : SignLib
  /-- The Go runtime. -/
  runtime : GoRuntime
  /-- The library function `xml.MarshalIndent` on the request envelope. -/
  MarshalIndent : soapEnvelope → Except LibError GoString
  /-- The library function `http.NewRequestWithContext` (method, URL, body). -/
  NewRequest : GoString → GoString → GoString → Except LibError HTTPRequest
  /-- The HTTP exchange `c.httpClient.Do`. -/
  Do : HTTPRequest → Except LibError HTTPResponse
  /-- The library function `xml.Unmarshal` into a `soapResponseEnvelope`. -/
  Unmarshal : GoString → Except LibError soapResponseEnvelope

/-- Go constant `xml.Header`. -/
def xmlHeader : GoString := str "<?xml version=\"1.0\" encoding=\"UTF-8\"?>\n"

/-- The error values `AnalyzeRisk` returns: the wrapped errors of the steps, or
a `*SOAPFault`. -/
inductive APIError where
  | marshalRequest (e : LibError)
  | signRequest (e : SignError)
  | createRequest (e : LibError)
  | sendRequest (e : LibError)
  | readResponse (e : LibError)
  | parseResponse (status : Int) (e : LibError)
  | soapFault (f : SOAPFault)
  deriving DecidableEq, Repr

/-- What `AnalyzeRisk` did with the network. -/
inductive HTTPEvent where
  | created (req : HTTPRequest)
  | sent (req : HTTPRequest)
  deriving DecidableEq, Repr

/-- The two results of `AnalyzeRisk` (`err = none` is a nil error), and the HTTP
requests it created and sent. -/
structure Outcome where
  resp : RiskAnalysisAPIResponse
  err : Option APIError
  http : List HTTPEvent
  deriving DecidableEq, Repr

/-- Source `Client.AnalyzeRisk` (client.go), the conversion of the reply into
the response model. -/
def replyToResponse (reply : soapReplyMessage) : RiskAnalysisResponse :=
  let result : RiskAnalysisResponse :=
    { RequestID := reply.RequestID,
      Decision := reply.Decision,
      ReasonCode := reply.ReasonCode,
      RequestToken := reply.RequestToken,
      MerchantReferenceCode := reply.MerchantReferenceCode,
      AFSReply := none }
  match reply.AFSReply with
  | some afs =>
    let afsReply : AFSReply :=
      { ReasonCode := afs.ReasonCode,
        AFSResult := afs.AFSResult,
        HostSeverity := afs.HostSeverity,
        AFSFactorCode := afs.AFSFactorCode,
        AddressInfoCode := afs.AddressInfoCode,
        IPCountry := afs.IPCountry,
        IPState := afs.IPState,
        IPCity := afs.IPCity,
        ScoreModelUsed := afs.ScoreModelUsed,
        BinCountry := afs.BinCountry,
        CardScheme := afs.CardScheme,
        CardIssuer := afs.CardIssuer }
    { result with AFSReply := some afsReply }
  | none => result

/-- Source `Client.AnalyzeRisk` (client.go). -/
def AnalyzeRisk (lib : ClientLib) (c : Client) (req : RiskAnalysisRequest) : Outcome :=
  let envelope := buildSOAPRequest c.cfg lib.runtime req
  match lib.MarshalIndent envelope with
  | .error e => { resp := .zero, err := some (.marshalRequest e), http := [] }
  | .ok xmlData =>
    let xmlPayload := xmlHeader ++ xmlData
    match signSOAPEnvelope lib.sign xmlPayload c.tlsCert with
    | .error e => { resp := .zero, err := some (.signRequest e), http := [] }
    | .ok signedPayload =>
      match lib.NewRequest (str "POST") c.soapURL signedPayload with
      | .error e => { resp := .zero, err := some (.createRequest e), http := [] }
      | .ok httpReq0 =>
        let header := setHeader (str "Content-Type") (str "text/xml; charset=utf-8") httpReq0.Header
        let header := setHeader (str "SOAPAction") (str "runTransaction") header
        let httpReq : HTTPRequest := { httpReq0 with Header := header }
        let http := [HTTPEvent.created httpReq0, HTTPEvent.sent httpReq]
        match lib.Do httpReq with
        | .error e => { resp := .zero, err := some (.sendRequest e), http := http }
        | .ok resp =>
          match resp.Body with
          | .error e => { resp := .zero, err := some (.readResponse e), http := http }
          | .ok respBody =>
            match lib.Unmarshal respBody with
            | .error e =>
              { resp := { HTTPStatus := resp.StatusCode, Body := respBody, Data := .zero },
                err := some (.parseResponse resp.StatusCode e),
                http := http }
            | .ok soapResp =>
              match soapResp.Body.Fault with
              | some fault =>
                let soapFault : SOAPFault :=
                  { FaultCode := fault.FaultCode,
                    FaultString := TrimSpace fault.FaultString,
                    RawBody := respBody }
                { resp := { HTTPStatus := resp.StatusCode, Body := respBody, Data := .zero },
                  err := some (.soapFault soapFault),
                  http := http }
              | none =>
                let reply := soapResp.Body.ReplyMessage
                { resp := { HTTPStatus := resp.StatusCode, Body := respBody,
                            Data := replyToResponse reply },
                  err := none,
                  http := http }

/-! ## Specification-side definitions and examples for the signing and call claims -/

/-- The local name of a tag: what follows its last colon, the whole tag when it
has none. -/
def localNameOf (tag : GoString) : GoString :=
  match lastIndexByte tag 58 with
  | some idx => tag.drop (idx + 1)
  | none => tag

/-- Example: the request envelope as parsed, with an empty header. -/
def exampleDocument : Document :=
  [ .procInst (str "xml") (str "version=\"1.0\" encoding=\"UTF-8\""),
    .charData [10] true,
    .element (str "SOAP-ENV") (str "Envelope")
      [{ Space := str "xmlns", Key := str "SOAP-ENV", Value := soapNS },
       { Space := str "xmlns", Key := str "ns1", Value := cybsNS }]
      [ .charData (str "\n  ") true,
        .element (str "SOAP-ENV") (str "Header") [] [],
        .charData (str "\n  ") true,
        .element (str "SOAP-ENV") (str "Body") []
          [ .charData (str "\n    ") true,
            .element (str "ns1") (str "requestMessage") []
              [ .charData (str "\n      ") true,
                .element (str "ns1") (str "merchantID") [] [.charData (str "merchant") false],
                .charData (str "\n    ") true ],
            .charData (str "\n  ") true ],
        .charData [10] true ] ]

/-- Example: an envelope whose header already has a child element. -/
def exampleDocumentHeaderChild : Document :=
  [ .element (str "SOAP-ENV") (str "Envelope") []
      [ .element (str "SOAP-ENV") (str "Header") []
          [.element (str "wsa") (str "Action") [] [.charData (str "runTransaction") false]],
        .element (str "SOAP-ENV") (str "Body") [] [] ] ]

/-- Example: an envelope without a body. -/
def exampleDocumentNoBody : Document :=
  [ .element (str "SOAP-ENV") (str "Envelope") []
      [ .element (str "SOAP-ENV") (str "Header") [] [] ] ]

/-- Example: the request envelope with a comment in its body. -/
def exampleDocumentComment : Document :=
  [ .element (str "SOAP-ENV") (str "Envelope")
      [{ Space := str "xmlns", Key := str "SOAP-ENV", Value := soapNS }]
      [ .element (str "SOAP-ENV") (str "Header") [] [],
        .element (str "SOAP-ENV") (str "Body") []
          [ .comment (str " order "),
            .element (str "ns1") (str "requestMessage") []
              [ .element (str "ns1") (str "merchantID") [] [.charData (str "merchant") false] ] ] ] ]

/-- The token is an `*etree.Comment`. -/
def Token.isComment : Token → Bool
  | .comment _ => true
  | _ => false

mutual
/-- An element without the comments of its subtree. -/
def Token.dropComments : Token → Token
  | .element s t a c => .element s t a (dropCommentsList c)
  | x => x
/-- The tokens that are not comments, each without the comments of its subtree. -/
def dropCommentsList : List Token → List Token
  | [] => []
  | c :: rest =>
    if c.isComment then dropCommentsList rest
    else Token.dropComments c :: dropCommentsList rest
end

/-- Example stand-ins for the library functions of the signing step: the parser
returns `doc` whatever the bytes and the other functions are simple total functions.
The rewriting of the canonicalizer removes the comments of the subtree, as the one of
`goxmldsig` does, and leaves the attributes as they are, as the one of `goxmldsig`
does on the example documents: there the elements that reach the canonicalizer
carry the declarations of the prefixes they use and no other, in sorted order. -/
def exampleSignLib (doc : Document) : SignLib :=
  { ReadFromBytes := fun _ => .ok doc,
    WriteTo := fun d => .ok (d.flatMap fun t => t.tag),
    TransformExcC14n := fun t => .ok (t.attrs, dropCommentsList t.children),
    canonicalSerialize := fun t => .ok (t.space ++ [58] ++ t.tag),
    sha256 := fun d => [d.length],
    SignPKCS1v15 := fun key hashed => .ok (key ++ hashed),
    base64 := fun d => 66 :: d,
    ParseCertificate := fun raw => .ok { Raw := raw } }

/-- Example credential with an RSA key. -/
def exampleCertificate : TLSCertificate :=
  { Certificate := [str "leaf-der"], PrivateKey := .rsa (str "rsa-key"), Leaf := none }

/-- Example credential whose key is not an RSA key. -/
def exampleCertificateECDSA : TLSCertificate :=
  { Certificate := [str "leaf-der"], PrivateKey := .other (str "*ecdsa.PrivateKey"),
    Leaf := none }

/-- Example reply without scoring sub-block. -/
def exampleReply : soapReplyMessage :=
  { MerchantReferenceCode := str "order-1", RequestID := str "7001", Decision := str "ACCEPT",
    ReasonCode := 100, RequestToken := str "token", AFSReply := none }

/-- Example stand-ins for the library functions and environment of the call: the
exchange answers with status `status` and body `body`, which decodes to `decoded`. -/
def exampleClientLib (doc : Document) (status : Int) (body : GoString)
    (decoded : soapResponseEnvelope) : ClientLib :=
  { sign := exampleSignLib doc,
    runtime := exampleRuntime,
    MarshalIndent := fun _ => .ok (str "<SOAP-ENV:Envelope/>"),
    NewRequest := fun method url payload =>
      .ok { Method := method, URL := url, Body := payload, Header := [] },
    Do := fun _ => .ok { StatusCode := status, Body := .ok body },
    Unmarshal := fun _ => .ok decoded }

/-- Example client. -/
def exampleClient (cert : TLSCertificate) : Client :=
  { cfg := exampleConfig, soapURL := str "https://ics2wstest.ic3.com/commerce/1.x/transactionProcessor",
    tlsCert := cert }

/-- Example decoded response carrying a fault whose message is surrounded by
white space, next to a reply. -/
def exampleFaultResponse : soapResponseEnvelope :=
  { XMLName := { Space := [], Local := str "Envelope" },
    Body := { ReplyMessage := exampleReply,
              Fault := some { FaultCode := str "soap:Client", FaultString := str "\n  bad request\n" } } }

/-- Example decoded response carrying a reply and no fault. -/
def exampleReplyResponse : soapResponseEnvelope :=
  { XMLName := { Space := [], Local := str "Envelope" },
    Body := { ReplyMessage := exampleReply, Fault := none } }

/-- The request `AnalyzeRisk` sends: the created request with its two headers set. -/
def sentRequest (httpReq0 : HTTPRequest) : HTTPRequest :=
  { Method := httpReq0.Method, URL := httpReq0.URL, Body := httpReq0.Body,
    Header := setHeader (str "SOAPAction") (str "runTransaction")
      (setHeader (str "Content-Type") (str "text/xml; charset=utf-8") httpReq0.Header) }

/-- The steps of `AnalyzeRisk` up to the reading of the response body succeeded, with
HTTP status `status` and body `respBody`. -/
def Exchanged (lib : ClientLib) (c : Client) (req : RiskAnalysisRequest) (status : Int)
    (respBody : GoString) : Prop :=
  ∃ (xmlData signedPayload : GoString) (httpReq0 : HTTPRequest) (resp : HTTPResponse),
    lib.MarshalIndent (buildSOAPRequest c.cfg lib.runtime req) = .ok xmlData ∧
    signSOAPEnvelope lib.sign (xmlHeader ++ xmlData) c.tlsCert = .ok signedPayload ∧
    lib.NewRequest (str "POST") c.soapURL signedPayload = .ok httpReq0 ∧
    lib.Do (sentRequest httpReq0) = .ok resp ∧
    resp.StatusCode = status ∧ resp.Body = .ok respBody

/-! ## errors.go — HTTPError -/

/-- Source `HTTPError` (errors.go), documented there as "returned when CyberSource
responds with a non-2xx HTTP status". It is an error type (it has an `Error`
method); no function of the package constructs a value of it, so `APIError` has no
case for it. -/
structure HTTPError where
  StatusCode : Int
  Status : GoString
  Body : GoString
  Headers : List (GoString × List GoString)
  deriving DecidableEq, Repr

/-! ## config.go — validation and endpoint -/

/-- Source `EnvSandbox` (config.go). -/
def EnvSandbox : GoString := str "sandbox"

/-- Source `EnvProduction` (config.go). -/
def EnvProduction : GoString := str "production"

/-- The errors `Config.Validate` returns. -/
inductive ConfigError where
  | merchantIDRequired
  | p12PathRequired
  deriving DecidableEq, Repr

/-- Source `Config.Validate` (config.go); `none` is the nil error. -/
def Config.Validate (c : Config) : Option ConfigError :=
  if c.MerchantID = [] then some .merchantIDRequired
  else if c.P12Path = [] then some .p12PathRequired
  else none

/-- The production endpoint returned by `DefaultBaseURL`. -/
def productionURL : GoString := str "https://ics2ws.ic3.com/commerce/1.x/transactionProcessor"

/-- The sandbox endpoint returned by `DefaultBaseURL`. -/
def sandboxURL : GoString := str "https://ics2wstest.ic3.com/commerce/1.x/transactionProcessor"

/-- Source `Config.DefaultBaseURL` (config.go). -/
def Config.DefaultBaseURL (c : Config) : GoString :=
  if c.BaseURL ≠ [] then c.BaseURL
  else if c.Env = EnvProduction then productionURL
  else sandboxURL

/-- Source `configFromEnv` (config.go), given the process environment as the
function `os.Getenv`. -/
def configFromEnv (getenv : GoString → GoString) : Config :=
  let env := EnvSandbox
  let env := if getenv (str "CYBS_DM_ENV") = str "production" then EnvProduction else env
  { MerchantID := getenv (str "CYBS_DM_MERCHANT_ID"),
    P12Path := getenv (str "CYBS_DM_P12_PATH"),
    P12Password := getenv (str "CYBS_DM_P12_PASSWORD"),
    Env := env,
    BaseURL := getenv (str "CYBS_DM_BASE_URL") }

/-- Source `LoadConfigFromEnv` (config.go). -/
def LoadConfigFromEnv (getenv : GoString → GoString) : Config := configFromEnv getenv

/-! ## soap.go — which elements of the request message are written -/

/-- The child elements `encoding/xml` writes for a `soapPurchase`, as (tag, text)
pairs: neither field is tagged `omitempty`, so both are always written. -/
def soapPurchase.marshalChildren (p : soapPurchase) : List (GoString × GoString) :=
  [(str "ns1:currency", p.Currency), (str "ns1:grandTotalAmount", p.GrandTotalAmount)]

/-- The tags of the child elements `encoding/xml` writes for a `requestMessage`, in
field order, following the struct tags: a field tagged `omitempty` is left out when
it is a nil pointer or the empty string; a slice gives one element per entry (none
when it is empty); the other fields are always written. -/
def requestMessage.marshalChildren (m : requestMessage) : List GoString :=
  [str "ns1:merchantID", str "ns1:merchantReferenceCode", str "ns1:clientLibrary",
   str "ns1:clientLibraryVersion"] ++
  (if m.ClientEnvironment = [] then [] else [str "ns1:clientEnvironment"]) ++
  (match m.BillTo with
   | some _ => [str "ns1:billTo"]
   | none => []) ++
  m.Items.map (fun _ => str "ns1:item") ++
  (match m.PurchaseTotals with
   | some _ => [str "ns1:purchaseTotals"]
   | none => []) ++
  (match m.Card with
   | some _ => [str "ns1:card"]
   | none => []) ++
  (match m.MerchantDefinedData with
   | some _ => [str "ns1:merchantDefinedData"]
   | none => []) ++
  (match m.AFSService with
   | some _ => [str "ns1:afsService"]
   | none => []) ++
  (if m.DeviceFingerprintID = [] then [] else [str "ns1:deviceFingerprintID"])

/-! ## Specification-side definitions and examples for the configuration and message claims -/

/-- The `soapItem` built for the input item at position `i`. -/
def itemElement (i : Nat) (item : Item) : soapItem :=
  { XMLName := { Space := [], Local := [] },
    ID := (i : Int),
    UnitPrice := item.UnitPrice,
    Quantity := item.Quantity,
    ProductCode := item.ProductCode,
    ProductName := item.ProductName,
    ProductSKU := item.ProductSKU }

/-- The `soapBillTo` built for a billing block. -/
def billToElement (b : BillTo) : soapBillTo :=
  { FirstName := b.FirstName, LastName := b.LastName, Street1 := b.Street1, City := b.City,
    State := b.State, PostalCode := b.PostalCode, Country := b.Country,
    PhoneNumber := b.PhoneNumber, Email := b.Email, IPAddress := b.IPAddress,
    CustomerID := b.CustomerID }

/-- Example request without billing block, items, purchase totals, custom fields and
device fingerprint. -/
def exampleBareRequest : RiskAnalysisRequest :=
  { MerchantReferenceCode := str "order-2",
    BillTo := none,
    Card := { Number := str "4111111111111111", ExpirationMonth := str "12",
              ExpirationYear := str "2027", CardType := [] },
    Items := [],
    PurchaseTotals := { Currency := [], GrandTotalAmount := [] },
    MerchantDefinedData := [],
    DeviceFingerprintID := [] }

/-- Example request with two line items. -/
def exampleItemsRequest : RiskAnalysisRequest :=
  { MerchantReferenceCode := str "order-3",
    BillTo := none,
    Card := { Number := str "4111111111111111", ExpirationMonth := str "12",
              ExpirationYear := str "2027", CardType := [] },
    Items := [ { UnitPrice := str "10.00", Quantity := 1, ProductCode := str "default",
                 ProductName := str "book", ProductSKU := str "B-1" },
               { UnitPrice := str "2.50", Quantity := 4, ProductCode := [],
                 ProductName := str "pen", ProductSKU := [] } ],
    PurchaseTotals := { Currency := str "USD", GrandTotalAmount := str "20.00" },
    MerchantDefinedData := [],
    DeviceFingerprintID := [] }

/-- Example configuration without unlock secret. -/
def exampleConfigNoPassword : Config :=
  { MerchantID := str "merchant", P12Path := str "cert.p12", P12Password := [],
    Env := str "sandbox", BaseURL := [] }

/-- Example decoded response `<Envelope><Body></Body></Envelope>`: no fault and an
empty reply. -/
def exampleEmptyResponse : soapResponseEnvelope :=
  { XMLName := { Space := [], Local := str "Envelope" },
    Body := { ReplyMessage := { MerchantReferenceCode := [], RequestID := [], Decision := [],
                                ReasonCode := 0, RequestToken := [], AFSReply := none },
              Fault := none } }

/-! # Theorems -/

/-! ## Decimal numerals, UTF-8 and the escaping of character data -/

theorem digitChar_toNat : ∀ d, d < 10 → (Nat.digitChar d).toNat = 48 + d := by decide

theorem toDigitsCore_decimal (fuel : Nat) : ∀ (n : Nat) (ds : List Char), n < fuel →
    (Nat.toDigitsCore 10 fuel n ds).map Char.toNat =
      (if n = 0 then [48] else (Nat.digits 10 n).reverse.map (48 + ·)) ++ ds.map Char.toNat := by
  induction fuel with
  | zero => intro n ds h; omega
  | succ fuel ih =>
    intro n ds h
    have hd := digitChar_toNat (n % 10) (Nat.mod_lt _ (by decide))
    simp only [Nat.toDigitsCore]
    by_cases h0 : n / 10 = 0
    · simp only [h0, if_true, List.map_cons, hd]
      have hlt : n < 10 := by omega
      by_cases hn : n = 0
      · subst hn; simp
      · rw [Nat.digits_def' (by decide) (Nat.pos_of_ne_zero hn), h0]
        simp [hn, Nat.mod_eq_of_lt hlt]
    · simp only [h0, if_false]
      have hn : n ≠ 0 := by rintro rfl; simp at h0
      rw [ih (n / 10) _ (by omega)]
      simp only [h0, hn, if_false, List.map_cons, hd]
      rw [Nat.digits_def' (by decide) (Nat.pos_of_ne_zero hn)]
      simp

/-- `fmt.Sprintf("%d", k)` is the decimal numeral of `k`. -/
theorem fmtInt_eq_decimal (k : Int) : fmtInt k = decimal k := by
  cases k with
  | ofNat n =>
    have h1 : fmtInt (Int.ofNat n) = (Nat.toDigits 10 n).map Char.toNat := rfl
    rw [h1, Nat.toDigits, toDigitsCore_decimal _ _ _ (Nat.lt_succ_self n)]
    simp [decimal]
  | negSucc m =>
    have h1 : fmtInt (Int.negSucc m) = 45 :: (Nat.toDigits 10 (m + 1)).map Char.toNat := rfl
    rw [h1, Nat.toDigits, toDigitsCore_decimal _ _ _ (Nat.lt_succ_self _)]
    simp [decimal, Int.negSucc_lt_zero]

theorem utf8_ne_nil (r : Nat) : utf8 r ≠ [] := by
  unfold utf8; split_ifs <;> simp

theorem decode_cons (s0 : Nat) (rest : GoString) :
    DecodeRuneInString (s0 :: rest) =
      if runeSize s0 = 1 then (s0, 1)
      else if runeSize s0 = 0 then (RuneError, 1)
      else if rest.length + 1 < runeSize s0 then (RuneError, 1)
      else if rest.getD 0 0 < (acceptRange s0).1 ∨ (acceptRange s0).2 < rest.getD 0 0 then
        (RuneError, 1)
      else if runeSize s0 ≤ 2 then (s0 % 32 * 64 + rest.getD 0 0 % 64, 2)
      else if rest.getD 1 0 < 0x80 ∨ 0xBF < rest.getD 1 0 then (RuneError, 1)
      else if runeSize s0 ≤ 3 then
        (s0 % 16 * 4096 + rest.getD 0 0 % 64 * 64 + rest.getD 1 0 % 64, 3)
      else if rest.getD 2 0 < 0x80 ∨ 0xBF < rest.getD 2 0 then (RuneError, 1)
      else (s0 % 8 * 262144 + rest.getD 0 0 % 64 * 4096 + rest.getD 1 0 % 64 * 64 +
        rest.getD 2 0 % 64, 4) := rfl

theorem runeSize_eq (s0 : Nat) :
    (s0 < 0x80 ∧ runeSize s0 = 1) ∨ (0x80 ≤ s0 ∧ s0 < 0xC2 ∧ runeSize s0 = 0) ∨
    (0xC2 ≤ s0 ∧ s0 < 0xE0 ∧ runeSize s0 = 2) ∨ (0xE0 ≤ s0 ∧ s0 < 0xF0 ∧ runeSize s0 = 3) ∨
    (0xF0 ≤ s0 ∧ s0 < 0xF5 ∧ runeSize s0 = 4) ∨ (0xF5 ≤ s0 ∧ runeSize s0 = 0) := by
  unfold runeSize
  split_ifs <;> omega

theorem acceptRange_eq (s0 : Nat) :
    (s0 = 0xE0 ∧ acceptRange s0 = (0xA0, 0xBF)) ∨ (s0 = 0xED ∧ acceptRange s0 = (0x80, 0x9F)) ∨
    (s0 = 0xF0 ∧ acceptRange s0 = (0x90, 0xBF)) ∨ (s0 = 0xF4 ∧ acceptRange s0 = (0x80, 0x8F)) ∨
    (s0 ≠ 0xE0 ∧ s0 ≠ 0xED ∧ s0 ≠ 0xF0 ∧ s0 ≠ 0xF4 ∧ acceptRange s0 = (0x80, 0xBF)) := by
  unfold acceptRange
  split_ifs <;> simp_all


theorem decode_size1 (s0 : Nat) (rest : GoString) (h : s0 < 0x80) :
    DecodeRuneInString (s0 :: rest) = (s0, 1) := by
  have hs : runeSize s0 = 1 := by unfold runeSize; rw [if_pos h]
  rw [decode_cons, if_pos hs]

theorem decode_size0 (s0 : Nat) (rest : GoString) (h : (0x80 ≤ s0 ∧ s0 < 0xC2) ∨ 0xF5 ≤ s0) :
    DecodeRuneInString (s0 :: rest) = (RuneError, 1) := by
  have hs : runeSize s0 = 0 := by
    rcases runeSize_eq s0 with hs | hs | hs | hs | hs | hs <;> omega
  rw [decode_cons, hs]
  rfl

theorem decode_short (s0 : Nat) (rest : GoString) (h0 : 0x80 ≤ s0)
    (h : rest.length + 1 < runeSize s0) :
    DecodeRuneInString (s0 :: rest) = (RuneError, 1) := by
  have h1 : runeSize s0 ≠ 1 := by
    rcases runeSize_eq s0 with hs | hs | hs | hs | hs | hs <;> omega
  rw [decode_cons, if_neg h1]
  split_ifs <;> rfl

theorem decode_size2 (s0 s1 : Nat) (rest : GoString) (h0 : 0xC2 ≤ s0 ∧ s0 < 0xE0) :
    DecodeRuneInString (s0 :: s1 :: rest) =
      if 0x80 ≤ s1 ∧ s1 ≤ 0xBF then (s0 % 32 * 64 + s1 % 64, 2) else (RuneError, 1) := by
  have hs : runeSize s0 = 2 := by
    rcases runeSize_eq s0 with hs | hs | hs | hs | hs | hs <;> omega
  have ha : acceptRange s0 = (0x80, 0xBF) := by
    rcases acceptRange_eq s0 with ha | ha | ha | ha | ha <;> first | omega | exact ha.2.2.2.2
  rw [decode_cons, hs, ha]
  simp only [List.length_cons, List.getD_cons_zero]
  split_ifs <;> first | contradiction | omega | rfl

theorem decode_size3 (s0 s1 s2 : Nat) (rest : GoString) (h0 : 0xE0 ≤ s0 ∧ s0 < 0xF0) :
    DecodeRuneInString (s0 :: s1 :: s2 :: rest) =
      if (acceptRange s0).1 ≤ s1 ∧ s1 ≤ (acceptRange s0).2 ∧ 0x80 ≤ s2 ∧ s2 ≤ 0xBF then
        (s0 % 16 * 4096 + s1 % 64 * 64 + s2 % 64, 3)
      else (RuneError, 1) := by
  have hs : runeSize s0 = 3 := by
    rcases runeSize_eq s0 with hs | hs | hs | hs | hs | hs <;> omega
  rw [decode_cons, hs]
  simp only [List.length_cons, List.getD_cons_zero, List.getD_cons_succ]
  split_ifs <;> first | contradiction | omega | rfl

theorem decode_size4 (s0 s1 s2 s3 : Nat) (rest : GoString) (h0 : 0xF0 ≤ s0 ∧ s0 < 0xF5) :
    DecodeRuneInString (s0 :: s1 :: s2 :: s3 :: rest) =
      if (acceptRange s0).1 ≤ s1 ∧ s1 ≤ (acceptRange s0).2 ∧ 0x80 ≤ s2 ∧ s2 ≤ 0xBF ∧
          0x80 ≤ s3 ∧ s3 ≤ 0xBF then
        (s0 % 8 * 262144 + s1 % 64 * 4096 + s2 % 64 * 64 + s3 % 64, 4)
      else (RuneError, 1) := by
  have hs : runeSize s0 = 4 := by
    rcases runeSize_eq s0 with hs | hs | hs | hs | hs | hs <;> omega
  rw [decode_cons, hs]
  simp only [List.length_cons, List.getD_cons_zero, List.getD_cons_succ]
  split_ifs <;> first | contradiction | omega | rfl

theorem decode_utf8_2 (r : Nat) (rest : GoString) (h1 : ¬ r < 0x80) (h2 : r < 0x800) :
    DecodeRuneInString ([0xC0 + r / 64, 0x80 + r % 64] ++ rest) = (r, 2) := by
  rw [List.cons_append, List.cons_append, List.nil_append, decode_size2 _ _ _ (by omega),
    if_pos (by omega)]
  simp only [Prod.mk.injEq, and_true]
  omega

theorem decode_utf8_3 (r : Nat) (rest : GoString) (h : Scalar r) (h2 : ¬ r < 0x800)
    (h3 : r < 0x10000) :
    DecodeRuneInString ([0xE0 + r / 4096, 0x80 + r / 64 % 64, 0x80 + r % 64] ++ rest) =
      (r, 3) := by
  unfold Scalar at h
  have hc : (acceptRange (0xE0 + r / 4096)).1 ≤ 0x80 + r / 64 % 64 ∧
      0x80 + r / 64 % 64 ≤ (acceptRange (0xE0 + r / 4096)).2 := by
    rcases acceptRange_eq (0xE0 + r / 4096) with ha | ha | ha | ha | ha
    · rw [ha.2]; simp only; omega
    · rw [ha.2]; simp only; omega
    · omega
    · omega
    · rw [ha.2.2.2.2]; simp only; omega
  simp only [List.cons_append, List.nil_append]
  rw [decode_size3 _ _ _ _ (by omega), if_pos ⟨hc.1, hc.2, by omega, by omega⟩]
  simp only [Prod.mk.injEq, and_true]
  omega

theorem decode_utf8_4 (r : Nat) (rest : GoString) (h : Scalar r) (h3 : ¬ r < 0x10000) :
    DecodeRuneInString
      ([0xF0 + r / 262144, 0x80 + r / 4096 % 64, 0x80 + r / 64 % 64, 0x80 + r % 64] ++ rest) =
      (r, 4) := by
  unfold Scalar at h
  have hc : (acceptRange (0xF0 + r / 262144)).1 ≤ 0x80 + r / 4096 % 64 ∧
      0x80 + r / 4096 % 64 ≤ (acceptRange (0xF0 + r / 262144)).2 := by
    rcases acceptRange_eq (0xF0 + r / 262144) with ha | ha | ha | ha | ha
    · omega
    · omega
    · rw [ha.2]; simp only; omega
    · rw [ha.2]; simp only; omega
    · rw [ha.2.2.2.2]; simp only; omega
  simp only [List.cons_append, List.nil_append]
  rw [decode_size4 _ _ _ _ _ (by omega),
    if_pos ⟨hc.1, hc.2, by omega, by omega, by omega, by omega⟩]
  simp only [Prod.mk.injEq, and_true]
  omega

/-- Decoding the encoding of a scalar value gives the value and the length of the
encoding. -/
theorem decode_utf8 (r : Nat) (rest : GoString) (h : Scalar r) :
    DecodeRuneInString (utf8 r ++ rest) = (r, (utf8 r).length) := by
  unfold utf8
  split_ifs with h1 h2 h3
  · exact decode_size1 r rest h1
  · exact decode_utf8_2 r rest h1 h2
  · exact decode_utf8_3 r rest h h2 h3
  · exact decode_utf8_4 r rest h h3

theorem decode_valid_2 (s0 s1 : Nat) (h0 : 0xC2 ≤ s0 ∧ s0 < 0xE0) (h1 : 0x80 ≤ s1 ∧ s1 ≤ 0xBF) :
    Scalar (s0 % 32 * 64 + s1 % 64) ∧ utf8 (s0 % 32 * 64 + s1 % 64) = [s0, s1] := by
  refine ⟨Or.inl (by omega), ?_⟩
  unfold utf8
  rw [if_neg (by omega), if_pos (by omega)]
  congr 1
  · omega
  · congr 1; omega

theorem decode_valid_3 (s0 s1 s2 : Nat) (h0 : 0xE0 ≤ s0 ∧ s0 < 0xF0)
    (h1 : (acceptRange s0).1 ≤ s1 ∧ s1 ≤ (acceptRange s0).2) (h2 : 0x80 ≤ s2 ∧ s2 ≤ 0xBF) :
    Scalar (s0 % 16 * 4096 + s1 % 64 * 64 + s2 % 64) ∧
      utf8 (s0 % 16 * 4096 + s1 % 64 * 64 + s2 % 64) = [s0, s1, s2] := by
  have hb : 0x80 ≤ s1 ∧ s1 ≤ 0xBF ∧ (s0 = 0xE0 → 0xA0 ≤ s1) ∧ (s0 = 0xED → s1 ≤ 0x9F) := by
    rcases acceptRange_eq s0 with ha | ha | ha | ha | ha
    · rw [ha.2] at h1; simp only at h1; omega
    · rw [ha.2] at h1; simp only at h1; omega
    · omega
    · omega
    · rw [ha.2.2.2.2] at h1; simp only at h1; omega
  refine ⟨?_, ?_⟩
  · unfold Scalar; omega
  · unfold utf8
    rw [if_neg (by omega), if_neg (by omega), if_pos (by omega)]
    congr 1
    · omega
    · congr 1
      · omega
      · congr 1; omega

theorem decode_valid_4 (s0 s1 s2 s3 : Nat) (h0 : 0xF0 ≤ s0 ∧ s0 < 0xF5)
    (h1 : (acceptRange s0).1 ≤ s1 ∧ s1 ≤ (acceptRange s0).2) (h2 : 0x80 ≤ s2 ∧ s2 ≤ 0xBF)
    (h3 : 0x80 ≤ s3 ∧ s3 ≤ 0xBF) :
    Scalar (s0 % 8 * 262144 + s1 % 64 * 4096 + s2 % 64 * 64 + s3 % 64) ∧
      utf8 (s0 % 8 * 262144 + s1 % 64 * 4096 + s2 % 64 * 64 + s3 % 64) = [s0, s1, s2, s3] := by
  have hb : 0x80 ≤ s1 ∧ s1 ≤ 0xBF ∧ (s0 = 0xF0 → 0x90 ≤ s1) ∧ (s0 = 0xF4 → s1 ≤ 0x8F) := by
    rcases acceptRange_eq s0 with ha | ha | ha | ha | ha
    · omega
    · omega
    · rw [ha.2] at h1; simp only at h1; omega
    · rw [ha.2] at h1; simp only at h1; omega
    · rw [ha.2.2.2.2] at h1; simp only at h1; omega
  refine ⟨?_, ?_⟩
  · unfold Scalar; omega
  · unfold utf8
    rw [if_neg (by omega), if_neg (by omega), if_neg (by omega)]
    congr 1
    · omega
    · congr 1
      · omega
      · congr 1
        · omega
        · congr 1; omega

/-- What the decoder accepts is the encoding of a scalar value: unless it reports an
error of width 1, the bytes it has read are the UTF-8 encoding of the rune. -/
theorem decode_valid (s0 : Nat) (rest : GoString) (r w : Nat)
    (h : DecodeRuneInString (s0 :: rest) = (r, w)) (hv : ¬ (r = RuneError ∧ w = 1)) :
    Scalar r ∧ w = (utf8 r).length ∧ ∃ tl, s0 :: rest = utf8 r ++ tl := by
  have bad : DecodeRuneInString (s0 :: rest) = (RuneError, 1) → False := by
    intro hb
    rw [hb] at h
    simp only [Prod.mk.injEq] at h
    exact hv ⟨h.1.symm, h.2.symm⟩
  rcases runeSize_eq s0 with hs | hs | hs | hs | hs | hs
  · rw [decode_size1 _ _ hs.1] at h
    simp only [Prod.mk.injEq] at h
    obtain ⟨rfl, rfl⟩ := h
    have hu : utf8 s0 = [s0] := by unfold utf8; rw [if_pos hs.1]
    exact ⟨Or.inl (by omega), by rw [hu]; rfl, rest, by rw [hu]; rfl⟩
  · exact absurd (decode_size0 s0 rest (Or.inl ⟨hs.1, hs.2.1⟩)) bad
  · match rest, h, bad with
    | [], _, bad => exact absurd (decode_short s0 [] (by omega) (by rw [hs.2.2]; simp)) bad
    | s1 :: tl, h, bad =>
      rw [decode_size2 _ _ _ ⟨hs.1, hs.2.1⟩] at h bad
      split_ifs at h bad with hc
      · simp only [Prod.mk.injEq] at h
        obtain ⟨rfl, rfl⟩ := h
        obtain ⟨h1, h2⟩ := decode_valid_2 s0 s1 ⟨hs.1, hs.2.1⟩ hc
        exact ⟨h1, by rw [h2]; rfl, tl, by rw [h2]; rfl⟩
      · exact absurd rfl bad
  · match rest, h, bad with
    | [], _, bad => exact absurd (decode_short s0 [] (by omega) (by rw [hs.2.2]; simp)) bad
    | [s1], _, bad =>
      exact absurd (decode_short s0 [s1] (by omega) (by rw [hs.2.2]; simp)) bad
    | s1 :: s2 :: tl, h, bad =>
      rw [decode_size3 _ _ _ _ ⟨hs.1, hs.2.1⟩] at h bad
      split_ifs at h bad with hc
      · simp only [Prod.mk.injEq] at h
        obtain ⟨rfl, rfl⟩ := h
        obtain ⟨h1, h2⟩ := decode_valid_3 s0 s1 s2 ⟨hs.1, hs.2.1⟩ ⟨hc.1, hc.2.1⟩ hc.2.2
        exact ⟨h1, by rw [h2]; rfl, tl, by rw [h2]; rfl⟩
      · exact absurd rfl bad
  · match rest, h, bad with
    | [], _, bad => exact absurd (decode_short s0 [] (by omega) (by rw [hs.2.2]; simp)) bad
    | [s1], _, bad =>
      exact absurd (decode_short s0 [s1] (by omega) (by rw [hs.2.2]; simp)) bad
    | [s1, s2], _, bad =>
      exact absurd (decode_short s0 [s1, s2] (by omega) (by rw [hs.2.2]; simp)) bad
    | s1 :: s2 :: s3 :: tl, h, bad =>
      rw [decode_size4 _ _ _ _ _ ⟨hs.1, hs.2.1⟩] at h bad
      split_ifs at h bad with hc
      · simp only [Prod.mk.injEq] at h
        obtain ⟨rfl, rfl⟩ := h
        obtain ⟨h1, h2⟩ := decode_valid_4 s0 s1 s2 s3 ⟨hs.1, hs.2.1⟩ ⟨hc.1, hc.2.1⟩
          ⟨hc.2.2.1, hc.2.2.2.1⟩ hc.2.2.2.2
        exact ⟨h1, by rw [h2]; rfl, tl, by rw [h2]; rfl⟩
      · exact absurd rfl bad
  · exact absurd (decode_size0 s0 rest (Or.inr hs.1)) bad

theorem isInCharacterRange_iff (r : Nat) : isInCharacterRange r = true ↔ XMLChar r := by
  simp only [isInCharacterRange, XMLChar, Bool.or_eq_true, Bool.and_eq_true, beq_iff_eq,
    decide_eq_true_eq]
  tauto

theorem lookup_charReferences (r : Nat) (h34 : r ≠ 34) (h39 : r ≠ 39) (h38 : r ≠ 38)
    (h60 : r ≠ 60) (h62 : r ≠ 62) (h9 : r ≠ 9) (h10 : r ≠ 10) (h13 : r ≠ 13) :
    charReferences.lookup r = none := by
  simp only [charReferences, List.lookup]
  have e : ∀ k : Nat, r ≠ k → (r == k) = false := fun k hk => by simpa using hk
  rw [e _ h34, e _ h39, e _ h38, e _ h60, e _ h62, e _ h9, e _ h10, e _ h13]

/-- What the loop of `EscapeString` writes for a well-formed character is what
`writtenChar` says. -/
theorem escape_piece (r w : Nat) (tl : GoString) (hw : w = (utf8 r).length) :
    (escapeOf r w).getD ((utf8 r ++ tl).take w) = writtenChar r := by
  unfold escapeOf
  split_ifs with h34 h39 h38 h60 h62 h9 h10 h13 hbad
  · subst h34; rfl
  · subst h39; rfl
  · subst h38; rfl
  · subst h60; rfl
  · subst h62; rfl
  · subst h9; rfl
  · subst h10; rfl
  · subst h13; rfl
  · have hx : ¬ XMLChar r := by
      rcases hbad with hb | ⟨hr, hw1⟩
      · rw [← isInCharacterRange_iff, hb]; simp
      · subst hr
        rw [hw1] at hw
        revert hw
        decide
    simp only [writtenChar, lookup_charReferences r h34 h39 h38 h60 h62 h9 h10 h13, if_neg hx]
    rfl
  · have hx : XMLChar r := by
      rw [← isInCharacterRange_iff]
      by_contra hc
      exact hbad (Or.inl (by simpa using hc))
    simp only [writtenChar, lookup_charReferences r h34 h39 h38 h60 h62 h9 h10 h13, if_pos hx]
    rw [hw, List.take_left' rfl]
    rfl

theorem escapeLoop_writtenAs (fuel : Nat) : ∀ s : GoString, s.length ≤ fuel →
    WrittenAs s (escapeLoop fuel s) := by
  induction fuel with
  | zero =>
    intro s hs
    have : s = [] := List.length_eq_zero.1 (Nat.le_zero.1 hs)
    subst this
    exact WrittenAs.done
  | succ fuel ih =>
    intro s hs
    match s, hs with
    | [], _ => exact WrittenAs.done
    | s0 :: rest, hs =>
      simp only [escapeLoop, List.cons_ne_nil, if_false]
      generalize hd : DecodeRuneInString (s0 :: rest) = d
      obtain ⟨r, w⟩ := d
      simp only
      by_cases hv : r = RuneError ∧ w = 1
      · -- no well-formed character starts here
        rw [hv.1, hv.2]
        have hno : ∀ r', Scalar r' → ¬ utf8 r' <+: s0 :: rest := by
          rintro r' hr ⟨tl, htl⟩
          have hd' := decode_utf8 r' tl hr
          rw [htl, hd] at hd'
          simp only [Prod.mk.injEq] at hd'
          obtain ⟨h1, h2⟩ := hd'
          rw [hv.1] at h1
          rw [hv.2, ← h1] at h2
          revert h2
          decide
        exact WrittenAs.byte s0 rest _ hno (ih rest (by simpa using hs))
      · obtain ⟨hsc, hw, tl, htl⟩ := decode_valid s0 rest r w hd hv
        rw [htl, escape_piece _ _ tl hw, hw, List.drop_left']
        · refine WrittenAs.char _ tl _ hsc (ih tl ?_)
          have := congrArg List.length htl
          have hpos : 0 < (utf8 r).length := List.length_pos.2 (utf8_ne_nil _)
          simp only [List.length_cons, List.length_append] at this hs
          omega
        · rfl

/-- The escaped form written by `EscapeString` is the text written as character
data. -/
theorem EscapeString_writtenAs (s : GoString) : WrittenAs s (EscapeString s) :=
  escapeLoop_writtenAs _ s (Nat.le_refl _)

/-- The encoding of a scalar value at the head of a text determines the value. -/
theorem utf8_append_inj {r r' : Nat} {rest rest' : GoString} (hr : Scalar r) (hr' : Scalar r')
    (h : utf8 r ++ rest = utf8 r' ++ rest') : r = r' ∧ rest = rest' := by
  have h1 := decode_utf8 r rest hr
  rw [h, decode_utf8 r' rest' hr'] at h1
  simp only [Prod.mk.injEq] at h1
  obtain ⟨rfl, -⟩ := h1
  exact ⟨rfl, List.append_cancel_left h⟩

/-- A text is written as character data in one way only. -/
theorem WrittenAs.unique {v a b : GoString} (ha : WrittenAs v a) (hb : WrittenAs v b) :
    a = b := by
  induction ha generalizing b with
  | done =>
    generalize hv : ([] : GoString) = v at hb
    cases hb with
    | done => rfl
    | char r rest out hr _ => exact absurd (List.append_eq_nil.1 hv.symm).1 (utf8_ne_nil r)
    | byte b' rest out _ _ => cases hv
  | char r rest out hr _ ih =>
    generalize hv : utf8 r ++ rest = v at hb
    cases hb with
    | done => exact absurd (List.append_eq_nil.1 hv).1 (utf8_ne_nil r)
    | char r' rest' out' hr' h' =>
      obtain ⟨rfl, rfl⟩ := utf8_append_inj hr hr' hv
      rw [ih h']
    | byte b' rest' out' hno _ => exact absurd ⟨rest, hv⟩ (hno r hr)
  | byte b0 rest out hno _ ih =>
    generalize hv : b0 :: rest = v at hb
    cases hb with
    | done => cases hv
    | char r' rest' out' hr' _ => exact absurd ⟨rest', hv.symm⟩ (hno r' hr')
    | byte b' rest' out' _ h' =>
      cases hv
      rw [ih h']

/-! ## Custom merchant fields -/

theorem XMLChar.scalar {r : Nat} (h : XMLChar r) : Scalar r := by
  unfold XMLChar at h
  unfold Scalar
  omega

/-- A sequence of XML characters is written character by character. -/
theorem writtenAs_legal (rs : List Nat) (h : ∀ r ∈ rs, XMLChar r) :
    WrittenAs (rs.flatMap utf8) (rs.flatMap writtenChar) := by
  induction rs with
  | nil => exact WrittenAs.done
  | cons r rs ih =>
    simp only [List.flatMap_cons]
    exact WrittenAs.char r _ _ (h r (List.mem_cons_self _ _)).scalar
      (ih fun x hx => h x (List.mem_cons_of_mem _ hx))

/-- The escaped form carries the value exactly when the value is a sequence of XML
characters. -/
theorem carries_iff_legal (v : GoString) : Carries (EscapeString v) v ↔ LegalText v := by
  constructor
  · rintro ⟨rs, h1, h2, -⟩
    exact ⟨rs, h1, h2⟩
  · rintro ⟨rs, h1, h2⟩
    refine ⟨rs, h1, h2, ?_⟩
    apply WrittenAs.unique (EscapeString_writtenAs v)
    rw [h2]
    exact writtenAs_legal rs h1

theorem encodeFields_eq (m : soapMDD) (ks : List Int) (e : Encoder) :
    soapMDD.encodeFields m ks e =
      .ok { out := e.out ++ ks.flatMap fun k =>
              fieldElement k (EscapeString (m.Fields.index k)),
            tags := e.tags } := by
  induction ks generalizing e with
  | nil => simp [soapMDD.encodeFields]
  | cons k ks ih =>
    have hne : str "ns1:field" ++ fmtInt k ≠ [] := by
      simp [str]
    simp only [soapMDD.encodeFields, Encoder.encodeElementString, Encoder.encodeStart,
      Encoder.encodeEnd, hne, if_false, bind, Except.bind, if_true, ih]
    simp [fieldElement, fmtInt_eq_decimal]


theorem index_of_mem {fields : IntMap} (hk : (fields.map Prod.fst).Nodup)
    {kv : Int × GoString} (h : kv ∈ fields) : IntMap.index fields kv.1 = kv.2 := by
  induction fields with
  | nil => cases h
  | cons p ps ih =>
    obtain ⟨k, v⟩ := p
    simp only [List.map_cons, List.nodup_cons, List.mem_map, not_exists, not_and] at hk
    rcases List.mem_cons.1 h with h | h
    · subst h; simp [IntMap.index, List.lookup]
    · have hne : kv.1 ≠ k := fun hkk => hk.1 kv h (by simp [hkk])
      have := ih hk.2 h
      simp only [IntMap.index, List.lookup] at this ⊢
      have hb : (kv.1 == k) = false := by simpa using hne
      simpa [hb] using this

theorem entries_of_keys {fields : IntMap} (hk : (fields.map Prod.fst).Nodup) :
    ((fields.map Prod.fst).map fun k => (k, IntMap.index fields k)) = fields := by
  rw [List.map_map]
  conv_rhs => rw [← List.map_id fields]
  apply List.map_congr_left
  intro kv h
  simp only [Function.comp, id]
  rw [index_of_mem hk h]

theorem MarshalXML_eq (m : soapMDD) (e : Encoder) (start : StartElement)
    (hs : start.Name.Local ≠ []) :
    soapMDD.MarshalXML m e start =
      .ok { out := e.out ++ [.startElement start] ++
              (((m.Fields.map Prod.fst).insertionSort (· ≤ ·)).flatMap fun k =>
                fieldElement k (EscapeString (m.Fields.index k))) ++
              [.endElement start.Name],
            tags := e.tags } := by
  simp only [soapMDD.MarshalXML, Encoder.encodeStart, hs, if_false, bind, Except.bind,
    encodeFields_eq, Encoder.encodeEnd, if_true]

theorem sortedEntries_perm {fields : IntMap} (hk : (fields.map Prod.fst).Nodup) :
    (((fields.map Prod.fst).insertionSort (· ≤ ·)).map
        fun k => (k, IntMap.index fields k)).Perm fields := by
  have h := (List.perm_insertionSort (· ≤ ·) (fields.map Prod.fst)).map
    (fun k => (k, IntMap.index fields k))
  rw [entries_of_keys hk] at h
  exact h

theorem sortedEntries_keys (fields : IntMap) :
    ((((fields.map Prod.fst).insertionSort (· ≤ ·)).map
        fun k => (k, IntMap.index fields k)).map Prod.fst) =
      (fields.map Prod.fst).insertionSort (· ≤ ·) := by
  rw [List.map_map]
  conv_rhs => rw [← List.map_id (List.insertionSort _ _)]
  rfl

theorem sortedKeys_strict {fields : IntMap} (hk : (fields.map Prod.fst).Nodup) :
    ((fields.map Prod.fst).insertionSort (· ≤ ·)).Sorted (· < ·) :=
  (List.sorted_insertionSort (· ≤ ·) _).lt_of_le
    ((List.perm_insertionSort (· ≤ ·) _).nodup_iff.2 hk)

theorem strictKeys_unique {a b : IntMap} (hp : a.Perm b)
    (ha : (a.map Prod.fst).Sorted (· < ·)) (hb : (b.map Prod.fst).Sorted (· < ·)) : a = b := by
  have ha' : a.Sorted (fun x y : Int × GoString => x.1 < y.1) := List.pairwise_map.1 ha
  have hb' : b.Sorted (fun x y : Int × GoString => x.1 < y.1) := List.pairwise_map.1 hb
  haveI : IsAntisymm (Int × GoString) (fun x y => x.1 < y.1) :=
    ⟨fun x y h1 h2 => absurd h1 (not_lt.2 (le_of_lt h2))⟩
  exact List.eq_of_perm_of_sorted hp ha' hb'

/-- The sorted entries of a map do not depend on the iteration order. -/
theorem sortedEntries_congr {fields fields' : IntMap} (hk : (fields.map Prod.fst).Nodup)
    (hp : fields'.Perm fields) :
    (((fields'.map Prod.fst).insertionSort (· ≤ ·)).map
        fun k => (k, IntMap.index fields' k)) =
      (((fields.map Prod.fst).insertionSort (· ≤ ·)).map
        fun k => (k, IntMap.index fields k)) := by
  have hk' : (fields'.map Prod.fst).Nodup := (hp.map Prod.fst).nodup_iff.2 hk
  apply strictKeys_unique
  · exact (sortedEntries_perm hk').trans (hp.trans (sortedEntries_perm hk).symm)
  · rw [sortedEntries_keys]; exact sortedKeys_strict hk'
  · rw [sortedEntries_keys]; exact sortedKeys_strict hk

/-- The children written by `MarshalXML`, in terms of the sorted entries. -/
theorem MarshalXML_entries (fields : IntMap) (e : Encoder) (start : StartElement)
    (hs : start.Name.Local ≠ []) :
    soapMDD.MarshalXML { Fields := fields } e start =
      .ok { out := e.out ++ [.startElement start] ++
              ((((fields.map Prod.fst).insertionSort (· ≤ ·)).map
                  fun k => (k, IntMap.index fields k)).map
                  fun kv => (kv.1, kv.2, EscapeString kv.2)).flatMap
                (fun x => fieldElement x.1 x.2.2) ++
              [.endElement start.Name],
            tags := e.tags } := by
  rw [MarshalXML_eq _ e start hs]
  simp only [List.flatMap_map, List.map_map, Function.comp]

/-- C1, amended. For a map of integer keys to strings (entries in any iteration
order, keys distinct) and a wrapper start element with a name, `soapMDD.MarshalXML`
succeeds and writes the wrapper's start token, then exactly one child element per
entry of the map, in strictly ascending key order, then the wrapper's end token. The
child of the entry `(k, v)` is named `ns1:field<k>` with `k` in decimal notation and its
character data is `v` written as character data, in the one way there is: an XML
character as itself or as its reference, anything else as U+FFFD. So the child carries
the value exactly when the value is a sequence of XML characters. The output is the
same for every iteration order of the map. -/
theorem soapMDD_MarshalXML_children (fields : IntMap) (e : Encoder)
    (start : StartElement) (hk : (fields.map Prod.fst).Nodup)
    (hs : start.Name.Local ≠ []) :
    ∃ entries : List (Int × GoString × GoString),
      -- one triple (key, value, text) per entry of the map
      (entries.map fun x => (x.1, x.2.1)).Perm fields ∧
      (entries.map fun x => x.1).Sorted (· < ·) ∧
      (∀ x ∈ entries, WrittenAs x.2.1 x.2.2 ∧ (∀ t, WrittenAs x.2.1 t → t = x.2.2) ∧
        (Carries x.2.2 x.2.1 ↔ LegalText x.2.1)) ∧
      soapMDD.MarshalXML { Fields := fields } e start =
        .ok { out := e.out ++ [.startElement start] ++
                entries.flatMap (fun x => fieldElement x.1 x.2.2) ++
                [.endElement start.Name],
              tags := e.tags } ∧
      ∀ fields' : IntMap, fields'.Perm fields →
        soapMDD.MarshalXML { Fields := fields' } e start =
          soapMDD.MarshalXML { Fields := fields } e start := by
  refine ⟨_, ?_, ?_, ?_, MarshalXML_entries fields e start hs, ?_⟩
  · rw [List.map_map]
    have : ((fun x : Int × GoString × GoString => (x.1, x.2.1)) ∘
        fun kv : Int × GoString => (kv.1, kv.2, EscapeString kv.2)) = id := rfl
    rw [this, List.map_id]
    exact sortedEntries_perm hk
  · rw [List.map_map]
    have : ((fun x : Int × GoString × GoString => x.1) ∘
        fun kv : Int × GoString => (kv.1, kv.2, EscapeString kv.2)) = Prod.fst := rfl
    rw [this, sortedEntries_keys]
    exact sortedKeys_strict hk
  · intro x hx
    obtain ⟨kv, -, rfl⟩ := List.mem_map.1 hx
    exact ⟨EscapeString_writtenAs kv.2,
      fun t ht => WrittenAs.unique ht (EscapeString_writtenAs kv.2), carries_iff_legal kv.2⟩
  · intro fields' hp
    rw [MarshalXML_entries _ e start hs, MarshalXML_entries _ e start hs,
      sortedEntries_congr hk hp]

/-- The bytes `x`, NUL, `y` are not a sequence of XML characters. -/
theorem not_legalText_nul : ¬ LegalText [120, 0, 121] := by
  rintro ⟨rs, hrs, h⟩
  match rs, hrs, h with
  | [], _, h => cases h
  | r :: rs, hrs, h =>
    simp only [List.flatMap_cons] at h
    have h1 : utf8 120 ++ [0, 121] = utf8 r ++ rs.flatMap utf8 := h
    obtain ⟨-, h2⟩ := utf8_append_inj (Or.inl (by decide)) (hrs r (List.mem_cons_self _ _)).scalar h1
    match rs, hrs, h2 with
    | [], _, h2 => cases h2
    | r2 :: rs, hrs, h2 =>
      simp only [List.flatMap_cons] at h2
      have h3 : utf8 0 ++ [121] = utf8 r2 ++ rs.flatMap utf8 := h2
      have hx : XMLChar r2 := hrs r2 (List.mem_cons_of_mem _ (List.mem_cons_self _ _))
      obtain ⟨h4, -⟩ := utf8_append_inj (Or.inl (by decide)) hx.scalar h3
      subst h4
      revert hx
      decide

/-- C1, counterexample. For the map `{1: "x\x00y"}` the child `ns1:field1` does not
carry the entry's value: in place of the NUL byte, which is not an XML character, the
encoder writes U+FFFD. So it is not true that for every map each child carries its
entry's value. -/
theorem soapMDD_MarshalXML_illegal_character_replaced :
    soapMDD.MarshalXML { Fields := [(1, [120, 0, 121])] } { out := [], tags := [] }
        exampleWrapper =
      .ok { out :=
              [ .startElement exampleWrapper,
                .startElement { Name := { Space := [], Local := str "ns1:field1" }, Attr := [] },
                .charData [120, 0xEF, 0xBF, 0xBD, 121],
                .endElement { Space := [], Local := str "ns1:field1" },
                .endElement exampleWrapper.Name ],
            tags := [] } ∧
    ([120, 0xEF, 0xBF, 0xBD, 121] : GoString) ≠ [120, 0, 121] ∧
    ¬ Carries [120, 0xEF, 0xBF, 0xBD, 121] [120, 0, 121] ∧
    ¬ (∀ (fields : IntMap) (e : Encoder) (start : StartElement),
        (fields.map Prod.fst).Nodup → start.Name.Local ≠ [] →
        ∃ entries : List (Int × GoString × GoString),
          (entries.map fun x => (x.1, x.2.1)).Perm fields ∧
          (entries.map fun x => x.1).Sorted (· < ·) ∧
          (∀ x ∈ entries, Carries x.2.2 x.2.1) ∧
          soapMDD.MarshalXML { Fields := fields } e start =
            .ok { out := e.out ++ [.startElement start] ++
                    entries.flatMap (fun x => fieldElement x.1 x.2.2) ++
                    [.endElement start.Name],
                  tags := e.tags }) := by
  refine ⟨rfl, by decide, ?_, fun H => ?_⟩
  · rintro ⟨rs, h1, h2, -⟩
    exact not_legalText_nul ⟨rs, h1, h2⟩
  · obtain ⟨entries, hp, -, hc, -⟩ :=
      H [(1, [120, 0, 121])] { out := [], tags := [] } exampleWrapper (by decide) (by decide)
    have h1 := List.perm_singleton.1 hp
    match entries, h1, hc with
    | [], h1, _ => cases h1
    | [x], h1, hc =>
      simp only [List.map_cons, List.map_nil, List.cons.injEq, and_true, Prod.mk.injEq] at h1
      obtain ⟨rs, hr1, hr2, -⟩ := hc x (List.mem_singleton_self x)
      rw [h1.2] at hr2
      exact not_legalText_nul ⟨rs, hr1, hr2⟩
    | _ :: _ :: _, h1, _ =>
      simp only [List.map_cons, List.cons.injEq, and_false, reduceCtorEq] at h1

/-- Witness for C1 (amended): the map with keys 3, 1, 2, whose children are
`ns1:field1`, `ns1:field2`, `ns1:field3` in this order; the value `a&b` is written
with the reference of `&`. -/
theorem soapMDD_MarshalXML_children_witness :
    (([(3, str "c"), (1, str "a&b"), (2, str "b")] : IntMap).map Prod.fst).Nodup ∧
    exampleWrapper.Name.Local ≠ [] ∧
    (∃ entries : List (Int × GoString × GoString),
      (entries.map fun x => (x.1, x.2.1)).Perm [(3, str "c"), (1, str "a&b"), (2, str "b")] ∧
      (entries.map fun x => x.1).Sorted (· < ·) ∧
      (∀ x ∈ entries, WrittenAs x.2.1 x.2.2 ∧ (∀ t, WrittenAs x.2.1 t → t = x.2.2) ∧
        (Carries x.2.2 x.2.1 ↔ LegalText x.2.1)) ∧
      soapMDD.MarshalXML { Fields := [(3, str "c"), (1, str "a&b"), (2, str "b")] }
          { out := [], tags := [] } exampleWrapper =
        .ok { out := [] ++ [.startElement exampleWrapper] ++
                entries.flatMap (fun x => fieldElement x.1 x.2.2) ++
                [.endElement exampleWrapper.Name],
              tags := [] } ∧
      ∀ fields' : IntMap, fields'.Perm [(3, str "c"), (1, str "a&b"), (2, str "b")] →
        soapMDD.MarshalXML { Fields := fields' } { out := [], tags := [] } exampleWrapper =
          soapMDD.MarshalXML { Fields := [(3, str "c"), (1, str "a&b"), (2, str "b")] }
            { out := [], tags := [] } exampleWrapper) ∧
    soapMDD.MarshalXML { Fields := [(3, str "c"), (1, str "a&b"), (2, str "b")] }
        { out := [], tags := [] } exampleWrapper =
      .ok { out :=
              [ .startElement exampleWrapper,
                .startElement { Name := { Space := [], Local := str "ns1:field1" }, Attr := [] },
                .charData (str "a&amp;b"),
                .endElement { Space := [], Local := str "ns1:field1" },
                .startElement { Name := { Space := [], Local := str "ns1:field2" }, Attr := [] },
                .charData (str "b"),
                .endElement { Space := [], Local := str "ns1:field2" },
                .startElement { Name := { Space := [], Local := str "ns1:field3" }, Attr := [] },
                .charData (str "c"),
                .endElement { Space := [], Local := str "ns1:field3" },
                .endElement exampleWrapper.Name ],
            tags := [] } :=
  ⟨by decide, by decide,
    soapMDD_MarshalXML_children [(3, str "c"), (1, str "a&b"), (2, str "b")]
      { out := [], tags := [] } exampleWrapper (by decide) (by decide),
    rfl⟩

/-! ## Card brand, card type and BIN -/

theorem decVal_lt (s : GoString) (h : AllDigits s) : decVal s < 10 ^ s.length := by
  induction s with
  | nil => simp [decVal]
  | cons d ds ih =>
    have hd := h d (List.mem_cons_self _ _)
    have := ih (fun b hb => h b (List.mem_cons_of_mem _ hb))
    simp only [decVal, List.length_cons, pow_succ]
    have h9 : d - 48 ≤ 9 := by omega
    nlinarith [Nat.mul_le_mul_right (10 ^ ds.length) h9]

theorem le_iff_decVal (a b : GoString) (ha : AllDigits a) (hb : AllDigits b)
    (hl : a.length = b.length) : GoString.le a b = true ↔ decVal a ≤ decVal b := by
  induction a generalizing b with
  | nil => cases b with
    | nil => simp [GoString.le, decVal]
    | cons y ys => simp at hl
  | cons x xs ih => cases b with
    | nil => simp at hl
    | cons y ys =>
      have hx := ha x (List.mem_cons_self _ _)
      have hy := hb y (List.mem_cons_self _ _)
      have hxs : AllDigits xs := fun b hb => ha b (List.mem_cons_of_mem _ hb)
      have hys : AllDigits ys := fun b h => hb b (List.mem_cons_of_mem _ h)
      have hl' : xs.length = ys.length := by simpa using hl
      have ihh := ih ys hxs hys hl'
      have b1 := decVal_lt xs hxs
      have b2 := decVal_lt ys hys
      simp only [GoString.le, decVal, Bool.or_eq_true, decide_eq_true_eq, Bool.and_eq_true,
        beq_iff_eq, ihh, hl']
      rw [hl'] at b1
      constructor
      · rintro (h | ⟨h, h'⟩)
        · have : (x - 48) + 1 ≤ y - 48 := by omega
          nlinarith [Nat.mul_le_mul_right (10 ^ ys.length) this]
        · subst h; omega
      · intro h
        by_cases hlt : x < y
        · exact Or.inl hlt
        · right
          have hge : y ≤ x := by omega
          by_cases heq : x = y
          · subst heq; exact ⟨rfl, by omega⟩
          · exfalso
            have : (y - 48) + 1 ≤ x - 48 := by omega
            nlinarith [Nat.mul_le_mul_right (10 ^ ys.length) this]

theorem AllDigits.take {s : GoString} (h : AllDigits s) (n : Nat) : AllDigits (s.take n) :=
  fun b hb => h b (List.mem_of_mem_take hb)

theorem leading_head {s : GoString} {n lo hi : Nat} (hd : AllDigits s)
    (h : LeadingIn s (n + 1) lo hi) :
    ∃ d, s.head? = some d ∧ 48 ≤ d ∧ d ≤ 57 ∧ (d - 48) * 10 ^ n ≤ hi ∧
      lo < (d - 48 + 1) * 10 ^ n := by
  obtain ⟨hlen, hlo, hhi⟩ := h
  cases s with
  | nil => simp at hlen
  | cons d rest =>
    have hdd := hd d (List.mem_cons_self _ _)
    have hr : AllDigits rest := fun b hb => hd b (List.mem_cons_of_mem _ hb)
    have hlen' : n ≤ rest.length := by simpa using hlen
    have hb := decVal_lt _ (hr.take n)
    simp only [List.take_succ_cons, decVal, List.length_take, min_eq_left hlen'] at hlo hhi hb
    refine ⟨d, rfl, hdd.1, hdd.2, by omega, ?_⟩
    rw [Nat.add_mul]
    omega

/-- The range tests of the source, on a digit string, are numeric range tests. -/
theorem range_iff {s : GoString} (hd : AllDigits s) (n : Nat) (lo hi : GoString)
    (hlo : AllDigits lo) (hhi : AllDigits hi) (hln : lo.length = n) (hhn : hi.length = n) :
    (s.length ≥ n ∧ (GoString.le lo (s.take n) && GoString.le (s.take n) hi) = true) ↔
      LeadingIn s n (decVal lo) (decVal hi) := by
  unfold LeadingIn
  constructor
  · rintro ⟨h1, h2⟩
    have hl : (s.take n).length = n := by simp [List.length_take]; omega
    rw [Bool.and_eq_true, le_iff_decVal _ _ hlo (hd.take n) (by rw [hl, hln]),
      le_iff_decVal _ _ (hd.take n) hhi (by rw [hl, hhn])] at h2
    exact ⟨h1, h2⟩
  · rintro ⟨h1, h2, h3⟩
    have hl : (s.take n).length = n := by simp [List.length_take]; omega
    refine ⟨h1, ?_⟩
    rw [Bool.and_eq_true, le_iff_decVal _ _ hlo (hd.take n) (by rw [hl, hln]),
      le_iff_decVal _ _ (hd.take n) hhi (by rw [hl, hhn])]
    exact ⟨h2, h3⟩

theorem take_eq_iff_starts (s lit : GoString) (n : Nat) (hn : lit.length = n) :
    (s.length ≥ n ∧ s.take n = lit) ↔ lit <+: s := by
  constructor
  · rintro ⟨_, h⟩
    rw [← h]; exact List.take_prefix _ _
  · intro h
    refine ⟨by rw [← hn]; exact h.length_le, ?_⟩
    rw [← hn]; exact (List.prefix_iff_eq_take.1 h).symm

theorem head_of_starts {s : GoString} {d : Nat} {rest : GoString} (h : (d :: rest) <+: s) :
    s.head? = some d := by
  obtain ⟨t, rfl⟩ := h
  rfl

/-- The source function as a cascade over the numeric rules. -/
theorem DetectCardBrand_cascade (number : GoString) (hd : AllDigits number) :
    DetectCardBrand number =
      if number = [] then str ""
      else if str "4" <+: number then str "visa"
      else if str "34" <+: number ∨ str "37" <+: number then str "amex"
      else if LeadingIn number 2 51 55 then str "mastercard"
      else if LeadingIn number 4 2221 2720 then str "mastercard"
      else if str "65" <+: number then str "discover"
      else if LeadingIn number 3 644 649 then str "discover"
      else if str "6011" <+: number then str "discover"
      else if LeadingIn number 6 622126 622925 then str "discover"
      else str "" := by
  have e0 : (number.length < 1) ↔ number = [] := by
    cases number <;> simp
  have e1 : number.head? = some 52 ↔ str "4" <+: number := by
    cases number with
    | nil => simp [str]
    | cons d r => simp [str, List.prefix_cons_inj, eq_comm]
  have e2 : (number.length ≥ 2 ∧ (number.take 2 = str "34" ∨ number.take 2 = str "37")) ↔
      (str "34" <+: number ∨ str "37" <+: number) := by
    rw [← take_eq_iff_starts number (str "34") 2 rfl, ← take_eq_iff_starts number (str "37") 2 rfl]
    tauto
  have e3 := range_iff hd 2 (str "51") (str "55") (by decide) (by decide) rfl rfl
  have e4 := range_iff hd 4 (str "2221") (str "2720") (by decide) (by decide) rfl rfl
  have e5 := take_eq_iff_starts number (str "65") 2 rfl
  have e6 := range_iff hd 3 (str "644") (str "649") (by decide) (by decide) rfl rfl
  have e7 := take_eq_iff_starts number (str "6011") 4 rfl
  have e8 := range_iff hd 6 (str "622126") (str "622925") (by decide) (by decide) rfl rfl
  have v1 : decVal (str "51") = 51 := by decide
  have v2 : decVal (str "55") = 55 := by decide
  have v3 : decVal (str "2221") = 2221 := by decide
  have v4 : decVal (str "2720") = 2720 := by decide
  have v5 : decVal (str "644") = 644 := by decide
  have v6 : decVal (str "649") = 649 := by decide
  have v7 : decVal (str "622126") = 622126 := by decide
  have v8 : decVal (str "622925") = 622925 := by decide
  rw [v1, v2] at e3
  rw [v3, v4] at e4
  rw [v5, v6] at e6
  rw [v7, v8] at e8
  have a4 : (number.length ≥ 2 ∧ number.length ≥ 4 ∧
      (GoString.le (str "2221") (number.take 4) && GoString.le (number.take 4) (str "2720")) = true)
      ↔ LeadingIn number 4 2221 2720 := by
    rw [← e4]; constructor
    · rintro ⟨_, h⟩; exact h
    · rintro ⟨h1, h2⟩; exact ⟨by omega, h1, h2⟩
  have a6 : (number.length ≥ 2 ∧ number.length ≥ 3 ∧
      (GoString.le (str "644") (number.take 3) && GoString.le (number.take 3) (str "649")) = true)
      ↔ LeadingIn number 3 644 649 := by
    rw [← e6]; constructor
    · rintro ⟨_, h⟩; exact h
    · rintro ⟨h1, h2⟩; exact ⟨by omega, h1, h2⟩
  have a7 : (number.length ≥ 2 ∧ number.length ≥ 4 ∧ number.take 4 = str "6011") ↔
      str "6011" <+: number := by
    rw [← e7]; constructor
    · rintro ⟨_, h⟩; exact h
    · rintro ⟨h1, h2⟩; exact ⟨by omega, h1, h2⟩
  have a8 : (number.length ≥ 2 ∧ number.length ≥ 6 ∧
      (GoString.le (str "622126") (number.take 6) && GoString.le (number.take 6) (str "622925")) = true)
      ↔ LeadingIn number 6 622126 622925 := by
    rw [← e8]; constructor
    · rintro ⟨_, h⟩; exact h
    · rintro ⟨h1, h2⟩; exact ⟨by omega, h1, h2⟩
  unfold DetectCardBrand
  simp only [e0, e1, e2, e3, a4, e5, a6, a7, a8]

theorem leading_head_digit {s : GoString} {n lo hi : Nat} (d0 : Nat) (hd : AllDigits s)
    (h : LeadingIn s (n + 1) lo hi) (h1 : hi < (d0 + 1) * 10 ^ n) (h2 : d0 * 10 ^ n ≤ lo) :
    s.head? = some (d0 + 48) := by
  obtain ⟨d, hh, g1, g2, g3, g4⟩ := leading_head hd h
  rw [hh]
  have hp : 0 < 10 ^ n := by positivity
  have a1 : d - 48 < d0 + 1 := by
    by_contra hc
    have : (d0 + 1) * 10 ^ n ≤ (d - 48) * 10 ^ n := Nat.mul_le_mul_right _ (by omega)
    omega
  have a2 : d0 < d - 48 + 1 := by
    by_contra hc
    have : (d - 48 + 1) * 10 ^ n ≤ d0 * 10 ^ n := Nat.mul_le_mul_right _ (by omega)
    omega
  congr 1
  omega

/-- Propositional core of the rule cascade: the rules are told apart by the first byte. -/
theorem cascade_logic {α : Type} (o : Option Nat) (pE pV pA pM1 pM2 pD1 pD2 pD3 pD4 : Prop)
    [Decidable pE] [Decidable pV] [Decidable pA] [Decidable pM1] [Decidable pM2]
    [Decidable pD1] [Decidable pD2] [Decidable pD3] [Decidable pD4]
    (sV sA sM sD sN : α)
    (n1 : sV ≠ sA) (n2 : sV ≠ sM) (n3 : sV ≠ sD) (n4 : sV ≠ sN) (n5 : sA ≠ sM) (n6 : sA ≠ sD)
    (n7 : sA ≠ sN) (n8 : sM ≠ sD) (n9 : sM ≠ sN) (n10 : sD ≠ sN)
    (hE : pE → o = none) (hV : pV → o = some 52) (hA : pA → o = some 51)
    (hM1 : pM1 → o = some 53) (hM2 : pM2 → o = some 50) (hD1 : pD1 → o = some 54)
    (hD2 : pD2 → o = some 54) (hD3 : pD3 → o = some 54) (hD4 : pD4 → o = some 54) :
    let r := if pE then sN else if pV then sV else if pA then sA else if pM1 then sM
      else if pM2 then sM else if pD1 then sD else if pD2 then sD else if pD3 then sD
      else if pD4 then sD else sN
    (r = sV ↔ pV) ∧ (r = sA ↔ pA) ∧ (r = sM ↔ (pM1 ∨ pM2)) ∧
    (r = sD ↔ (pD1 ∨ pD2 ∨ pD3 ∨ pD4)) ∧
    (r = sN ↔ ¬ pV ∧ ¬ pA ∧ ¬ (pM1 ∨ pM2) ∧ ¬ (pD1 ∨ pD2 ∨ pD3 ∨ pD4)) := by
  intro r
  simp only [r]
  by_cases e : pE
  · have o0 := hE e
    rw [o0] at hV hA hM1 hM2 hD1 hD2 hD3 hD4
    simp only [reduceCtorEq, imp_false] at hV hA hM1 hM2 hD1 hD2 hD3 hD4
    simp [e, hV, hA, hM1, hM2, hD1, hD2, hD3, hD4, n4.symm, n7.symm, n9.symm, n10.symm]
  by_cases v : pV
  · have o0 := hV v
    rw [o0] at hA hM1 hM2 hD1 hD2 hD3 hD4
    simp only [Option.some.injEq, Nat.reduceEqDiff, imp_false] at hA hM1 hM2 hD1 hD2 hD3 hD4
    simp [e, v, hA, hM1, hM2, hD1, hD2, hD3, hD4, n1, n2, n3, n4]
  by_cases a : pA
  · have o0 := hA a
    rw [o0] at hM1 hM2 hD1 hD2 hD3 hD4
    simp only [Option.some.injEq, Nat.reduceEqDiff, imp_false] at hM1 hM2 hD1 hD2 hD3 hD4
    simp [e, v, a, hM1, hM2, hD1, hD2, hD3, hD4, n1.symm, n5, n6, n7]
  by_cases m1 : pM1
  · have o0 := hM1 m1
    rw [o0] at hD1 hD2 hD3 hD4
    simp only [Option.some.injEq, Nat.reduceEqDiff, imp_false] at hD1 hD2 hD3 hD4
    simp [e, v, a, m1, hD1, hD2, hD3, hD4, n2.symm, n5.symm, n8, n9]
  by_cases m2 : pM2
  · have o0 := hM2 m2
    rw [o0] at hD1 hD2 hD3 hD4
    simp only [Option.some.injEq, Nat.reduceEqDiff, imp_false] at hD1 hD2 hD3 hD4
    simp [e, v, a, m1, m2, hD1, hD2, hD3, hD4, n2.symm, n5.symm, n8, n9]
  by_cases d1 : pD1
  · simp [e, v, a, m1, m2, d1, n3.symm, n6.symm, n8.symm, n10]
  by_cases d2 : pD2
  · simp [e, v, a, m1, m2, d1, d2, n3.symm, n6.symm, n8.symm, n10]
  by_cases d3 : pD3
  · simp [e, v, a, m1, m2, d1, d2, d3, n3.symm, n6.symm, n8.symm, n10]
  by_cases d4 : pD4
  · simp [e, v, a, m1, m2, d1, d2, d3, d4, n3.symm, n6.symm, n8.symm, n10]
  simp [e, v, a, m1, m2, d1, d2, d3, d4, n4.symm, n7.symm, n9.symm, n10.symm]

/-- C2. On a card number made of decimal digits only, `DetectCardBrand` returns
"visa" iff the number starts with 4; "amex" iff it starts with 34 or 37; "mastercard"
iff its two-digit start is in 51..55 or its four-digit start is in 2221..2720;
"discover" iff it starts with 65, or its three-digit start is in 644..649, or it
starts with 6011, or its six-digit start is in 622126..622925; and the empty string
exactly when none of these rules applies (which covers the empty input and inputs too
short for a rule). -/
theorem DetectCardBrand_rules (number : GoString) (hd : AllDigits number) :
    (DetectCardBrand number = str "visa" ↔ str "4" <+: number) ∧
    (DetectCardBrand number = str "amex" ↔ (str "34" <+: number ∨ str "37" <+: number)) ∧
    (DetectCardBrand number = str "mastercard" ↔
      (LeadingIn number 2 51 55 ∨ LeadingIn number 4 2221 2720)) ∧
    (DetectCardBrand number = str "discover" ↔
      (str "65" <+: number ∨ LeadingIn number 3 644 649 ∨ str "6011" <+: number ∨
        LeadingIn number 6 622126 622925)) ∧
    (DetectCardBrand number = str "" ↔
      ¬ (str "4" <+: number) ∧ ¬ (str "34" <+: number ∨ str "37" <+: number) ∧
      ¬ (LeadingIn number 2 51 55 ∨ LeadingIn number 4 2221 2720) ∧
      ¬ (str "65" <+: number ∨ LeadingIn number 3 644 649 ∨ str "6011" <+: number ∨
        LeadingIn number 6 622126 622925)) := by
  rw [DetectCardBrand_cascade number hd]
  exact cascade_logic number.head? (number = []) _ _ _ _ _ _ _ _
    (str "visa") (str "amex") (str "mastercard") (str "discover") (str "")
    (by decide) (by decide) (by decide) (by decide) (by decide) (by decide) (by decide)
    (by decide) (by decide) (by decide)
    (fun h => by rw [h]; rfl)
    (fun h => head_of_starts h)
    (fun h => h.elim (fun h => head_of_starts h) (fun h => head_of_starts h))
    (fun h => leading_head_digit 5 hd h (by norm_num) (by norm_num))
    (fun h => leading_head_digit 2 hd h (by norm_num) (by norm_num))
    (fun h => head_of_starts h)
    (fun h => leading_head_digit 6 hd h (by norm_num) (by norm_num))
    (fun h => head_of_starts h)
    (fun h => leading_head_digit 6 hd h (by norm_num) (by norm_num))

/-- Witness for C2: 5500000000000004 is classified as mastercard. -/
theorem DetectCardBrand_rules_witness :
    AllDigits (str "5500000000000004") ∧
    DetectCardBrand (str "5500000000000004") = str "mastercard" :=
  ⟨by decide,
   (DetectCardBrand_rules (str "5500000000000004") (by decide)).2.2.1.2 (Or.inl (by decide))⟩

/-- The card block of the envelope built for a request. -/
theorem buildSOAPRequest_card (cfg : Config) (rt : GoRuntime) (req : RiskAnalysisRequest) :
    (buildSOAPRequest cfg rt req).Body.RequestMessage.Card = some
      { AccountNumber := req.Card.Number,
        ExpirationMonth := req.Card.ExpirationMonth,
        ExpirationYear := req.Card.ExpirationYear,
        CardType := if req.Card.CardType = [] then
            mapIndexStr CyberSourceCardTypeCode (DetectCardBrand req.Card.Number)
          else req.Card.CardType,
        Bin := if req.Card.Number.length ≥ 6 then req.Card.Number.take 6 else [] } := by
  unfold buildSOAPRequest
  simp only
  split <;> rfl

/-- `DetectCardBrand` returns one of its five results. -/
theorem DetectCardBrand_range (number : GoString) :
    DetectCardBrand number = str "visa" ∨ DetectCardBrand number = str "mastercard" ∨
    DetectCardBrand number = str "amex" ∨ DetectCardBrand number = str "discover" ∨
    DetectCardBrand number = str "" := by
  unfold DetectCardBrand
  split_ifs <;> simp

/-- C3. The card type code that `buildSOAPRequest` puts in the card block is the
request's `CardType` verbatim when that is non-empty; otherwise it is the code of the
detected brand: 001 for visa, 002 for mastercard, 003 for amex, 004 for discover and
the empty string when no brand is detected. In particular 4111111111111111 gives 001,
5500000000000004 gives 002, 340000000000009 gives 003, 6011000000000000 gives 004 and
000000000000 gives the empty code. -/
theorem buildSOAPRequest_cardType (cfg : Config) (rt : GoRuntime) (req : RiskAnalysisRequest) :
    ∃ card : soapCard,
      (buildSOAPRequest cfg rt req).Body.RequestMessage.Card = some card ∧
      (req.Card.CardType ≠ [] → card.CardType = req.Card.CardType) ∧
      (req.Card.CardType = [] →
        (DetectCardBrand req.Card.Number = str "visa" ∧ card.CardType = str "001") ∨
        (DetectCardBrand req.Card.Number = str "mastercard" ∧ card.CardType = str "002") ∨
        (DetectCardBrand req.Card.Number = str "amex" ∧ card.CardType = str "003") ∨
        (DetectCardBrand req.Card.Number = str "discover" ∧ card.CardType = str "004") ∨
        (DetectCardBrand req.Card.Number = str "" ∧ card.CardType = str "")) ∧
      (req.Card.CardType = [] →
        (req.Card.Number = str "4111111111111111" → card.CardType = str "001") ∧
        (req.Card.Number = str "5500000000000004" → card.CardType = str "002") ∧
        (req.Card.Number = str "340000000000009" → card.CardType = str "003") ∧
        (req.Card.Number = str "6011000000000000" → card.CardType = str "004") ∧
        (req.Card.Number = str "000000000000" → card.CardType = str "")) := by
  refine ⟨_, buildSOAPRequest_card cfg rt req, ?_, ?_, ?_⟩
  · intro h; simp only [if_neg h]
  · intro h
    simp only [if_pos h]
    rcases DetectCardBrand_range req.Card.Number with h | h | h | h | h <;> rw [h]
    · exact Or.inl ⟨rfl, by decide⟩
    · exact Or.inr (Or.inl ⟨rfl, by decide⟩)
    · exact Or.inr (Or.inr (Or.inl ⟨rfl, by decide⟩))
    · exact Or.inr (Or.inr (Or.inr (Or.inl ⟨rfl, by decide⟩)))
    · exact Or.inr (Or.inr (Or.inr (Or.inr ⟨rfl, by decide⟩)))
  · intro h
    simp only [if_pos h]
    refine ⟨?_, ?_, ?_, ?_, ?_⟩ <;> intro hn <;> rw [hn] <;> decide

/-- Witness for C3: 4111111111111111 without explicit type gets code 001. -/
theorem buildSOAPRequest_cardType_witness :
    ∃ card : soapCard,
      (buildSOAPRequest exampleConfig exampleRuntime
        (exampleRequest (str "4111111111111111"))).Body.RequestMessage.Card = some card ∧
      card.CardType = str "001" :=
  match buildSOAPRequest_cardType exampleConfig exampleRuntime
      (exampleRequest (str "4111111111111111")) with
  | ⟨card, h1, _, _, h4⟩ => ⟨card, h1, (h4 rfl).1 rfl⟩

/-- C4, counterexample. For the card number 41111 (five digits) the card block built
by `buildSOAPRequest` has an empty `Bin`, so it is not true that every request gets a
six-byte bin field that is written on the wire. -/
theorem buildSOAPRequest_bin_short_number :
    (buildSOAPRequest exampleConfig exampleRuntime
        (exampleRequest (str "41111"))).Body.RequestMessage.Card =
      some { AccountNumber := str "41111", ExpirationMonth := str "12",
             ExpirationYear := str "2027", CardType := str "001", Bin := [] } ∧
    ¬ (∀ (cfg : Config) (rt : GoRuntime) (req : RiskAnalysisRequest),
        ∃ card : soapCard,
          (buildSOAPRequest cfg rt req).Body.RequestMessage.Card = some card ∧
          card.Bin.length = 6 ∧ card.Bin <+: req.Card.Number ∧
          (str "ns1:bin", card.Bin) ∈ card.marshalChildren) := by
  refine ⟨by decide, fun h => ?_⟩
  obtain ⟨card, h1, h2, -, -⟩ := h exampleConfig exampleRuntime (exampleRequest (str "41111"))
  rw [buildSOAPRequest_card] at h1
  cases h1
  revert h2
  decide

/-- C4, amended. Whatever the classification outcome, when the card number has at
least six bytes the card block's `Bin` is its first six bytes (non-empty, hence written
as the `ns1:bin` element); when the card number is shorter, `Bin` is the empty string
and no `ns1:bin` element is written. -/
theorem buildSOAPRequest_bin (cfg : Config) (rt : GoRuntime) (req : RiskAnalysisRequest) :
    ∃ card : soapCard,
      (buildSOAPRequest cfg rt req).Body.RequestMessage.Card = some card ∧
      (6 ≤ req.Card.Number.length →
        card.Bin = req.Card.Number.take 6 ∧ card.Bin.length = 6 ∧
        (str "ns1:bin", card.Bin) ∈ card.marshalChildren) ∧
      (req.Card.Number.length < 6 →
        card.Bin = [] ∧ ∀ v, (str "ns1:bin", v) ∉ card.marshalChildren) := by
  refine ⟨_, buildSOAPRequest_card cfg rt req, ?_, ?_⟩
  · intro h
    have hl : (req.Card.Number.take 6).length = 6 := by
      rw [List.length_take]; omega
    have hne : req.Card.Number.take 6 ≠ [] := by
      intro h0; rw [h0] at hl; simp at hl
    simp only [ge_iff_le, h, if_true]
    refine ⟨trivial, hl, ?_⟩
    simp [soapCard.marshalChildren, hne]
  · intro h
    have h' : ¬ (req.Card.Number.length ≥ 6) := by omega
    simp only [h', if_false]
    refine ⟨trivial, fun v => ?_⟩
    have n1 : str "ns1:bin" ≠ str "ns1:accountNumber" := by decide
    have n2 : str "ns1:bin" ≠ str "ns1:expirationMonth" := by decide
    have n3 : str "ns1:bin" ≠ str "ns1:expirationYear" := by decide
    have n4 : str "ns1:bin" ≠ str "ns1:cardType" := by decide
    simp only [soapCard.marshalChildren, if_true, List.append_nil]
    split_ifs <;> simp [n1, n2, n3, n4]

/-- Witness for C4 (amended): 4111111111111111 gets bin 411111. -/
theorem buildSOAPRequest_bin_witness :
    ∃ card : soapCard,
      (buildSOAPRequest exampleConfig exampleRuntime
        (exampleRequest (str "4111111111111111"))).Body.RequestMessage.Card = some card ∧
      card.Bin = str "411111" :=
  match buildSOAPRequest_bin exampleConfig exampleRuntime
      (exampleRequest (str "4111111111111111")) with
  | ⟨card, h1, h2, _⟩ => ⟨card, h1, (h2 (by decide)).1.trans (by decide)⟩

/-! ## Pointers, indentation and the assembled document -/

theorem childElements_cons_elem {c : Token} (cs : List Token) (h : c.isElement = true) :
    childElements (c :: cs) = c :: childElements cs := by
  simp [childElements, List.filter_cons, h]

theorem childElements_cons_other {c : Token} (cs : List Token) (h : c.isElement = false) :
    childElements (c :: cs) = childElements cs := by
  simp [childElements, List.filter_cons, h]

theorem childElements_append (a b : List Token) :
    childElements (a ++ b) = childElements a ++ childElements b := by
  simp [childElements]

theorem isElement_of_mem_childElements {cs : List Token} {t : Token}
    (h : t ∈ childElements cs) : t.isElement = true := by
  simp only [childElements, List.mem_filter] at h
  exact h.2

theorem isElement_of_getElem? {cs : List Token} {k : Nat} {t : Token}
    (h : (childElements cs)[k]? = some t) : t.isElement = true :=
  isElement_of_mem_childElements (List.getElem?_mem h)

theorem getElem?_childElements_modifyNthElem {f : Token → Token} (hf : KeepsElements f)
    (cs : List Token) (k j : Nat) :
    (childElements (modifyNthElem f cs k))[j]? =
      if j = k then ((childElements cs)[k]?).map f else (childElements cs)[j]? := by
  induction cs generalizing k j with
  | nil => simp [modifyNthElem, childElements]
  | cons c cs ih =>
    by_cases hc : c.isElement = true
    · cases k with
      | zero =>
        simp only [modifyNthElem, hc, if_true]
        rw [childElements_cons_elem _ (hf c hc), childElements_cons_elem _ hc]
        cases j with
        | zero => simp
        | succ j => simp
      | succ k =>
        simp only [modifyNthElem, hc, if_true]
        rw [childElements_cons_elem _ hc, childElements_cons_elem _ hc]
        cases j with
        | zero => simp
        | succ j => simp [ih k j]
    · have hc' : c.isElement = false := by simpa using hc
      simp only [modifyNthElem, hc', Bool.false_eq_true, if_false]
      rw [childElements_cons_other _ hc', childElements_cons_other _ hc']
      exact ih k j

theorem length_childElements_modifyNthElem {f : Token → Token} (hf : KeepsElements f)
    (cs : List Token) (k : Nat) :
    (childElements (modifyNthElem f cs k)).length = (childElements cs).length := by
  induction cs generalizing k with
  | nil => simp [modifyNthElem, childElements]
  | cons c cs ih =>
    by_cases hc : c.isElement = true
    · cases k with
      | zero =>
        simp only [modifyNthElem, hc, if_true]
        rw [childElements_cons_elem _ (hf c hc), childElements_cons_elem _ hc]
        simp
      | succ k =>
        simp only [modifyNthElem, hc, if_true]
        rw [childElements_cons_elem _ hc, childElements_cons_elem _ hc]
        simp [ih k]
    · have hc' : c.isElement = false := by simpa using hc
      simp only [modifyNthElem, hc', Bool.false_eq_true, if_false]
      rw [childElements_cons_other _ hc', childElements_cons_other _ hc']
      exact ih k

theorem keepsElements_mapChildren (g : List Token → List Token) :
    KeepsElements (Token.mapChildren g) := by
  intro t ht
  cases t <;> simp_all [Token.mapChildren, Token.isElement]

theorem keepsElements_mapAttrs (g : List Attr → List Attr) :
    KeepsElements (Token.mapAttrs g) := by
  intro t ht
  cases t <;> simp_all [Token.mapAttrs, Token.isElement]

theorem children_mapChildren {t : Token} (g : List Token → List Token)
    (ht : t.isElement = true) : (t.mapChildren g).children = g t.children := by
  cases t <;> simp_all [Token.mapChildren, Token.isElement, Token.children]

theorem deref_cons (cs : List Token) (k : Nat) (p : List Nat) :
    deref cs (k :: p) =
      ((childElements cs)[k]?).bind fun t => if p.isEmpty then some t else deref t.children p := by
  simp only [deref]
  cases (childElements cs)[k]? <;> rfl

theorem update_cons (f : Token → Token) (cs : List Token) (k : Nat) (p : List Nat) :
    update f cs (k :: p) =
      if p.isEmpty then modifyNthElem f cs k
      else modifyNthElem (Token.mapChildren fun c => update f c p) cs k := by
  simp only [update]

/-- Reading through the pointer that was written through. -/
theorem deref_update_same {f : Token → Token} (hf : KeepsElements f) (cs : List Token)
    (p : List Nat) : deref (update f cs p) p = (deref cs p).map f := by
  induction p generalizing cs with
  | nil => simp [deref, update]
  | cons k p ih =>
    rw [deref_cons, update_cons, deref_cons]
    by_cases hp : p.isEmpty = true
    · simp only [hp, if_true]
      rw [getElem?_childElements_modifyNthElem hf]
      simp only [if_true]
      cases (childElements cs)[k]? <;> simp
    · simp only [hp, Bool.false_eq_true, if_false]
      rw [getElem?_childElements_modifyNthElem (keepsElements_mapChildren _)]
      simp only [if_true]
      cases h : (childElements cs)[k]? with
      | none => simp
      | some t =>
        simp only [Option.map_some', Option.some_bind]
        rw [children_mapChildren _ (isElement_of_getElem? h)]
        exact ih t.children

/-- A pointer extended by further steps. -/
theorem deref_append (cs : List Token) (p r : List Nat) (hp : p ≠ []) (hr : r ≠ []) :
    deref cs (p ++ r) = (deref cs p).bind fun t => deref t.children r := by
  induction p generalizing cs with
  | nil => exact absurd rfl hp
  | cons k p ih =>
    rw [List.cons_append, deref_cons, deref_cons]
    cases h : (childElements cs)[k]? with
    | none => simp
    | some t =>
      simp only [Option.some_bind]
      by_cases hp' : p = []
      · subst hp'
        have : r.isEmpty = false := by cases r <;> simp_all
        simp [this]
      · have h1 : (p ++ r).isEmpty = false := by cases p <;> simp_all
        have h2 : p.isEmpty = false := by cases p <;> simp_all
        simp only [h1, h2, Bool.false_eq_true, if_false]
        exact ih t.children hp'

theorem update_append (f : Token → Token) (cs : List Token) (p r : List Nat) (hp : p ≠ [])
    (hr : r ≠ []) :
    update f cs (p ++ r) = update (Token.mapChildren fun c => update f c r) cs p := by
  induction p generalizing cs with
  | nil => exact absurd rfl hp
  | cons k p ih =>
    rw [List.cons_append, update_cons, update_cons]
    by_cases hp' : p = []
    · subst hp'
      have : r.isEmpty = false := by cases r <;> simp_all
      simp [this]
    · have h1 : (p ++ r).isEmpty = false := by cases p <;> simp_all
      have h2 : p.isEmpty = false := by cases p <;> simp_all
      simp only [h1, h2, Bool.false_eq_true, if_false]
      congr 1
      funext c
      congr 1
      funext c'
      exact ih c' hp'

theorem isElement_of_deref {cs : List Token} {p : List Nat} {t : Token}
    (h : deref cs p = some t) : t.isElement = true := by
  induction p generalizing cs with
  | nil => simp [deref] at h
  | cons k p ih =>
    rw [deref_cons] at h
    cases hk : (childElements cs)[k]? with
    | none => simp [hk] at h
    | some u =>
      simp only [hk, Option.some_bind] at h
      by_cases hp : p.isEmpty = true
      · simp only [hp, if_true, Option.some.injEq] at h
        subst h
        exact isElement_of_getElem? hk
      · simp only [hp, Bool.false_eq_true, if_false] at h
        exact ih h

/-- Reading below the pointer that was written through. -/
theorem deref_update_below {f : Token → Token} (hf : KeepsElements f) (cs : List Token)
    (p r : List Nat) (hp : p ≠ []) (hr : r ≠ []) :
    deref (update f cs p) (p ++ r) = (deref cs p).bind fun t => deref (f t).children r := by
  rw [deref_append _ _ _ hp hr, deref_update_same hf]
  cases deref cs p <;> simp

/-- Reading above the pointer that was written through. -/
theorem deref_update_above (f : Token → Token) (cs : List Token)
    (q r : List Nat) (hq : q ≠ []) (hr : r ≠ []) :
    deref (update f cs (q ++ r)) q =
      (deref cs q).map (Token.mapChildren fun c => update f c r) := by
  rw [update_append _ _ _ _ hq hr, deref_update_same (keepsElements_mapChildren _)]

theorem deref_update_diverge_head {f : Token → Token} (hf : KeepsElements f) (cs : List Token)
    (i j : Nat) (p q : List Nat) (hij : i ≠ j) :
    deref (update f cs (i :: p)) (j :: q) = deref cs (j :: q) := by
  rw [deref_cons, deref_cons, update_cons]
  by_cases hp : p.isEmpty = true
  · simp only [hp, if_true]
    rw [getElem?_childElements_modifyNthElem hf]
    simp [Ne.symm hij]
  · simp only [hp, Bool.false_eq_true, if_false]
    rw [getElem?_childElements_modifyNthElem (keepsElements_mapChildren _)]
    simp [Ne.symm hij]

/-- Frame: writing through a pointer leaves what a diverging pointer designates. -/
theorem deref_update_diverge {f : Token → Token} (hf : KeepsElements f) (cs : List Token)
    (r : List Nat) (i j : Nat) (p q : List Nat) (hij : i ≠ j) :
    deref (update f cs (r ++ i :: p)) (r ++ j :: q) = deref cs (r ++ j :: q) := by
  by_cases hr : r = []
  · subst hr
    exact deref_update_diverge_head hf cs i j p q hij
  · rw [update_append _ _ _ _ hr (by simp),
      deref_update_below (keepsElements_mapChildren _) _ _ _ hr (by simp),
      deref_append _ _ _ hr (by simp)]
    cases h : deref cs r with
    | none => simp
    | some t =>
      simp only [Option.some_bind]
      rw [children_mapChildren _ (isElement_of_deref h)]
      exact deref_update_diverge_head hf _ i j p q hij

theorem children_mapAttrs (g : List Attr → List Attr) (t : Token) :
    (t.mapAttrs g).children = t.children := by
  cases t <;> rfl

theorem tag_mapAttrs (g : List Attr → List Attr) (t : Token) : (t.mapAttrs g).tag = t.tag := by
  cases t <;> rfl

theorem tag_mapChildren (g : List Token → List Token) (t : Token) :
    (t.mapChildren g).tag = t.tag := by
  cases t <;> rfl

theorem space_mapChildren (g : List Token → List Token) (t : Token) :
    (t.mapChildren g).space = t.space := by
  cases t <;> rfl

/-! ### Indentation keeps the elements -/

theorem isElement_indent (spaces : Nat) (depth : Int) (t : Token) :
    (Token.indent spaces depth t).isElement = t.isElement := by
  cases t with
  | element s tg a c => simp only [Token.indent]; split <;> rfl
  | charData d w => simp [Token.indent]
  | comment d => simp [Token.indent]
  | directive d => simp [Token.indent]
  | procInst a b => simp [Token.indent]

theorem tag_indent (spaces : Nat) (depth : Int) (t : Token) :
    (Token.indent spaces depth t).tag = t.tag := by
  cases t with
  | element s tg a c => simp only [Token.indent]; split <;> rfl
  | charData d w => simp [Token.indent]
  | comment d => simp [Token.indent]
  | directive d => simp [Token.indent]
  | procInst a b => simp [Token.indent]

theorem space_indent (spaces : Nat) (depth : Int) (t : Token) :
    (Token.indent spaces depth t).space = t.space := by
  cases t with
  | element s tg a c => simp only [Token.indent]; split <;> rfl
  | charData d w => simp [Token.indent]
  | comment d => simp [Token.indent]
  | directive d => simp [Token.indent]
  | procInst a b => simp [Token.indent]

theorem childElements_indentLoop (spaces : Nat) (depth : Int) (b f : Bool) (cs : List Token) :
    childElements (indentLoop spaces depth b f cs) =
      (childElements cs).map (Token.indent spaces (depth + 1)) := by
  induction cs generalizing b f with
  | nil =>
    simp only [indentLoop]
    split <;> simp [childElements, Token.isElement]
  | cons c cs ih =>
    simp only [indentLoop]
    by_cases hw : c.isWhitespace = true
    · have hc : c.isElement = false := by cases c <;> simp_all [Token.isWhitespace, Token.isElement]
      simp only [hw, if_true]
      rw [childElements_cons_other _ hc]
      exact ih b f
    · simp only [hw, Bool.false_eq_true, if_false]
      rw [childElements_append]
      have h1 : childElements (if (!c.isCharData && (!f || decide (depth > 0))) = true then
          [Token.charData (indentString spaces depth) true] else []) = [] := by
        split <;> simp [childElements, Token.isElement]
      rw [h1, List.nil_append]
      by_cases hc : c.isElement = true
      · have hc2 : (Token.indent spaces (depth + 1) c).isElement = true := by
          rw [isElement_indent]; exact hc
        rw [childElements_cons_elem _ hc2, childElements_cons_elem _ hc, ih]
        simp
      · have hc' : c.isElement = false := by simpa using hc
        have hc2 : (Token.indent spaces (depth + 1) c).isElement = false := by
          rw [isElement_indent]; exact hc'
        rw [childElements_cons_other _ hc2, childElements_cons_other _ hc', ih]

theorem childElements_eq_nil_of_all_whitespace (cs : List Token)
    (h : (cs.filter fun x => !x.isWhitespace).isEmpty = true) : childElements cs = [] := by
  rw [List.isEmpty_iff] at h
  simp only [childElements, List.filter_eq_nil_iff] at h ⊢
  intro t ht hte
  have := h t ht
  cases t <;> simp_all [Token.isWhitespace, Token.isElement]

theorem childElements_children_indent (spaces : Nat) (depth : Int) (t : Token) :
    childElements (Token.indent spaces depth t).children =
      (childElements t.children).map (Token.indent spaces (depth + 1)) := by
  cases t with
  | element s tg a c =>
    simp only [Token.indent]
    split
    · rename_i h
      simp only [Token.children]
      rw [childElements_eq_nil_of_all_whitespace c h]
      rfl
    · simp only [Token.children]
      exact childElements_indentLoop _ _ _ _ _
  | charData d w => simp [Token.indent, Token.children, childElements]
  | comment d => simp [Token.indent, Token.children, childElements]
  | directive d => simp [Token.indent, Token.children, childElements]
  | procInst a b => simp [Token.indent, Token.children, childElements]

theorem deref_of_childElements_indent (spaces : Nat) (p : List Nat) :
    ∀ (depth : Int) (xs cs : List Token),
      childElements xs = (childElements cs).map (Token.indent spaces (depth + 1)) →
      deref xs p = (deref cs p).map (Token.indent spaces (depth + p.length)) := by
  induction p with
  | nil => intro depth xs cs _; simp [deref]
  | cons k p ih =>
    intro depth xs cs h
    rw [deref_cons, deref_cons, h, List.getElem?_map]
    cases (childElements cs)[k]? with
    | none => simp
    | some u =>
      simp only [Option.map_some', Option.some_bind]
      by_cases hp : p.isEmpty = true
      · have : p = [] := List.isEmpty_iff.1 hp
        subst this
        simp
      · simp only [hp, Bool.false_eq_true, if_false]
        rw [ih (depth + 1) _ u.children (childElements_children_indent _ _ _)]
        have e : depth + 1 + (p.length : Int) = depth + ((k :: p).length : Int) := by
          simp only [List.length_cons, Nat.cast_add, Nat.cast_one]
          omega
        rw [e]

theorem childElements_Indent (doc : Document) (spaces : Nat) :
    childElements (doc.Indent spaces) = (childElements doc).map (Token.indent spaces 1) := by
  unfold Document.Indent
  split
  · rename_i h
    rw [childElements_eq_nil_of_all_whitespace doc h]
    rfl
  · exact childElements_indentLoop _ _ _ _ _

/-- A pointer held before `Indent` designates, after it, the indented element. -/
theorem deref_Indent (doc : Document) (spaces : Nat) (p : List Nat) :
    deref (doc.Indent spaces) p = (deref doc p).map (Token.indent spaces p.length) := by
  have := deref_of_childElements_indent spaces p 0 (doc.Indent spaces) doc
    (by simpa using childElements_Indent doc spaces)
  simpa using this

theorem findChildFrom_some {name : GoString} {cs : List Token} {i n : Nat}
    (h : findChildFrom name cs i = some n) :
    ∃ k c, n = i + k ∧ cs[k]? = some c ∧ tagMatches c.tag name = true := by
  induction cs generalizing i with
  | nil => simp [findChildFrom] at h
  | cons c cs ih =>
    simp only [findChildFrom] at h
    split at h
    · rename_i hm
      simp only [Option.some.injEq] at h
      exact ⟨0, c, by omega, by simp, hm⟩
    · obtain ⟨k, c', hn, hk, hm⟩ := ih h
      exact ⟨k + 1, c', by omega, by simpa using hk, hm⟩

theorem findChild_some {parent : Token} {name : GoString} {k : Nat}
    (h : findChild parent name = some k) :
    ∃ c, (childElements parent.children)[k]? = some c ∧ tagMatches c.tag name = true := by
  obtain ⟨k', c, hn, hk, hm⟩ := findChildFrom_some h
  have : k = k' := by omega
  subst this
  exact ⟨c, hk, hm⟩

theorem tagMatches_iff (tag name : GoString) :
    tagMatches tag name = true ↔
      tag = name ∨ ∃ idx, lastIndexByte tag 58 = some idx ∧ tag.drop (idx + 1) = name := by
  unfold tagMatches
  by_cases h : tag = name
  · simp [h]
  · simp only [h, if_false, false_or]
    cases lastIndexByte tag 58 with
    | none => simp
    | some idx => simp

theorem tagMatches_Header_Body {tag : GoString} (h1 : tagMatches tag (str "Header") = true)
    (h2 : tagMatches tag (str "Body") = true) : False := by
  rw [tagMatches_iff] at h1 h2
  rcases h1 with h1 | ⟨i, hi, h1⟩ <;> rcases h2 with h2 | ⟨j, hj, h2⟩
  · rw [h1] at h2; revert h2; decide
  · rw [h1, (by decide : lastIndexByte (str "Header") 58 = none)] at hj; cases hj
  · rw [h2, (by decide : lastIndexByte (str "Body") 58 = none)] at hi; cases hi
  · rw [hi] at hj
    cases hj
    rw [h1] at h2; revert h2; decide

theorem mapAttrs_id (t : Token) : t.mapAttrs id = t := by
  cases t <;> rfl

theorem attrsOnly_ensureXMLNS (pfx uri : GoString) : AttrsOnly fun e => ensureXMLNS e pfx uri := by
  intro t
  simp only [ensureXMLNS]
  split
  · exact ⟨id, (mapAttrs_id t).symm⟩
  · exact ⟨_, rfl⟩

theorem attrsOnly_CreateAttr (key value : GoString) : AttrsOnly fun e => e.CreateAttr key value :=
  fun _ => ⟨_, rfl⟩

theorem attrsOnly_RemoveAttr (key : GoString) : AttrsOnly fun e => e.RemoveAttr key :=
  fun _ => ⟨_, rfl⟩

theorem AttrsOnly.keeps {f : Token → Token} (hf : AttrsOnly f) : KeepsElements f := by
  intro t ht
  obtain ⟨g, hg⟩ := hf t
  rw [hg]
  exact keepsElements_mapAttrs g t ht

theorem AttrsOnly.tag {f : Token → Token} (hf : AttrsOnly f) (t : Token) : (f t).tag = t.tag := by
  obtain ⟨g, hg⟩ := hf t
  rw [hg, tag_mapAttrs]

theorem AttrsOnly.children {f : Token → Token} (hf : AttrsOnly f) (t : Token) :
    (f t).children = t.children := by
  obtain ⟨g, hg⟩ := hf t
  rw [hg, children_mapAttrs]

/-- Changing attributes at a pointer leaves what lies below it. -/
theorem deref_update_attrsOnly_below {f : Token → Token} (hf : AttrsOnly f) (cs : List Token)
    (p r : List Nat) (hp : p ≠ []) (hr : r ≠ []) :
    deref (update f cs p) (p ++ r) = deref cs (p ++ r) := by
  rw [deref_update_below hf.keeps _ _ _ hp hr, deref_append _ _ _ hp hr]
  simp only [hf.children]

/-- A mutation at or below the body pointer, keeping tags, leaves the header pointer's
element and the tag of the body pointer's element. -/
theorem update_body_frame {f : Token → Token} (hf : KeepsElements f)
    (hft : ∀ t, (f t).tag = t.tag) (doc : List Token) (h b : Nat) (hne : h ≠ b) (r : List Nat) :
    deref (update f doc ([0, b] ++ r)) [0, h] = deref doc [0, h] ∧
    (deref (update f doc ([0, b] ++ r)) [0, b]).map Token.tag =
      (deref doc [0, b]).map Token.tag := by
  constructor
  · exact deref_update_diverge hf doc [0] b h r [] (Ne.symm hne)
  · by_cases hr : r = []
    · subst hr
      rw [List.append_nil, deref_update_same hf]
      cases deref doc [0, b] <;> simp [hft]
    · rw [deref_update_above _ _ _ _ (by simp) hr]
      cases deref doc [0, b] <;> simp [tag_mapChildren]

theorem keepsElements_AddChild (t : Token) : KeepsElements fun e => e.AddChild t :=
  keepsElements_mapChildren _

theorem derefD_of_deref {cs : List Token} {p : List Nat} {t : Token} (h : deref cs p = some t) :
    derefD cs p = t := by
  simp [derefD, h]

/-- What `markAndSecure` leaves when it succeeds. -/
theorem markAndSecure_spec {lib : SignLib} {d1 : Document} {hI bI : Nat}
    {cert : TLSCertificate} {a : Assembled}
    (h : markAndSecure lib d1 [0, hI] [0, bI] cert = .ok a) (hne : hI ≠ bI)
    {hdr0 body0 : Token} (B1 : deref d1 [0, hI] = some hdr0)
    (B2 : deref d1 [0, bI] = some body0) :
    ∃ (leaf : X509Certificate) (bodyEl : Token),
      leafCertFromTLS lib cert = .ok leaf ∧
      cert.PrivateKey = .rsa a.privKey ∧
      a.ptr = { env := [0], header := [0, hI], body := [0, bI],
                security := [0, hI, hdr0.ChildElements.length] } ∧
      deref a.doc [0, hI] = some (hdr0.AddChild (securityElement lib leaf)) ∧
      deref a.doc [0, bI] = some bodyEl ∧ bodyEl.tag = body0.tag := by
  unfold markAndSecure at h
  simp only at h
  -- the document after the mutations of the body
  generalize hd2 : update (fun e => e.CreateAttr (str "wsu:Id") (str "Body"))
    (update (fun e => e.RemoveAttr (str "wsu:Id"))
      (match findChild (derefD (update (fun e => ensureXMLNS e (str "wsu") wsuNS)
          (update (fun e => ensureXMLNS e (str "SOAP-ENV") soapNS) d1 [0, bI]) [0, bI]) [0, bI])
          (str "requestMessage") with
        | some rm => update (fun e => ensureXMLNS e (str "ns1") cybsNS)
            (update (fun e => ensureXMLNS e (str "wsu") wsuNS)
              (update (fun e => ensureXMLNS e (str "SOAP-ENV") soapNS) d1 [0, bI]) [0, bI])
            ([0, bI] ++ [rm])
        | none => update (fun e => ensureXMLNS e (str "wsu") wsuNS)
              (update (fun e => ensureXMLNS e (str "SOAP-ENV") soapNS) d1 [0, bI]) [0, bI])
      [0, bI]) [0, bI] = d2 at h
  have step : ∀ (f : Token → Token), AttrsOnly f → ∀ (d : Document) (r : List Nat),
      (deref d [0, hI] = some hdr0 ∧ (deref d [0, bI]).map Token.tag = some body0.tag) →
      (deref (update f d ([0, bI] ++ r)) [0, hI] = some hdr0 ∧
        (deref (update f d ([0, bI] ++ r)) [0, bI]).map Token.tag = some body0.tag) := by
    intro f hf d r ⟨h1, h2⟩
    obtain ⟨g1, g2⟩ := update_body_frame hf.keeps hf.tag d hI bI hne r
    exact ⟨g1.trans h1, g2.trans h2⟩
  have s0 : deref d1 [0, hI] = some hdr0 ∧ (deref d1 [0, bI]).map Token.tag = some body0.tag :=
    ⟨B1, by rw [B2]; rfl⟩
  have s1 := step _ (attrsOnly_ensureXMLNS (str "SOAP-ENV") soapNS) d1 [] s0
  have s2 := step _ (attrsOnly_ensureXMLNS (str "wsu") wsuNS) _ [] s1
  have s5 : deref d2 [0, hI] = some hdr0 ∧ (deref d2 [0, bI]).map Token.tag = some body0.tag := by
    rw [← hd2]
    refine step _ (attrsOnly_CreateAttr _ _) _ [] (step _ (attrsOnly_RemoveAttr _) _ [] ?_)
    split
    · exact step _ (attrsOnly_ensureXMLNS (str "ns1") cybsNS) _ _ s2
    · exact s2
  obtain ⟨s5h, s5b⟩ := s5
  split at h
  · cases h
  · rename_i leaf hleaf
    split at h
    · rename_i privKey hkey
      simp only [Except.ok.injEq] at h
      subst h
      simp only
      obtain ⟨bodyEl, hbe, hbt⟩ : ∃ bodyEl, deref d2 [0, bI] = some bodyEl ∧
          bodyEl.tag = body0.tag := by
        cases hb : deref d2 [0, bI] with
        | none => rw [hb] at s5b; cases s5b
        | some x => rw [hb] at s5b; exact ⟨x, rfl, by simpa using s5b⟩
      refine ⟨leaf, bodyEl, hleaf, hkey, ?_, ?_, ?_, hbt⟩
      · rw [derefD_of_deref s5h]; rfl
      · rw [show ([0, hI] : List Nat) = [0] ++ [hI] from rfl,
          deref_update_attrsOnly_below (attrsOnly_RemoveAttr _) _ _ _ (by simp) (by simp),
          deref_update_attrsOnly_below (attrsOnly_RemoveAttr _) _ _ _ (by simp) (by simp),
          deref_update_attrsOnly_below (attrsOnly_RemoveAttr _) _ _ _ (by simp) (by simp)]
        show deref (update _ d2 [0, hI]) [0, hI] = _
        rw [deref_update_same (keepsElements_AddChild _), s5h]
        rfl
      · rw [show ([0, bI] : List Nat) = [0] ++ [bI] from rfl,
          deref_update_attrsOnly_below (attrsOnly_RemoveAttr _) _ _ _ (by simp) (by simp),
          deref_update_attrsOnly_below (attrsOnly_RemoveAttr _) _ _ _ (by simp) (by simp),
          deref_update_attrsOnly_below (attrsOnly_RemoveAttr _) _ _ _ (by simp) (by simp)]
        have := deref_update_diverge (keepsElements_AddChild (securityElement lib leaf)) d2
          [0] hI bI [] [] hne
        simp only [List.cons_append, List.nil_append] at this ⊢
        rw [this, hbe]
    · cases h

theorem deref_two (cs : List Token) (i j : Nat) :
    deref cs [i, j] = ((childElements cs)[i]?).bind fun t => (childElements t.children)[j]? := by
  rw [deref_cons]
  cases h : (childElements cs)[i]? with
  | none => rfl
  | some t =>
    simp only [Option.some_bind, List.isEmpty_cons, Bool.false_eq_true, if_false]
    rw [deref_cons]
    cases (childElements t.children)[j]? <;> simp

theorem deref_one (cs : List Token) (i : Nat) : deref cs [i] = (childElements cs)[i]? := by
  rw [deref_cons]
  cases (childElements cs)[i]? <;> simp

/-- What `assemble` leaves when it succeeds: the pointers, the header with the security
element appended to the children it had, and the body. -/
theorem assemble_spec {lib : SignLib} {doc : Document} {cert : TLSCertificate} {a : Assembled}
    (h : assemble lib doc cert = .ok a) :
    ∃ (env : Token) (hI bI : Nat) (hdr0 bodyEl : Token) (leaf : X509Certificate),
      doc.Root = some env ∧
      leafCertFromTLS lib cert = .ok leaf ∧
      cert.PrivateKey = .rsa a.privKey ∧
      a.ptr = { env := [0], header := [0, hI], body := [0, bI],
                security := [0, hI, hdr0.ChildElements.length] } ∧
      hI ≠ bI ∧
      tagMatches hdr0.tag (str "Header") = true ∧
      ((findChild env (str "Header") = none ∧ hdr0 = NewElement (str "SOAP-ENV:Header") ∧
          hI = 0) ∨
       (findChild env (str "Header") = some hI ∧
          (childElements env.children)[hI]? = some hdr0)) ∧
      deref a.doc [0, hI] = some (hdr0.AddChild (securityElement lib leaf)) ∧
      deref a.doc [0, bI] = some bodyEl ∧ tagMatches bodyEl.tag (str "Body") = true := by
  unfold assemble at h
  split at h
  · cases h
  · rename_i env hroot
    simp only at h
    split at h
    · cases h
    · rename_i b hb
      obtain ⟨body0, hb0, hbm⟩ := findChild_some hb
      have hroot' : (childElements doc)[0]? = some env := by
        have := hroot
        simp only [Document.Root] at this
        rwa [deref_one] at this
      split at h
      · -- the header exists
        rename_i hI hh
        obtain ⟨hdr0, hh0, hhm⟩ := findChild_some hh
        have hne : hI ≠ b := by
          intro e
          subst e
          rw [hh0] at hb0
          cases hb0
          exact tagMatches_Header_Body hhm hbm
        have B1 : deref doc [0, hI] = some hdr0 := by
          rw [deref_two, hroot']; exact hh0
        have B2 : deref doc [0, b] = some body0 := by
          rw [deref_two, hroot']; exact hb0
        obtain ⟨leaf, bodyEl, h1, h2, h3, h4, h5, h6⟩ := markAndSecure_spec h hne B1 B2
        exact ⟨env, hI, b, hdr0, bodyEl, leaf, hroot, h1, h2, h3, hne, hhm,
          Or.inr ⟨hh, hh0⟩, h4, h5, by rw [h6]; exact hbm⟩
      · -- the header is created and inserted first
        rename_i hh
        have henv : env.isElement = true := isElement_of_getElem? hroot'
        have hlen : ¬ (0 ≥ env.children.length) := by
          intro hl
          have : env.children = [] := List.length_eq_zero.1 (by omega)
          rw [this] at hb0
          simp [childElements] at hb0
        have hch : (env.InsertChildAt 0 (NewElement (str "SOAP-ENV:Header"))).children =
            NewElement (str "SOAP-ENV:Header") :: env.children := by
          unfold Token.InsertChildAt
          rw [children_mapChildren _ henv]
          simp only [hlen, if_false, List.take_zero, List.drop_zero, List.nil_append]
        have hce : childElements
            (env.InsertChildAt 0 (NewElement (str "SOAP-ENV:Header"))).children =
            NewElement (str "SOAP-ENV:Header") :: childElements env.children := by
          rw [hch, childElements_cons_elem _ (by rfl)]
        have hd1 : ∀ j, deref (update (fun e => e.InsertChildAt 0
              (NewElement (str "SOAP-ENV:Header"))) doc [0]) [0, j] =
            (NewElement (str "SOAP-ENV:Header") :: childElements env.children)[j]? := by
          intro j
          rw [deref_two]
          have hk : KeepsElements fun e : Token =>
              e.InsertChildAt 0 (NewElement (str "SOAP-ENV:Header")) :=
            keepsElements_mapChildren _
          have := deref_update_same hk doc [0]
          rw [deref_one, deref_one, hroot'] at this
          rw [this]
          simp only [Option.map_some', Option.some_bind]
          rw [hce]
        have B1 := hd1 0
        have B2 := hd1 (b + 1)
        simp only [List.getElem?_cons_zero] at B1
        simp only [List.getElem?_cons_succ] at B2
        rw [hb0] at B2
        obtain ⟨leaf, bodyEl, h1, h2, h3, h4, h5, h6⟩ :=
          markAndSecure_spec h (by omega : (0 : Nat) ≠ b + 1) B1 B2
        exact ⟨env, 0, b + 1, _, bodyEl, leaf, hroot, h1, h2, h3, by omega, by decide,
          Or.inl ⟨hh, rfl, rfl⟩, h4, h5, by rw [h6]; exact hbm⟩

theorem keepsElements_SetText (text : GoString) : KeepsElements fun e => e.SetText text :=
  keepsElements_mapChildren _

theorem isElement_mapChildren (g : List Token → List Token) (t : Token) :
    (t.mapChildren g).isElement = t.isElement := by
  cases t <;> rfl

/-- Below the security pointer lies the security element that was assembled. -/
theorem deref_security {doc : List Token} {hI : Nat} {hdr0 sec : Token}
    (hh : deref doc [0, hI] = some (hdr0.AddChild sec)) (hs : sec.isElement = true)
    (r : List Nat) :
    deref doc ([0, hI, hdr0.ChildElements.length] ++ r) =
      if r.isEmpty then some sec else deref sec.children r := by
  have he : hdr0.isElement = true := by
    have := isElement_of_deref hh
    unfold Token.AddChild at this
    rwa [isElement_mapChildren] at this
  have hc : (hdr0.AddChild sec).children = hdr0.children ++ [sec] := by
    unfold Token.AddChild
    rw [children_mapChildren _ he]
  have : ([0, hI, hdr0.ChildElements.length] ++ r : List Nat) =
      [0, hI] ++ (hdr0.ChildElements.length :: r) := by simp
  rw [this, deref_append _ _ _ (by simp) (by simp), hh, Option.some_bind, hc, deref_cons,
    childElements_append, childElements_cons_elem _ hs]
  simp [Token.ChildElements, childElements]

/-- The `ds:SignedInfo` element assembled by `securityElement`. -/
theorem deref_security_signedInfo (lib : SignLib) (leaf : X509Certificate) :
    ∃ si, deref (securityElement lib leaf).children [1, 0] = some si ∧
      si.tag = str "SignedInfo" ∧ si.space = str "ds" ∧
      deref (Token.indent 2 5 si).children [2, 2] = some (NewElement (str "ds:DigestValue")) :=
  ⟨_, rfl, by rfl, by rfl, by rfl⟩

theorem deref_security_dv (lib : SignLib) (leaf : X509Certificate) :
    (deref (securityElement lib leaf).children [1, 0, 2, 2]).map (Token.indent 2 7) =
      some (NewElement (str "ds:DigestValue")) := by
  rfl

theorem deref_security_sv (lib : SignLib) (leaf : X509Certificate) :
    (deref (securityElement lib leaf).children [1, 1]).map (Token.indent 2 5) =
      some (NewElement (str "ds:SignatureValue")) := by
  rfl

theorem isElement_securityElement (lib : SignLib) (leaf : X509Certificate) :
    (securityElement lib leaf).isElement = true := rfl

theorem tag_securityElement (lib : SignLib) (leaf : X509Certificate) :
    (securityElement lib leaf).tag = str "Security" ∧
    (securityElement lib leaf).space = str "wsse" := ⟨by rfl, by rfl⟩

theorem keepsElements_setAttrChild (attr : List Attr) (child : List Token) :
    KeepsElements fun e => e.setAttrChild attr child := by
  intro t ht
  cases t <;> simp_all [Token.setAttrChild, Token.isElement]

theorem tag_setAttrChild (attr : List Attr) (child : List Token) (t : Token) :
    (t.setAttrChild attr child).tag = t.tag := by
  cases t <;> rfl

theorem space_setAttrChild (attr : List Attr) (child : List Token) (t : Token) :
    (t.setAttrChild attr child).space = t.space := by
  cases t <;> rfl

/-- The two steps of a successful call of the canonicalizer. -/
theorem exclusiveC14N_ok {lib : SignLib} {el : Token} {c : Canonical}
    (h : exclusiveC14N lib el = .ok c) :
    lib.TransformExcC14n el = .ok (c.Attr, c.Child) ∧
      lib.canonicalSerialize (el.setAttrChild c.Attr c.Child) = .ok c.bytes := by
  unfold exclusiveC14N Canonicalize at h
  split at h
  · cases h
  · rename_i attr child ht
    split at h
    · cases h
    · rename_i bytes hsz
      simp only [Except.ok.injEq] at h
      subst h
      exact ⟨ht, hsz⟩

/-- The steps of `digestAndSign` when it succeeds. -/
theorem digestAndSign_ok {lib : SignLib} {doc : Document} {ptr : Pointers} {privKey : GoString}
    {final : Document} (h : digestAndSign lib doc ptr privKey = .ok final) :
    ∃ (bodyC14N signedInfoC14N : Canonical) (signature : GoString),
      exclusiveC14N lib (derefD doc ptr.body) = .ok bodyC14N ∧
      exclusiveC14N lib (derefD
        (update (fun e => e.SetText (lib.base64 (sha256Sum lib bodyC14N.bytes)))
          (update (fun e => e.setAttrChild bodyC14N.Attr bodyC14N.Child) doc ptr.body) ptr.dv)
        ptr.signedInfo) = .ok signedInfoC14N ∧
      lib.SignPKCS1v15 privKey (sha256Sum lib signedInfoC14N.bytes) = .ok signature ∧
      final =
        update (fun e => e.SetText (lib.base64 signature))
          (update (fun e => e.setAttrChild signedInfoC14N.Attr signedInfoC14N.Child)
            (update (fun e => e.SetText (lib.base64 (sha256Sum lib bodyC14N.bytes)))
              (update (fun e => e.setAttrChild bodyC14N.Attr bodyC14N.Child) doc ptr.body)
              ptr.dv)
            ptr.signedInfo)
          ptr.sv := by
  unfold digestAndSign at h
  split at h
  · cases h
  · rename_i bodyC14N hc1
    simp only at h
    split at h
    · cases h
    · rename_i signedInfoC14N hc2
      split at h
      · cases h
      · rename_i signature hsig
        simp only [Except.ok.injEq] at h
        exact ⟨bodyC14N, signedInfoC14N, signature, hc1, hc2, hsig, h.symm⟩

/-- A successful `signDocument` is a successful `assemble` followed by a successful
`digestAndSign` on the indented document. -/
theorem signDocument_ok {lib : SignLib} {doc : Document} {tlsCert : TLSCertificate}
    {final : Document} (h : signDocument lib doc tlsCert = .ok final) :
    ∃ a : Assembled, assemble lib doc tlsCert = .ok a ∧
      digestAndSign lib (a.doc.Indent 2) a.ptr a.privKey = .ok final := by
  unfold signDocument at h
  split at h
  · cases h
  · rename_i a ha
    exact ⟨a, ha, h⟩

theorem length_childElements_update {f : Token → Token} (hf : KeepsElements f)
    (cs : List Token) (p : List Nat) :
    (childElements (update f cs p)).length = (childElements cs).length := by
  cases p with
  | nil => rfl
  | cons k p =>
    rw [update_cons]
    split
    · exact length_childElements_modifyNthElem hf cs k
    · exact length_childElements_modifyNthElem (keepsElements_mapChildren _) cs k

/-- The child elements of the element a pointer designates are what the pointer
extended by one step designates. -/
theorem getElem?_ChildElements_of_deref {cs : List Token} {p : List Nat} {t : Token}
    (h : deref cs p = some t) (k : Nat) : t.ChildElements[k]? = deref cs (p ++ [k]) := by
  have hp : p ≠ [] := by
    intro e; subst e; simp [deref] at h
  rw [deref_append _ _ _ hp (by simp), h, Option.some_bind, deref_one]
  rfl

/-! ## Error paths of signing and the outcome of the call -/

theorem findChildFrom_eq_none {name : GoString} {cs : List Token} (i : Nat)
    (h : ∀ c ∈ cs, tagMatches c.tag name = false) : findChildFrom name cs i = none := by
  induction cs generalizing i with
  | nil => rfl
  | cons c cs ih =>
    simp only [findChildFrom, h c (List.mem_cons_self _ _), Bool.false_eq_true, if_false]
    exact ih (i + 1) fun x hx => h x (List.mem_cons_of_mem _ hx)

/-- The test of `findChild`, for a name without colon, compares the local name. -/
theorem tagMatches_iff_localNameOf (tag name : GoString) (hn : lastIndexByte name 58 = none) :
    tagMatches tag name = true ↔ localNameOf tag = name := by
  rw [tagMatches_iff]
  unfold localNameOf
  constructor
  · rintro (h | ⟨idx, h1, h2⟩)
    · subst h; rw [hn]
    · rw [h1]; exact h2
  · intro h
    cases hl : lastIndexByte tag 58 with
    | none => rw [hl] at h; exact Or.inl h
    | some idx => rw [hl] at h; exact Or.inr ⟨idx, rfl, h⟩

theorem markAndSecure_notRSA (lib : SignLib) (doc : Document) (headerP bodyP : List Nat)
    (tlsCert : TLSCertificate) (hk : ∀ key, tlsCert.PrivateKey ≠ .rsa key) :
    ∃ e, markAndSecure lib doc headerP bodyP tlsCert = .error e := by
  unfold markAndSecure
  simp only
  split
  · exact ⟨_, rfl⟩
  · exact ⟨_, rfl⟩

theorem assemble_notRSA (lib : SignLib) (doc : Document) (tlsCert : TLSCertificate)
    (hk : ∀ key, tlsCert.PrivateKey ≠ .rsa key) :
    ∃ e, assemble lib doc tlsCert = .error e := by
  unfold assemble
  split
  · exact ⟨_, rfl⟩
  · simp only
    split
    · exact ⟨_, rfl⟩
    · split
      · exact markAndSecure_notRSA _ _ _ _ _ hk
      · exact markAndSecure_notRSA _ _ _ _ _ hk

theorem signSOAPEnvelope_notRSA (lib : SignLib) (unsignedXML : GoString)
    (tlsCert : TLSCertificate) (hk : ∀ key, tlsCert.PrivateKey ≠ .rsa key) :
    ∃ e, signSOAPEnvelope lib unsignedXML tlsCert = .error e := by
  unfold signSOAPEnvelope
  split
  · exact ⟨_, rfl⟩
  · rename_i doc _
    obtain ⟨e, he⟩ := assemble_notRSA lib doc tlsCert hk
    simp only [signDocument, he]
    exact ⟨_, rfl⟩

theorem signSOAPEnvelope_noBody (lib : SignLib) (unsignedXML : GoString)
    (tlsCert : TLSCertificate) (doc : Document) (env : Token)
    (hp : lib.ReadFromBytes unsignedXML = .ok doc) (hr : doc.Root = some env)
    (hb : ∀ ch ∈ env.ChildElements, localNameOf ch.tag ≠ str "Body") :
    signSOAPEnvelope lib unsignedXML tlsCert = .error .bodyNotFound := by
  have hf : findChild env (str "Body") = none := by
    apply findChildFrom_eq_none
    intro ch hch
    have := hb ch hch
    rw [Ne, ← tagMatches_iff_localNameOf _ _ (by decide)] at this
    simpa using this
  simp only [signSOAPEnvelope, hp, signDocument, assemble, hr, hf]

/-- When signing fails, `AnalyzeRisk` returns the signing error and has made no request. -/
theorem AnalyzeRisk_sign_error (lib : ClientLib) (c : Client) (req : RiskAnalysisRequest)
    (xmlData : GoString) (e : SignError)
    (hm : lib.MarshalIndent (buildSOAPRequest c.cfg lib.runtime req) = .ok xmlData)
    (hs : signSOAPEnvelope lib.sign (xmlHeader ++ xmlData) c.tlsCert = .error e) :
    AnalyzeRisk lib c req = { resp := .zero, err := some (.signRequest e), http := [] } := by
  simp only [AnalyzeRisk, hm, hs]

/-- What `AnalyzeRisk` returns once the exchange took place. -/
theorem AnalyzeRisk_exchanged {lib : ClientLib} {c : Client} {req : RiskAnalysisRequest}
    {status : Int} {respBody : GoString} (h : Exchanged lib c req status respBody) :
    (∀ e, lib.Unmarshal respBody = .error e →
      (AnalyzeRisk lib c req).resp =
        { HTTPStatus := status, Body := respBody, Data := .zero } ∧
      (AnalyzeRisk lib c req).err = some (.parseResponse status e)) ∧
    (∀ soapResp fault, lib.Unmarshal respBody = .ok soapResp →
      soapResp.Body.Fault = some fault →
      (AnalyzeRisk lib c req).resp =
        { HTTPStatus := status, Body := respBody, Data := .zero } ∧
      (AnalyzeRisk lib c req).err = some (.soapFault
        { FaultCode := fault.FaultCode, FaultString := TrimSpace fault.FaultString,
          RawBody := respBody })) ∧
    (∀ soapResp, lib.Unmarshal respBody = .ok soapResp → soapResp.Body.Fault = none →
      (AnalyzeRisk lib c req).resp =
        { HTTPStatus := status, Body := respBody,
          Data := replyToResponse soapResp.Body.ReplyMessage } ∧
      (AnalyzeRisk lib c req).err = none) := by
  obtain ⟨xmlData, signedPayload, httpReq0, resp, h1, h2, h3, h4, h5, h6⟩ := h
  unfold sentRequest at h4
  refine ⟨?_, ?_, ?_⟩
  · intro e he
    simp only [AnalyzeRisk, h1, h2, h3, h4, h6, he, h5, and_self]
  · intro sr fault hu hf
    simp only [AnalyzeRisk, h1, h2, h3, h4, h6, hu, hf, h5, and_self]
  · intro sr hu hf
    simp only [AnalyzeRisk, h1, h2, h3, h4, h6, hu, hf, h5, and_self]

theorem trimLeftFuel_of_none (fuel : Nat) (s : GoString) (h : leadingSpaceLen s = 0) :
    trimLeftFuel fuel s = s := by
  cases fuel <;> simp [trimLeftFuel, h]

theorem trimRightFuel_of_none (fuel : Nat) (s : GoString) (h : trailingSpaceLen s = 0) :
    trimRightFuel fuel s = s := by
  cases fuel <;> simp [trimRightFuel, h]

/-- A string that neither starts nor ends with white space is left as it is. -/
theorem TrimSpace_eq_self (s : GoString) (h1 : leadingSpaceLen s = 0)
    (h2 : trailingSpaceLen s = 0) : TrimSpace s = s := by
  simp only [TrimSpace, trimLeftFuel_of_none _ s h1, trimRightFuel_of_none _ s h2]

/-- A successful `signSOAPEnvelope` parses the bytes, signs the document and
serializes the signed document. -/
theorem signSOAPEnvelope_ok {lib : SignLib} {unsignedXML : GoString} {tlsCert : TLSCertificate}
    {out : GoString} (h : signSOAPEnvelope lib unsignedXML tlsCert = .ok out) :
    ∃ doc final : Document, lib.ReadFromBytes unsignedXML = .ok doc ∧
      signDocument lib doc tlsCert = .ok final ∧ lib.WriteTo final = .ok out := by
  unfold signSOAPEnvelope at h
  split at h
  · cases h
  · rename_i doc hp
    split at h
    · cases h
    · rename_i final hs
      split at h
      · cases h
      · rename_i out' hw
        simp only [Except.ok.injEq] at h
        subst h
        exact ⟨doc, final, hp, hs, hw⟩

/-! ## Signing claims -/

/-- Frame: writing through the body pointer leaves what lies in the header. -/
theorem deref_update_body_header {f : Token → Token} (hf : KeepsElements f) (cs : List Token)
    (hI bI : Nat) (q : List Nat) (hne : hI ≠ bI) :
    deref (update f cs [0, bI]) ([0, hI] ++ q) = deref cs ([0, hI] ++ q) :=
  deref_update_diverge hf cs [0] bI hI [] q (Ne.symm hne)

/-- C5, amended. When `signSOAPEnvelope` returns bytes, they are the serialization of
the indented document after four changes and no other: the exclusive canonicalizer
rewrites the Body element in place, the text of `ds:DigestValue` is set, the
canonicalizer rewrites the `ds:SignedInfo` element in place, the text of
`ds:SignatureValue` is set. In the indented document the pointers `body`, `dv` and
`sv` designate the Body element and the two (still empty) elements. The Body element
that is serialized is the one the canonicalizer left, whose canonical bytes were
hashed into the digest value. The `ds:SignedInfo` element given to the canonicalizer
holds the digest value, and the one that is serialized is the one the canonicalizer
left, whose canonical bytes were signed. Nothing else (no indentation, no other
formatting) touches the tree after the digest is computed. -/
theorem signSOAPEnvelope_changes_after_indent (lib : SignLib)
    (unsignedXML : GoString) (tlsCert : TLSCertificate) (out : GoString)
    (hs : signSOAPEnvelope lib unsignedXML tlsCert = .ok out) :
    ∃ (doc final : Document) (a : Assembled) (bodyEl signedInfoEl : Token)
      (bodyC14N signedInfoC14N : Canonical) (signature : GoString),
      lib.ReadFromBytes unsignedXML = .ok doc ∧
      lib.WriteTo final = .ok out ∧
      assemble lib doc tlsCert = .ok a ∧
      -- in the indented document the pointers designate the body and the two empty elements
      deref (a.doc.Indent 2) a.ptr.body = some bodyEl ∧
      tagMatches bodyEl.tag (str "Body") = true ∧
      deref (a.doc.Indent 2) a.ptr.dv = some (NewElement (str "ds:DigestValue")) ∧
      deref (a.doc.Indent 2) a.ptr.sv = some (NewElement (str "ds:SignatureValue")) ∧
      -- the serialized tree is the indented one after the four changes
      final =
        update (fun e => e.SetText (lib.base64 signature))
          (update (fun e => e.setAttrChild signedInfoC14N.Attr signedInfoC14N.Child)
            (update (fun e => e.SetText (lib.base64 (sha256Sum lib bodyC14N.bytes)))
              (update (fun e => e.setAttrChild bodyC14N.Attr bodyC14N.Child)
                (a.doc.Indent 2) a.ptr.body)
              a.ptr.dv)
            a.ptr.signedInfo)
          a.ptr.sv ∧
      -- the body the canonicalizer left is the one hashed and the one serialized
      lib.TransformExcC14n bodyEl = .ok (bodyC14N.Attr, bodyC14N.Child) ∧
      lib.canonicalSerialize (bodyEl.setAttrChild bodyC14N.Attr bodyC14N.Child) =
        .ok bodyC14N.bytes ∧
      deref final a.ptr.body = some (bodyEl.setAttrChild bodyC14N.Attr bodyC14N.Child) ∧
      -- the SignedInfo given to the canonicalizer holds the digest value
      deref (update (fun e => e.SetText (lib.base64 (sha256Sum lib bodyC14N.bytes)))
          (update (fun e => e.setAttrChild bodyC14N.Attr bodyC14N.Child)
            (a.doc.Indent 2) a.ptr.body)
          a.ptr.dv) a.ptr.signedInfo = some signedInfoEl ∧
      signedInfoEl.tag = str "SignedInfo" ∧
      deref signedInfoEl.children [2, 2] =
        some ((NewElement (str "ds:DigestValue")).SetText
          (lib.base64 (sha256Sum lib bodyC14N.bytes))) ∧
      -- the SignedInfo the canonicalizer left is the one signed and the one serialized
      lib.TransformExcC14n signedInfoEl = .ok (signedInfoC14N.Attr, signedInfoC14N.Child) ∧
      lib.canonicalSerialize
          (signedInfoEl.setAttrChild signedInfoC14N.Attr signedInfoC14N.Child) =
        .ok signedInfoC14N.bytes ∧
      lib.SignPKCS1v15 a.privKey (sha256Sum lib signedInfoC14N.bytes) = .ok signature ∧
      deref final a.ptr.signedInfo =
        some (signedInfoEl.setAttrChild signedInfoC14N.Attr signedInfoC14N.Child) ∧
      deref final a.ptr.sv =
        some ((NewElement (str "ds:SignatureValue")).SetText (lib.base64 signature)) := by
  obtain ⟨doc, final, hparse, h, hwrite⟩ := signSOAPEnvelope_ok hs
  obtain ⟨a, ha, hds⟩ := signDocument_ok h
  obtain ⟨env, hI, bI, hdr0, bodyEl0, leaf, -, -, -, hptr, hne, -, -, hhdr, hbody, hbm⟩ :=
    assemble_spec ha
  -- pointers
  have pb : a.ptr.body = [0, bI] := by rw [hptr]
  have pdv : a.ptr.dv = [0, hI] ++ [hdr0.ChildElements.length, 1, 0, 2, 2] := by
    rw [Pointers.dv, hptr]; rfl
  have psv : a.ptr.sv = [0, hI] ++ [hdr0.ChildElements.length, 1, 1] := by
    rw [Pointers.sv, hptr]; rfl
  have psi : a.ptr.signedInfo = [0, hI] ++ [hdr0.ChildElements.length, 1, 0] := by
    rw [Pointers.signedInfo, hptr]; rfl
  have hsec := deref_security hhdr (isElement_securityElement lib leaf)
  -- the indented document
  have i_body : deref (a.doc.Indent 2) a.ptr.body = some (Token.indent 2 2 bodyEl0) := by
    rw [pb, deref_Indent, hbody]; rfl
  have i_dv : deref (a.doc.Indent 2) a.ptr.dv = some (NewElement (str "ds:DigestValue")) := by
    rw [pdv, deref_Indent]
    have := hsec [1, 0, 2, 2]
    simp only [List.cons_append, List.nil_append] at this ⊢
    rw [this]
    exact deref_security_dv lib leaf
  have i_sv : deref (a.doc.Indent 2) a.ptr.sv = some (NewElement (str "ds:SignatureValue")) := by
    rw [psv, deref_Indent]
    have := hsec [1, 1]
    simp only [List.cons_append, List.nil_append] at this ⊢
    rw [this]
    exact deref_security_sv lib leaf
  obtain ⟨si0, hsi0, hsit, -, hsidv⟩ := deref_security_signedInfo lib leaf
  have i_si : deref (a.doc.Indent 2) a.ptr.signedInfo = some (Token.indent 2 5 si0) := by
    rw [psi, deref_Indent]
    have := hsec [1, 0]
    simp only [List.cons_append, List.nil_append] at this ⊢
    rw [this]
    simp only [List.isEmpty_cons, Bool.false_eq_true, if_false, hsi0]
    rfl
  obtain ⟨bodyC14N, signedInfoC14N, signature, hc1, hc2, hsig, hfin⟩ := digestAndSign_ok hds
  rw [derefD_of_deref i_body] at hc1
  obtain ⟨ht1, hz1⟩ := exclusiveC14N_ok hc1
  have kb := keepsElements_setAttrChild bodyC14N.Attr bodyC14N.Child
  have ks := keepsElements_setAttrChild signedInfoC14N.Attr signedInfoC14N.Child
  have kd := keepsElements_SetText (lib.base64 (sha256Sum lib bodyC14N.bytes))
  have kv := keepsElements_SetText (lib.base64 signature)
  -- the document once the body is rewritten and the digest value is set
  have d_si : deref (update (fun e => e.SetText (lib.base64 (sha256Sum lib bodyC14N.bytes)))
        (update (fun e => e.setAttrChild bodyC14N.Attr bodyC14N.Child)
          (a.doc.Indent 2) a.ptr.body) a.ptr.dv) a.ptr.signedInfo =
      some ((Token.indent 2 5 si0).mapChildren fun c =>
        update (fun e => e.SetText (lib.base64 (sha256Sum lib bodyC14N.bytes))) c [2, 2]) := by
    have e1 : a.ptr.dv = a.ptr.signedInfo ++ [2, 2] := by rw [pdv, psi]; simp
    rw [e1, deref_update_above _ _ _ _ (by rw [psi]; simp) (by simp)]
    have := deref_update_body_header kb (a.doc.Indent 2) hI bI
      [hdr0.ChildElements.length, 1, 0] hne
    rw [← psi, ← pb] at this
    rw [this, i_si]
    rfl
  rw [derefD_of_deref d_si] at hc2
  obtain ⟨ht2, hz2⟩ := exclusiveC14N_ok hc2
  have hsiE : (Token.indent 2 5 si0).isElement = true := by
    rw [isElement_indent]; exact isElement_of_deref hsi0
  refine ⟨doc, final, a, Token.indent 2 2 bodyEl0, _, bodyC14N, signedInfoC14N, signature,
    hparse, hwrite, ha, i_body, by rw [tag_indent]; exact hbm, i_dv, i_sv, hfin, ht1, hz1, ?_,
    d_si, ?_, ?_, ht2, hz2, hsig, ?_, ?_⟩
  · -- the body is left as the canonicalizer left it
    rw [hfin, pb, psv, psi, pdv]
    have f1 := deref_update_diverge kv
      (update (fun e => e.setAttrChild signedInfoC14N.Attr signedInfoC14N.Child)
        (update (fun e => e.SetText (lib.base64 (sha256Sum lib bodyC14N.bytes)))
          (update (fun e => e.setAttrChild bodyC14N.Attr bodyC14N.Child)
            (a.doc.Indent 2) [0, bI])
          ([0, hI] ++ [hdr0.ChildElements.length, 1, 0, 2, 2]))
        ([0, hI] ++ [hdr0.ChildElements.length, 1, 0]))
      [0] hI bI [hdr0.ChildElements.length, 1, 1] [] hne
    have f2 := deref_update_diverge ks
      (update (fun e => e.SetText (lib.base64 (sha256Sum lib bodyC14N.bytes)))
        (update (fun e => e.setAttrChild bodyC14N.Attr bodyC14N.Child)
          (a.doc.Indent 2) [0, bI])
        ([0, hI] ++ [hdr0.ChildElements.length, 1, 0, 2, 2]))
      [0] hI bI [hdr0.ChildElements.length, 1, 0] [] hne
    have f3 := deref_update_diverge kd
      (update (fun e => e.setAttrChild bodyC14N.Attr bodyC14N.Child)
        (a.doc.Indent 2) [0, bI])
      [0] hI bI [hdr0.ChildElements.length, 1, 0, 2, 2] [] hne
    simp only [List.cons_append, List.nil_append] at f1 f2 f3 ⊢
    rw [f1, f2, f3, deref_update_same kb, ← pb, i_body]
    rfl
  · rw [tag_mapChildren, tag_indent]; exact hsit
  · rw [children_mapChildren _ hsiE, deref_update_same (keepsElements_SetText _), hsidv]
    rfl
  · -- SignedInfo is left as the canonicalizer left it
    rw [hfin]
    have f1 := deref_update_diverge kv
      (update (fun e => e.setAttrChild signedInfoC14N.Attr signedInfoC14N.Child)
        (update (fun e => e.SetText (lib.base64 (sha256Sum lib bodyC14N.bytes)))
          (update (fun e => e.setAttrChild bodyC14N.Attr bodyC14N.Child)
            (a.doc.Indent 2) a.ptr.body)
          a.ptr.dv)
        a.ptr.signedInfo)
      [0, hI, hdr0.ChildElements.length, 1] 1 0 [] [] (by omega)
    have e2 : a.ptr.signedInfo = [0, hI, hdr0.ChildElements.length, 1] ++ [0] := by
      rw [psi]; simp
    have e3 : a.ptr.sv = [0, hI, hdr0.ChildElements.length, 1] ++ [1] := by
      rw [psv]; simp
    rw [← e3, ← e2] at f1
    rw [f1, deref_update_same ks, d_si]
    rfl
  · rw [hfin, deref_update_same kv]
    have f2 := deref_update_diverge ks
      (update (fun e => e.SetText (lib.base64 (sha256Sum lib bodyC14N.bytes)))
        (update (fun e => e.setAttrChild bodyC14N.Attr bodyC14N.Child)
          (a.doc.Indent 2) a.ptr.body)
        a.ptr.dv)
      [0, hI, hdr0.ChildElements.length, 1] 0 1 [] [] (by omega)
    have f3 := deref_update_diverge kd
      (update (fun e => e.setAttrChild bodyC14N.Attr bodyC14N.Child)
        (a.doc.Indent 2) a.ptr.body)
      [0, hI, hdr0.ChildElements.length, 1] 0 1 [2, 2] [] (by omega)
    have f4 := deref_update_body_header kb (a.doc.Indent 2) hI bI
      [hdr0.ChildElements.length, 1, 1] hne
    have e2 : a.ptr.signedInfo = [0, hI, hdr0.ChildElements.length, 1] ++ [0] := by
      rw [psi]; simp
    have e3 : a.ptr.sv = [0, hI, hdr0.ChildElements.length, 1] ++ [1] := by
      rw [psv]; simp
    have e4 : a.ptr.dv = [0, hI, hdr0.ChildElements.length, 1] ++ [0, 2, 2] := by
      rw [pdv]; simp
    have e5 : a.ptr.sv = [0, hI] ++ [hdr0.ChildElements.length, 1, 1] := psv
    rw [← e2, ← e3] at f2
    rw [← e4, ← e3] at f3
    rw [← pb, ← e5] at f4
    rw [f2, f3, f4, i_sv]
    rfl


/-- C6, amended. When `signSOAPEnvelope` returns bytes, they are the serialization
of a document in which the `wsse:Security` element is the last child element of the
envelope's Header, at position `n` (from 0), where `n` is the number of child elements
the Header of the input had (0 when the Header had to be created); it is the first
child element when `n = 0`. -/
theorem signSOAPEnvelope_security_last_in_header (lib : SignLib) (unsignedXML : GoString)
    (tlsCert : TLSCertificate) (out : GoString)
    (hs : signSOAPEnvelope lib unsignedXML tlsCert = .ok out) :
    ∃ (doc final : Document) (a : Assembled) (env hdr sec : Token) (n : Nat),
      lib.ReadFromBytes unsignedXML = .ok doc ∧
      lib.WriteTo final = .ok out ∧
      assemble lib doc tlsCert = .ok a ∧
      doc.Root = some env ∧
      -- the header of the returned document and its child elements
      deref final a.ptr.header = some hdr ∧
      tagMatches hdr.tag (str "Header") = true ∧
      hdr.ChildElements.length = n + 1 ∧
      hdr.ChildElements[n]? = some sec ∧
      hdr.ChildElements.getLast? = some sec ∧
      sec.space = str "wsse" ∧ sec.tag = str "Security" ∧
      -- the header is the one created, or the one found in the input; `n` is the number
      -- of child elements it had
      ((findChild env (str "Header") = none ∧ a.ptr.header = [0, 0] ∧ n = 0) ∨
       (∃ hI hdrIn, findChild env (str "Header") = some hI ∧ a.ptr.header = [0, hI] ∧
          env.ChildElements[hI]? = some hdrIn ∧ n = hdrIn.ChildElements.length)) ∧
      (n = 0 → hdr.ChildElements.head? = some sec) := by
  obtain ⟨doc, final, hparse, h, hwrite⟩ := signSOAPEnvelope_ok hs
  obtain ⟨a, ha, hds⟩ := signDocument_ok h
  obtain ⟨env, hI, bI, hdr0, bodyEl0, leaf, hroot, -, -, hptr, hne, hhm, hin, hhdr, -, -⟩ :=
    assemble_spec ha
  obtain ⟨bodyC14N, signedInfoC14N, signature, -, -, -, hfin⟩ := digestAndSign_ok hds
  have kb := keepsElements_setAttrChild bodyC14N.Attr bodyC14N.Child
  have ks := keepsElements_setAttrChild signedInfoC14N.Attr signedInfoC14N.Child
  have kd := keepsElements_SetText (lib.base64 (sha256Sum lib bodyC14N.bytes))
  have kv := keepsElements_SetText (lib.base64 signature)
  have he : hdr0.isElement = true := by
    have := isElement_of_deref hhdr
    unfold Token.AddChild at this
    rwa [isElement_mapChildren] at this
  have ph : a.ptr.header = [0, hI] := by rw [hptr]
  have pb : a.ptr.body = [0, bI] := by rw [hptr]
  have pdv : a.ptr.dv = [0, hI] ++ [hdr0.ChildElements.length, 1, 0, 2, 2] := by
    rw [Pointers.dv, hptr]; rfl
  have psi : a.ptr.signedInfo = [0, hI] ++ [hdr0.ChildElements.length, 1, 0] := by
    rw [Pointers.signedInfo, hptr]; rfl
  have psv : a.ptr.sv = [0, hI] ++ [hdr0.ChildElements.length, 1, 1] := by
    rw [Pointers.sv, hptr]; rfl
  have pdv' : a.ptr.dv = [0, hI, hdr0.ChildElements.length] ++ [1, 0, 2, 2] := by
    rw [Pointers.dv, hptr]
  have psi' : a.ptr.signedInfo = [0, hI, hdr0.ChildElements.length] ++ [1, 0] := by
    rw [Pointers.signedInfo, hptr]
  have psv' : a.ptr.sv = [0, hI, hdr0.ChildElements.length] ++ [1, 1] := by
    rw [Pointers.sv, hptr]
  have hsec := deref_security hhdr (isElement_securityElement lib leaf)
  -- the rewriting of the body leaves the header
  have b0 := deref_update_body_header kb (a.doc.Indent 2) hI bI [] hne
  have b1 := deref_update_body_header kb (a.doc.Indent 2) hI bI [hdr0.ChildElements.length] hne
  simp only [List.append_nil, List.cons_append, List.nil_append] at b0 b1
  -- the header in the returned document
  have hH : deref final [0, hI] = some
      ((((Token.indent 2 2 (hdr0.AddChild (securityElement lib leaf))).mapChildren fun c =>
          update (fun e => e.SetText (lib.base64 (sha256Sum lib bodyC14N.bytes))) c
            [hdr0.ChildElements.length, 1, 0, 2, 2]).mapChildren fun c =>
          update (fun e => e.setAttrChild signedInfoC14N.Attr signedInfoC14N.Child) c
            [hdr0.ChildElements.length, 1, 0]).mapChildren fun c =>
          update (fun e => e.SetText (lib.base64 signature)) c
            [hdr0.ChildElements.length, 1, 1]) := by
    rw [hfin, psv, deref_update_above _ _ _ _ (by simp) (by simp), psi,
      deref_update_above _ _ _ _ (by simp) (by simp), pdv,
      deref_update_above _ _ _ _ (by simp) (by simp), pb, b0, deref_Indent, hhdr]
    rfl
  -- the security element in the returned document
  have hS : deref final [0, hI, hdr0.ChildElements.length] = some
      ((((Token.indent 2 3 (securityElement lib leaf)).mapChildren fun c =>
          update (fun e => e.SetText (lib.base64 (sha256Sum lib bodyC14N.bytes))) c
            [1, 0, 2, 2]).mapChildren fun c =>
          update (fun e => e.setAttrChild signedInfoC14N.Attr signedInfoC14N.Child) c
            [1, 0]).mapChildren fun c =>
          update (fun e => e.SetText (lib.base64 signature)) c [1, 1]) := by
    have := hsec []
    simp only [List.append_nil, List.isEmpty_nil, if_true] at this
    rw [hfin, psv', deref_update_above _ _ _ _ (by simp) (by simp), psi',
      deref_update_above _ _ _ _ (by simp) (by simp), pdv',
      deref_update_above _ _ _ _ (by simp) (by simp), pb, b1, deref_Indent, this]
    rfl
  have hE1 : (Token.indent 2 2 (hdr0.AddChild (securityElement lib leaf))).isElement = true := by
    rw [isElement_indent]; exact isElement_of_deref hhdr
  have hlen : ((((Token.indent 2 2 (hdr0.AddChild (securityElement lib leaf))).mapChildren fun c =>
          update (fun e => e.SetText (lib.base64 (sha256Sum lib bodyC14N.bytes))) c
            [hdr0.ChildElements.length, 1, 0, 2, 2]).mapChildren fun c =>
          update (fun e => e.setAttrChild signedInfoC14N.Attr signedInfoC14N.Child) c
            [hdr0.ChildElements.length, 1, 0]).mapChildren fun c =>
          update (fun e => e.SetText (lib.base64 signature)) c
            [hdr0.ChildElements.length, 1, 1]).ChildElements.length =
      hdr0.ChildElements.length + 1 := by
    unfold Token.ChildElements
    rw [children_mapChildren _
        (by rw [isElement_mapChildren, isElement_mapChildren]; exact hE1),
      length_childElements_update kv,
      children_mapChildren _ (by rw [isElement_mapChildren]; exact hE1),
      length_childElements_update ks,
      children_mapChildren _ hE1,
      length_childElements_update kd,
      childElements_children_indent, List.length_map]
    unfold Token.AddChild
    rw [children_mapChildren _ he, childElements_append,
      childElements_cons_elem _ (isElement_securityElement lib leaf)]
    simp [childElements]
  have hnth := getElem?_ChildElements_of_deref hH hdr0.ChildElements.length
  simp only [List.cons_append, List.nil_append] at hnth
  rw [hS] at hnth
  refine ⟨doc, final, a, env, _, _, hdr0.ChildElements.length, hparse, hwrite, ha, hroot,
    by rw [ph]; exact hH, ?_, hlen,
    hnth, ?_, ?_, ?_, ?_, ?_⟩
  · rw [tag_mapChildren, tag_mapChildren, tag_mapChildren, tag_indent]
    unfold Token.AddChild
    rw [tag_mapChildren]
    exact hhm
  · rw [List.getLast?_eq_getElem?, hlen]
    exact hnth
  · rw [space_mapChildren, space_mapChildren, space_mapChildren, space_indent]
    exact (tag_securityElement lib leaf).2
  · rw [tag_mapChildren, tag_mapChildren, tag_mapChildren, tag_indent]
    exact (tag_securityElement lib leaf).1
  · rcases hin with ⟨hn, hnew, h0⟩ | ⟨hs, hget⟩
    · left
      refine ⟨hn, by rw [ph, h0], ?_⟩
      rw [hnew]; rfl
    · right
      exact ⟨hI, hdr0, hs, ph, hget, rfl⟩
  · intro hn0
    rw [List.head?_eq_getElem?]
    have key : ∀ (l : List Token) (x : Token) (n : Nat), l[n]? = some x → n = 0 →
        l[0]? = some x := by
      intro l x n h1 h2; subst h2; exact h1
    exact key _ _ _ hnth hn0


/-! ## Witnesses and counterexamples of the signing claims -/

/-- Frame: setting the two texts below the security element of an empty header leaves
the body. -/
theorem deref_body_after_texts (cs : List Token) (digest signature : GoString) :
    deref (update (fun e => e.SetText signature)
        (update (fun e => e.SetText digest) cs [0, 0, 0, 1, 0, 2, 2]) [0, 0, 0, 1, 1]) [0, 1] =
      deref cs [0, 1] := by
  have f1 := deref_update_diverge (keepsElements_SetText signature)
    (update (fun e => e.SetText digest) cs [0, 0, 0, 1, 0, 2, 2]) [0] 0 1 [0, 1, 1] []
    (by decide)
  have f2 := deref_update_diverge (keepsElements_SetText digest) cs [0] 0 1 [0, 1, 0, 2, 2] []
    (by decide)
  simp only [List.cons_append, List.nil_append] at f1 f2
  rw [f1, f2]

/-- C5, counterexample. For an envelope whose Body holds a comment, the Body of the
indented document still holds the comment and the Body of the document that is
serialized does not: the canonicalizer has removed it. So the tree that is serialized
is not the indented tree with only the two texts set. -/
theorem signSOAPEnvelope_canonicalizer_removes_comment :
    (∃ (out : GoString) (final : Document) (a : Assembled) (bodyIndented bodyFinal : Token),
      signSOAPEnvelope (exampleSignLib exampleDocumentComment)
        (str "<SOAP-ENV:Envelope/>") exampleCertificate = .ok out ∧
      signDocument (exampleSignLib exampleDocumentComment) exampleDocumentComment
        exampleCertificate = .ok final ∧
      (exampleSignLib exampleDocumentComment).WriteTo final = .ok out ∧
      assemble (exampleSignLib exampleDocumentComment) exampleDocumentComment
        exampleCertificate = .ok a ∧
      deref (a.doc.Indent 2) a.ptr.body = some bodyIndented ∧
      deref final a.ptr.body = some bodyFinal ∧
      bodyIndented.children.any Token.isComment = true ∧
      bodyFinal.children.any Token.isComment = false) ∧
    ¬ (∀ (lib : SignLib) (unsignedXML : GoString) (tlsCert : TLSCertificate)
        (out : GoString), signSOAPEnvelope lib unsignedXML tlsCert = .ok out →
        ∃ (doc final : Document) (a : Assembled) (digest signature : GoString),
          lib.ReadFromBytes unsignedXML = .ok doc ∧
          lib.WriteTo final = .ok out ∧
          signDocument lib doc tlsCert = .ok final ∧
          assemble lib doc tlsCert = .ok a ∧
          final =
            update (fun e => e.SetText signature)
              (update (fun e => e.SetText digest) (a.doc.Indent 2) a.ptr.dv) a.ptr.sv) := by
  refine ⟨⟨_, _, _, _, _, rfl, rfl, rfl, rfl, rfl, rfl, by decide, by decide⟩, fun H => ?_⟩
  obtain ⟨doc, final, a, digest, signature, hp, -, hsd, ha, hfin⟩ :=
    H (exampleSignLib exampleDocumentComment) (str "<SOAP-ENV:Envelope/>")
      exampleCertificate _ rfl
  cases hp
  cases hsd
  cases ha
  have := congrArg
    (fun d => (deref d [0, 1]).map fun t => t.children.any Token.isComment) hfin
  simp only at this
  change _ = (deref (update _ (update _ _ [0, 0, 0, 1, 0, 2, 2]) [0, 0, 0, 1, 1]) [0, 1]).map _
    at this
  rw [deref_body_after_texts] at this
  revert this
  decide


/-- Witness for C5 (amended): signing the example envelope whose body holds a
comment. -/
theorem signSOAPEnvelope_changes_after_indent_witness :
    ∃ out : GoString,
      signSOAPEnvelope (exampleSignLib exampleDocumentComment) (str "<SOAP-ENV:Envelope/>")
        exampleCertificate = .ok out ∧
      ∃ (final : Document) (a : Assembled) (bodyEl : Token) (bodyC14N : Canonical),
        (exampleSignLib exampleDocumentComment).WriteTo final = .ok out ∧
        assemble (exampleSignLib exampleDocumentComment) exampleDocumentComment
          exampleCertificate = .ok a ∧
        deref (a.doc.Indent 2) a.ptr.body = some bodyEl ∧
        (exampleSignLib exampleDocumentComment).TransformExcC14n bodyEl =
          .ok (bodyC14N.Attr, bodyC14N.Child) ∧
        (exampleSignLib exampleDocumentComment).canonicalSerialize
          (bodyEl.setAttrChild bodyC14N.Attr bodyC14N.Child) = .ok bodyC14N.bytes ∧
        deref final a.ptr.body = some (bodyEl.setAttrChild bodyC14N.Attr bodyC14N.Child) :=
  ⟨str "Envelope", rfl,
    match signSOAPEnvelope_changes_after_indent (exampleSignLib exampleDocumentComment)
      (str "<SOAP-ENV:Envelope/>") exampleCertificate (str "Envelope") rfl with
    | ⟨_, final, a, bodyEl, _, bodyC14N, _, _, h0, hw, h1, h2, _, _, _, _, h9, h10, h11, _⟩ =>
      ⟨final, a, bodyEl, bodyC14N, hw, Except.ok.inj h0 ▸ h1, h2, h9, h10, h11⟩⟩

/-- C6, counterexample. For an envelope whose Header already has a child element
`wsa:Action`, the child elements of the Header in the signed document are
`wsa:Action` followed by `wsse:Security`: the security element is not the first child
element. -/
theorem signSOAPEnvelope_security_after_existing_child :
    (∃ (out : GoString) (final : Document) (hdr : Token),
      signSOAPEnvelope (exampleSignLib exampleDocumentHeaderChild)
        (str "<SOAP-ENV:Envelope/>") exampleCertificate = .ok out ∧
      signDocument (exampleSignLib exampleDocumentHeaderChild) exampleDocumentHeaderChild
        exampleCertificate = .ok final ∧
      (exampleSignLib exampleDocumentHeaderChild).WriteTo final = .ok out ∧
      deref final [0, 0] = some hdr ∧
      hdr.ChildElements.map (fun t => (t.space, t.tag)) =
        [(str "wsa", str "Action"), (str "wsse", str "Security")]) ∧
    ¬ (∀ (lib : SignLib) (unsignedXML : GoString) (tlsCert : TLSCertificate)
        (out : GoString), signSOAPEnvelope lib unsignedXML tlsCert = .ok out →
        ∃ (doc final : Document) (a : Assembled) (hdr sec : Token),
          lib.ReadFromBytes unsignedXML = .ok doc ∧
          lib.WriteTo final = .ok out ∧
          signDocument lib doc tlsCert = .ok final ∧
          assemble lib doc tlsCert = .ok a ∧
          deref final a.ptr.header = some hdr ∧
          hdr.ChildElements.head? = some sec ∧
          sec.tag = str "Security") := by
  refine ⟨⟨_, _, _, rfl, rfl, rfl, rfl, by decide⟩, fun H => ?_⟩
  obtain ⟨doc, final, a, hdr, sec, hp, -, hsd, ha, hh, hs, ht⟩ :=
    H (exampleSignLib exampleDocumentHeaderChild) (str "<SOAP-ENV:Envelope/>")
      exampleCertificate _ rfl
  cases hp
  cases hsd
  cases ha
  cases hh
  cases hs
  revert ht
  decide

/-- Witness for C6 (amended): in the example envelope, whose header is empty, the
security element is the only child element of the header. -/
theorem signSOAPEnvelope_security_last_in_header_witness :
    ∃ out : GoString,
      signSOAPEnvelope (exampleSignLib exampleDocument) (str "<SOAP-ENV:Envelope/>")
        exampleCertificate = .ok out ∧
      ∃ (final : Document) (a : Assembled) (hdr sec : Token),
        (exampleSignLib exampleDocument).WriteTo final = .ok out ∧
        deref final a.ptr.header = some hdr ∧
        hdr.ChildElements.getLast? = some sec ∧ sec.tag = str "Security" :=
  ⟨str "Envelope", rfl,
    match signSOAPEnvelope_security_last_in_header (exampleSignLib exampleDocument)
      (str "<SOAP-ENV:Envelope/>") exampleCertificate (str "Envelope") rfl with
    | ⟨_, final, a, _, hdr, sec, _, _, hw, _, _, h3, _, _, _, h7, _, h9, _⟩ =>
      ⟨final, a, hdr, sec, hw, h3, h7, h9⟩⟩

/-! ## Claims on the call and its outcome -/

/-- C7. `signSOAPEnvelope` returns an error (and so no bytes) when the root of the
parsed envelope has no child element whose local name is `Body`, and when the private
key of the credential is nil or is not an RSA key. Whenever signing fails,
`AnalyzeRisk` returns the signing error with the zero response and has neither
created nor sent an HTTP request; in particular with a nil or non-RSA key
`AnalyzeRisk` returns an error and has made no request. -/
theorem signSOAPEnvelope_fails_before_network (lib : ClientLib) (c : Client)
    (req : RiskAnalysisRequest) (unsignedXML : GoString) :
    (∀ (doc : Document) (env : Token),
      lib.sign.ReadFromBytes unsignedXML = .ok doc → doc.Root = some env →
      (∀ ch ∈ env.ChildElements, localNameOf ch.tag ≠ str "Body") →
      signSOAPEnvelope lib.sign unsignedXML c.tlsCert = .error .bodyNotFound) ∧
    ((c.tlsCert.PrivateKey = .nil ∨ ∃ kind, c.tlsCert.PrivateKey = .other kind) →
      ∃ e, signSOAPEnvelope lib.sign unsignedXML c.tlsCert = .error e) ∧
    (∀ (xmlData : GoString) (e : SignError),
      lib.MarshalIndent (buildSOAPRequest c.cfg lib.runtime req) = .ok xmlData →
      signSOAPEnvelope lib.sign (xmlHeader ++ xmlData) c.tlsCert = .error e →
      AnalyzeRisk lib c req = { resp := .zero, err := some (.signRequest e), http := [] }) ∧
    ((c.tlsCert.PrivateKey = .nil ∨ ∃ kind, c.tlsCert.PrivateKey = .other kind) →
      (AnalyzeRisk lib c req).err ≠ none ∧ (AnalyzeRisk lib c req).http = [] ∧
      (AnalyzeRisk lib c req).resp = .zero) := by
  have key : (c.tlsCert.PrivateKey = .nil ∨ ∃ kind, c.tlsCert.PrivateKey = .other kind) →
      ∀ k, c.tlsCert.PrivateKey ≠ .rsa k := by
    rintro (h | ⟨kind, h⟩) k hk <;> rw [h] at hk <;> cases hk
  refine ⟨fun doc env hp hr hb => signSOAPEnvelope_noBody _ _ _ doc env hp hr hb,
    fun hk => signSOAPEnvelope_notRSA _ _ _ (key hk),
    fun xmlData e hm hs => AnalyzeRisk_sign_error lib c req xmlData e hm hs, fun hk => ?_⟩
  cases hm : lib.MarshalIndent (buildSOAPRequest c.cfg lib.runtime req) with
  | error e => simp [AnalyzeRisk, hm]
  | ok xmlData =>
    obtain ⟨e, he⟩ :=
      signSOAPEnvelope_notRSA lib.sign (xmlHeader ++ xmlData) c.tlsCert (key hk)
    rw [AnalyzeRisk_sign_error lib c req xmlData e hm he]
    simp

/-- Witness for C7: an envelope without body, and a key that is not an RSA key. -/
theorem signSOAPEnvelope_fails_before_network_witness :
    signSOAPEnvelope (exampleSignLib exampleDocumentNoBody) (str "<SOAP-ENV:Envelope/>")
      exampleCertificate = .error .bodyNotFound ∧
    (AnalyzeRisk (exampleClientLib exampleDocument 200 [] exampleReplyResponse)
      (exampleClient exampleCertificateECDSA) (exampleRequest (str "4111111111111111"))).http
      = [] :=
  ⟨(signSOAPEnvelope_fails_before_network
      (exampleClientLib exampleDocumentNoBody 200 [] exampleReplyResponse)
      (exampleClient exampleCertificate) (exampleRequest (str "4111111111111111"))
      (str "<SOAP-ENV:Envelope/>")).1 exampleDocumentNoBody _ rfl rfl (by decide),
   ((signSOAPEnvelope_fails_before_network
      (exampleClientLib exampleDocument 200 [] exampleReplyResponse)
      (exampleClient exampleCertificateECDSA) (exampleRequest (str "4111111111111111"))
      []).2.2.2 (Or.inr ⟨_, rfl⟩)).2.1⟩

/-- C8, counterexample. For a response that decodes and carries a Fault element the
error returned by `AnalyzeRisk` is not nil: it is the `*SOAPFault` value. -/
theorem AnalyzeRisk_fault_is_an_error :
    (AnalyzeRisk (exampleClientLib exampleDocument 500 (str "<fault/>") exampleFaultResponse)
      (exampleClient exampleCertificate) (exampleRequest (str "4111111111111111"))).err =
      some (.soapFault { FaultCode := str "soap:Client", FaultString := str "bad request",
                         RawBody := str "<fault/>" }) ∧
    ¬ (∀ (lib : ClientLib) (c : Client) (req : RiskAnalysisRequest) (status : Int)
        (respBody : GoString) (soapResp : soapResponseEnvelope) (fault : soapFaultBody),
        Exchanged lib c req status respBody → lib.Unmarshal respBody = .ok soapResp →
        soapResp.Body.Fault = some fault → (AnalyzeRisk lib c req).err = none) := by
  refine ⟨by decide, fun H => ?_⟩
  have := H (exampleClientLib exampleDocument 500 (str "<fault/>") exampleFaultResponse)
    (exampleClient exampleCertificate) (exampleRequest (str "4111111111111111")) 500
    (str "<fault/>") exampleFaultResponse _ ⟨_, _, _, _, rfl, rfl, rfl, rfl, rfl, rfl⟩ rfl rfl
  revert this
  decide

/-- C8, amended. For every response body that decodes successfully and contains a
Fault element, `AnalyzeRisk` returns a non-nil error that is a `*SOAPFault` carrying
the fault code, the fault string without its leading and trailing white space
(`strings.TrimSpace`; the fault string itself when it has none) and the raw body,
together with a response holding the HTTP status and the raw body; this error is not
a parse error, and it differs from the error returned for any response that does not
decode, which is the wrapped parse error. -/
theorem AnalyzeRisk_fault_outcome (lib : ClientLib) (c : Client) (req : RiskAnalysisRequest)
    (status : Int) (respBody : GoString) (soapResp : soapResponseEnvelope)
    (fault : soapFaultBody) (hx : Exchanged lib c req status respBody)
    (hu : lib.Unmarshal respBody = .ok soapResp) (hf : soapResp.Body.Fault = some fault) :
    (AnalyzeRisk lib c req).err = some (.soapFault
      { FaultCode := fault.FaultCode, FaultString := TrimSpace fault.FaultString,
        RawBody := respBody }) ∧
    (leadingSpaceLen fault.FaultString = 0 → trailingSpaceLen fault.FaultString = 0 →
      (AnalyzeRisk lib c req).err = some (.soapFault
        { FaultCode := fault.FaultCode, FaultString := fault.FaultString,
          RawBody := respBody })) ∧
    (AnalyzeRisk lib c req).err ≠ none ∧
    (AnalyzeRisk lib c req).resp.HTTPStatus = status ∧
    (AnalyzeRisk lib c req).resp.Body = respBody ∧
    (∀ (st : Int) (e : LibError), (AnalyzeRisk lib c req).err ≠ some (.parseResponse st e)) ∧
    (∀ (lib2 : ClientLib) (c2 : Client) (req2 : RiskAnalysisRequest) (status2 : Int)
        (respBody2 : GoString) (e2 : LibError),
      Exchanged lib2 c2 req2 status2 respBody2 → lib2.Unmarshal respBody2 = .error e2 →
      (AnalyzeRisk lib2 c2 req2).err = some (.parseResponse status2 e2) ∧
      (AnalyzeRisk lib c req).err ≠ (AnalyzeRisk lib2 c2 req2).err) := by
  obtain ⟨hr, he⟩ := (AnalyzeRisk_exchanged hx).2.1 soapResp fault hu hf
  rw [he, hr]
  refine ⟨rfl, fun h1 h2 => ?_, by simp, rfl, rfl, by simp, ?_⟩
  · rw [TrimSpace_eq_self _ h1 h2]
  · intro lib2 c2 req2 status2 respBody2 e2 hx2 hu2
    obtain ⟨-, he2⟩ := (AnalyzeRisk_exchanged hx2).1 e2 hu2
    rw [he2]
    exact ⟨rfl, by simp⟩

/-- Witness for C8 (amended): the example fault response, with fault code
`soap:Client` and fault string "\n  bad request\n". -/
theorem AnalyzeRisk_fault_outcome_witness :
    (AnalyzeRisk (exampleClientLib exampleDocument 500 (str "<fault/>") exampleFaultResponse)
      (exampleClient exampleCertificate) (exampleRequest (str "4111111111111111"))).err =
      some (.soapFault { FaultCode := str "soap:Client", FaultString := str "bad request",
                         RawBody := str "<fault/>" }) ∧
    (AnalyzeRisk (exampleClientLib exampleDocument 500 (str "<fault/>") exampleFaultResponse)
      (exampleClient exampleCertificate) (exampleRequest (str "4111111111111111"))).err
      ≠ none :=
  ⟨(AnalyzeRisk_fault_outcome
      (exampleClientLib exampleDocument 500 (str "<fault/>") exampleFaultResponse)
      (exampleClient exampleCertificate) (exampleRequest (str "4111111111111111")) 500
      (str "<fault/>") exampleFaultResponse
      { FaultCode := str "soap:Client", FaultString := str "\n  bad request\n" }
      ⟨_, _, _, _, rfl, rfl, rfl, rfl, rfl, rfl⟩ rfl rfl).1,
   (AnalyzeRisk_fault_outcome
      (exampleClientLib exampleDocument 500 (str "<fault/>") exampleFaultResponse)
      (exampleClient exampleCertificate) (exampleRequest (str "4111111111111111")) 500
      (str "<fault/>") exampleFaultResponse
      { FaultCode := str "soap:Client", FaultString := str "\n  bad request\n" }
      ⟨_, _, _, _, rfl, rfl, rfl, rfl, rfl, rfl⟩ rfl rfl).2.2.1⟩

/-- C9, counterexample. For a fault whose message is "\n  bad request\n" the
`FaultString` of the returned fault is "bad request", not the message itself. -/
theorem AnalyzeRisk_fault_string_trimmed :
    exampleFaultResponse.Body.Fault =
      some { FaultCode := str "soap:Client", FaultString := str "\n  bad request\n" } ∧
    (AnalyzeRisk (exampleClientLib exampleDocument 500 (str "<fault/>") exampleFaultResponse)
      (exampleClient exampleCertificate) (exampleRequest (str "4111111111111111"))).err =
      some (.soapFault { FaultCode := str "soap:Client", FaultString := str "bad request",
                         RawBody := str "<fault/>" }) ∧
    str "bad request" ≠ str "\n  bad request\n" ∧
    ¬ (∀ (lib : ClientLib) (c : Client) (req : RiskAnalysisRequest) (status : Int)
        (respBody : GoString) (soapResp : soapResponseEnvelope) (fault : soapFaultBody),
        Exchanged lib c req status respBody → lib.Unmarshal respBody = .ok soapResp →
        soapResp.Body.Fault = some fault →
        ∃ f : SOAPFault, (AnalyzeRisk lib c req).err = some (.soapFault f) ∧
          f.FaultCode = fault.FaultCode ∧ f.FaultString = fault.FaultString) := by
  refine ⟨rfl, by decide, by decide, fun H => ?_⟩
  obtain ⟨f, h1, -, h3⟩ :=
    H (exampleClientLib exampleDocument 500 (str "<fault/>") exampleFaultResponse)
    (exampleClient exampleCertificate) (exampleRequest (str "4111111111111111")) 500
    (str "<fault/>") exampleFaultResponse _ ⟨_, _, _, _, rfl, rfl, rfl, rfl, rfl, rfl⟩ rfl rfl
  have h0 : (AnalyzeRisk (exampleClientLib exampleDocument 500 (str "<fault/>")
      exampleFaultResponse) (exampleClient exampleCertificate)
      (exampleRequest (str "4111111111111111"))).err =
      some (.soapFault { FaultCode := str "soap:Client", FaultString := str "bad request",
                         RawBody := str "<fault/>" }) := by decide
  rw [h0] at h1
  cases h1
  revert h3
  decide

/-- C9, amended. For every fault code `code` and fault message `message`, a decoded
response whose Fault element carries them yields a `*SOAPFault` whose `FaultCode` is
exactly `code` and whose `FaultString` is `message` with its leading and trailing white
space removed (`strings.TrimSpace`; exactly `message` when it has none); no reply field
is populated (`Data` is the zero value, `AFSReply` nil) whatever the reply message of
the body holds. -/
theorem AnalyzeRisk_fault_values (lib : ClientLib) (c : Client) (req : RiskAnalysisRequest)
    (status : Int) (respBody : GoString) (soapResp : soapResponseEnvelope)
    (code message : GoString) (hx : Exchanged lib c req status respBody)
    (hu : lib.Unmarshal respBody = .ok soapResp)
    (hf : soapResp.Body.Fault = some { FaultCode := code, FaultString := message }) :
    (∃ f : SOAPFault, (AnalyzeRisk lib c req).err = some (.soapFault f) ∧
      f.FaultCode = code ∧ f.FaultString = TrimSpace message ∧
      (leadingSpaceLen message = 0 → trailingSpaceLen message = 0 →
        f.FaultString = message)) ∧
    (AnalyzeRisk lib c req).resp.Data = RiskAnalysisResponse.zero ∧
    (AnalyzeRisk lib c req).resp.Data.AFSReply = none := by
  obtain ⟨hr, he⟩ := (AnalyzeRisk_exchanged hx).2.1 soapResp _ hu hf
  rw [he, hr]
  exact ⟨⟨_, rfl, rfl, rfl, fun h1 h2 => TrimSpace_eq_self message h1 h2⟩, rfl, rfl⟩

/-- Witness for C9 (amended): the example fault response, whose body also carries a
reply. -/
theorem AnalyzeRisk_fault_values_witness :
    (AnalyzeRisk (exampleClientLib exampleDocument 500 (str "<fault/>") exampleFaultResponse)
      (exampleClient exampleCertificate) (exampleRequest (str "4111111111111111"))).resp.Data
      = RiskAnalysisResponse.zero :=
  (AnalyzeRisk_fault_values
    (exampleClientLib exampleDocument 500 (str "<fault/>") exampleFaultResponse)
    (exampleClient exampleCertificate) (exampleRequest (str "4111111111111111")) 500
    (str "<fault/>") exampleFaultResponse (str "soap:Client") (str "\n  bad request\n")
    ⟨_, _, _, _, rfl, rfl, rfl, rfl, rfl, rfl⟩ rfl rfl).2.1

/-- C10. For every decoded response without a Fault element, `AnalyzeRisk` returns a
nil error and a result whose `RequestID`, `Decision`, `ReasonCode`, `RequestToken` and
`MerchantReferenceCode` are the reply's; the result's `AFSReply` is nil exactly when
the reply has no `afsReply` sub-block, and otherwise holds the twelve fields of the
sub-block unchanged. -/
theorem AnalyzeRisk_reply_outcome (lib : ClientLib) (c : Client) (req : RiskAnalysisRequest)
    (status : Int) (respBody : GoString) (soapResp : soapResponseEnvelope)
    (hx : Exchanged lib c req status respBody)
    (hu : lib.Unmarshal respBody = .ok soapResp) (hf : soapResp.Body.Fault = none) :
    (AnalyzeRisk lib c req).err = none ∧
    (AnalyzeRisk lib c req).resp.Data.RequestID = soapResp.Body.ReplyMessage.RequestID ∧
    (AnalyzeRisk lib c req).resp.Data.Decision = soapResp.Body.ReplyMessage.Decision ∧
    (AnalyzeRisk lib c req).resp.Data.ReasonCode = soapResp.Body.ReplyMessage.ReasonCode ∧
    (AnalyzeRisk lib c req).resp.Data.RequestToken = soapResp.Body.ReplyMessage.RequestToken ∧
    (AnalyzeRisk lib c req).resp.Data.MerchantReferenceCode =
      soapResp.Body.ReplyMessage.MerchantReferenceCode ∧
    ((AnalyzeRisk lib c req).resp.Data.AFSReply = none ↔
      soapResp.Body.ReplyMessage.AFSReply = none) ∧
    (∀ afs : soapAFSReply, soapResp.Body.ReplyMessage.AFSReply = some afs →
      (AnalyzeRisk lib c req).resp.Data.AFSReply = some
        { ReasonCode := afs.ReasonCode, AFSResult := afs.AFSResult,
          HostSeverity := afs.HostSeverity, AFSFactorCode := afs.AFSFactorCode,
          AddressInfoCode := afs.AddressInfoCode, IPCountry := afs.IPCountry,
          IPState := afs.IPState, IPCity := afs.IPCity,
          ScoreModelUsed := afs.ScoreModelUsed, BinCountry := afs.BinCountry,
          CardScheme := afs.CardScheme, CardIssuer := afs.CardIssuer }) := by
  obtain ⟨hr, he⟩ := (AnalyzeRisk_exchanged hx).2.2 soapResp hu hf
  rw [he, hr]
  cases h : soapResp.Body.ReplyMessage.AFSReply with
  | none => simp [replyToResponse, h]
  | some afs => simp [replyToResponse, h]

/-- Witness for C10: the example reply, which has no scoring sub-block. -/
theorem AnalyzeRisk_reply_outcome_witness :
    (AnalyzeRisk (exampleClientLib exampleDocument 200 (str "<reply/>") exampleReplyResponse)
      (exampleClient exampleCertificate) (exampleRequest (str "4111111111111111"))).err
      = none ∧
    (AnalyzeRisk (exampleClientLib exampleDocument 200 (str "<reply/>") exampleReplyResponse)
      (exampleClient exampleCertificate)
      (exampleRequest (str "4111111111111111"))).resp.Data.AFSReply = none :=
  match AnalyzeRisk_reply_outcome
    (exampleClientLib exampleDocument 200 (str "<reply/>") exampleReplyResponse)
    (exampleClient exampleCertificate) (exampleRequest (str "4111111111111111")) 200
    (str "<reply/>") exampleReplyResponse ⟨_, _, _, _, rfl, rfl, rfl, rfl, rfl, rfl⟩
    rfl rfl with
  | ⟨h1, _, _, _, _, _, h7, _⟩ => ⟨h1, h7.2 rfl⟩

/-! ## The request message, its items and the elements written for it -/

/-- The request message of the envelope built for a request. -/
theorem buildSOAPRequest_message (cfg : Config) (rt : GoRuntime) (req : RiskAnalysisRequest) :
    (buildSOAPRequest cfg rt req).Body.RequestMessage =
      { MerchantID := cfg.MerchantID,
        MerchantReferenceCode := req.MerchantReferenceCode,
        ClientLibrary := str "Go",
        ClientLibraryVersion := rt.Version,
        ClientEnvironment := rt.GOOS,
        BillTo := req.BillTo.map billToElement,
        Items := appendItems [] 0 req.Items,
        PurchaseTotals := some { Currency := req.PurchaseTotals.Currency,
                                 GrandTotalAmount := req.PurchaseTotals.GrandTotalAmount },
        Card := (buildSOAPRequest cfg rt req).Body.RequestMessage.Card,
        MerchantDefinedData :=
          if req.MerchantDefinedData.length > 0 then some { Fields := req.MerchantDefinedData }
          else none,
        AFSService := some { Run := str "true" },
        DeviceFingerprintID := req.DeviceFingerprintID } := by
  unfold buildSOAPRequest
  simp only
  cases req.BillTo <;> split <;> rfl

/-- The loop over the items appends, to the items built so far, one element per input
item, numbered from the starting index. -/
theorem appendItems_eq (acc : List soapItem) (k : Nat) (items : List Item) :
    (appendItems acc k items).length = acc.length + items.length ∧
    (∀ j, j < acc.length → (appendItems acc k items)[j]? = acc[j]?) ∧
    (∀ j, (appendItems acc k items)[acc.length + j]? = (items[j]?).map (itemElement (k + j))) := by
  induction items generalizing acc k with
  | nil =>
    refine ⟨by simp [appendItems], fun j _ => by simp [appendItems], fun j => ?_⟩
    simp [appendItems]
  | cons item rest ih =>
    obtain ⟨h1, h2, h3⟩ := ih (acc ++ [itemElement k item]) (k + 1)
    have hunf : appendItems acc k (item :: rest) =
        appendItems (acc ++ [itemElement k item]) (k + 1) rest := rfl
    rw [hunf]
    refine ⟨?_, ?_, ?_⟩
    · rw [h1, List.length_append, List.length_singleton, List.length_cons]; omega
    · intro j hj
      rw [h2 j (by rw [List.length_append]; omega), List.getElem?_append_left hj]
    · intro j
      cases j with
      | zero =>
        have := h2 acc.length (by rw [List.length_append, List.length_singleton]; omega)
        simp only [Nat.add_zero]
        rw [this]
        simp
      | succ j =>
        have := h3 j
        rw [List.length_append, List.length_singleton] at this
        rw [show acc.length + (j + 1) = acc.length + 1 + j by omega, this,
          List.getElem?_cons_succ, show k + 1 + j = k + (j + 1) by omega]

/-- Which tags occur among the child elements written for a request message. -/
theorem mem_marshalChildren (m : requestMessage) (t : GoString) :
    t ∈ m.marshalChildren ↔
      (t = str "ns1:merchantID" ∨ t = str "ns1:merchantReferenceCode" ∨
        t = str "ns1:clientLibrary" ∨ t = str "ns1:clientLibraryVersion") ∨
      (m.ClientEnvironment ≠ [] ∧ t = str "ns1:clientEnvironment") ∨
      (m.BillTo ≠ none ∧ t = str "ns1:billTo") ∨
      (m.Items ≠ [] ∧ t = str "ns1:item") ∨
      (m.PurchaseTotals ≠ none ∧ t = str "ns1:purchaseTotals") ∨
      (m.Card ≠ none ∧ t = str "ns1:card") ∨
      (m.MerchantDefinedData ≠ none ∧ t = str "ns1:merchantDefinedData") ∨
      (m.AFSService ≠ none ∧ t = str "ns1:afsService") ∨
      (m.DeviceFingerprintID ≠ [] ∧ t = str "ns1:deviceFingerprintID") := by
  unfold requestMessage.marshalChildren
  generalize str "ns1:merchantID" = n1
  generalize str "ns1:merchantReferenceCode" = n2
  generalize str "ns1:clientLibrary" = n3
  generalize str "ns1:clientLibraryVersion" = n4
  generalize str "ns1:clientEnvironment" = n5
  generalize str "ns1:billTo" = n6
  generalize str "ns1:item" = n7
  generalize str "ns1:purchaseTotals" = n8
  generalize str "ns1:card" = n9
  generalize str "ns1:merchantDefinedData" = n10
  generalize str "ns1:afsService" = n11
  generalize str "ns1:deviceFingerprintID" = n12
  obtain ⟨m1, m2, m3, m4, ce, bt, items, pt, card, mdd, afs, dfp⟩ := m
  have hItems : t ∈ items.map (fun _ => n7) ↔ (items ≠ [] ∧ t = n7) := by
    cases items with
    | nil => simp
    | cons a l => simp [eq_comm]
  have hStr : ∀ (s name : GoString),
      t ∈ (if s = [] then [] else [name]) ↔ (s ≠ [] ∧ t = name) := by
    intro s name
    by_cases h : s = [] <;> simp [h]
  cases bt <;> cases pt <;> cases card <;> cases mdd <;> cases afs <;>
    simp only [List.mem_append, hItems, hStr, List.mem_cons, List.mem_singleton,
      List.not_mem_nil, or_false, false_or, or_assoc, ne_eq, not_true_eq_false, false_and,
      reduceCtorEq, not_false_eq_true, true_and]

/-- The billing element is written exactly when the billing block is present. -/
theorem billTo_written (m : requestMessage) :
    str "ns1:billTo" ∈ m.marshalChildren ↔ m.BillTo ≠ none := by
  rw [mem_marshalChildren]
  constructor
  · rintro ((h | h | h | h) | ⟨-, h⟩ | ⟨g, -⟩ | ⟨-, h⟩ | ⟨-, h⟩ | ⟨-, h⟩ | ⟨-, h⟩ | ⟨-, h⟩ |
      ⟨-, h⟩)
    all_goals first | exact g | exact absurd h (by decide)
  · intro g
    exact Or.inr (Or.inr (Or.inl ⟨g, rfl⟩))

/-- Item elements are written exactly when there are items. -/
theorem item_written (m : requestMessage) :
    str "ns1:item" ∈ m.marshalChildren ↔ m.Items ≠ [] := by
  rw [mem_marshalChildren]
  constructor
  · rintro ((h | h | h | h) | ⟨-, h⟩ | ⟨-, h⟩ | ⟨g, -⟩ | ⟨-, h⟩ | ⟨-, h⟩ | ⟨-, h⟩ | ⟨-, h⟩ |
      ⟨-, h⟩)
    all_goals first | exact g | exact absurd h (by decide)
  · intro g
    exact Or.inr (Or.inr (Or.inr (Or.inl ⟨g, rfl⟩)))

/-- The purchase totals element is written exactly when the block is present. -/
theorem purchaseTotals_written (m : requestMessage) :
    str "ns1:purchaseTotals" ∈ m.marshalChildren ↔ m.PurchaseTotals ≠ none := by
  rw [mem_marshalChildren]
  constructor
  · rintro ((h | h | h | h) | ⟨-, h⟩ | ⟨-, h⟩ | ⟨-, h⟩ | ⟨g, -⟩ | ⟨-, h⟩ | ⟨-, h⟩ | ⟨-, h⟩ |
      ⟨-, h⟩)
    all_goals first | exact g | exact absurd h (by decide)
  · intro g
    exact Or.inr (Or.inr (Or.inr (Or.inr (Or.inl ⟨g, rfl⟩))))

/-- The custom-fields element is written exactly when the block is present. -/
theorem merchantDefinedData_written (m : requestMessage) :
    str "ns1:merchantDefinedData" ∈ m.marshalChildren ↔ m.MerchantDefinedData ≠ none := by
  rw [mem_marshalChildren]
  constructor
  · rintro ((h | h | h | h) | ⟨-, h⟩ | ⟨-, h⟩ | ⟨-, h⟩ | ⟨-, h⟩ | ⟨-, h⟩ | ⟨g, -⟩ | ⟨-, h⟩ |
      ⟨-, h⟩)
    all_goals first | exact g | exact absurd h (by decide)
  · intro g
    exact Or.inr (Or.inr (Or.inr (Or.inr (Or.inr (Or.inr (Or.inl ⟨g, rfl⟩))))))

/-- The device fingerprint element is written exactly when the id is not empty. -/
theorem deviceFingerprintID_written (m : requestMessage) :
    str "ns1:deviceFingerprintID" ∈ m.marshalChildren ↔ m.DeviceFingerprintID ≠ [] := by
  rw [mem_marshalChildren]
  constructor
  · rintro ((h | h | h | h) | ⟨-, h⟩ | ⟨-, h⟩ | ⟨-, h⟩ | ⟨-, h⟩ | ⟨-, h⟩ | ⟨-, h⟩ | ⟨-, h⟩ |
      ⟨g, -⟩)
    all_goals first | exact g | exact absurd h (by decide)
  · intro g
    exact Or.inr (Or.inr (Or.inr (Or.inr (Or.inr (Or.inr (Or.inr (Or.inr ⟨g, rfl⟩)))))))

theorem count_map_const (t : GoString) {α : Type} (l : List α) :
    (l.map fun _ => t).count t = l.length := by
  induction l with
  | nil => rfl
  | cons a l ih => simp [ih]

/-- As many item elements are written as the message has items. -/
theorem item_count (m : requestMessage) :
    m.marshalChildren.count (str "ns1:item") = m.Items.length := by
  obtain ⟨m1, m2, m3, m4, ce, bt, items, pt, card, mdd, afs, dfp⟩ := m
  have h0 : List.count (str "ns1:item") [str "ns1:merchantID", str "ns1:merchantReferenceCode",
      str "ns1:clientLibrary", str "ns1:clientLibraryVersion"] = 0 := by decide
  have h1 : List.count (str "ns1:item") [str "ns1:clientEnvironment"] = 0 := by decide
  have h2 : List.count (str "ns1:item") [str "ns1:billTo"] = 0 := by decide
  have h3 : List.count (str "ns1:item") [str "ns1:purchaseTotals"] = 0 := by decide
  have h4 : List.count (str "ns1:item") [str "ns1:card"] = 0 := by decide
  have h5 : List.count (str "ns1:item") [str "ns1:merchantDefinedData"] = 0 := by decide
  have h6 : List.count (str "ns1:item") [str "ns1:afsService"] = 0 := by decide
  have h7 : List.count (str "ns1:item") [str "ns1:deviceFingerprintID"] = 0 := by decide
  have hce : List.count (str "ns1:item")
      (if ce = [] then [] else [str "ns1:clientEnvironment"]) = 0 := by
    split
    · rfl
    · exact h1
  have hdfp : List.count (str "ns1:item")
      (if dfp = [] then [] else [str "ns1:deviceFingerprintID"]) = 0 := by
    split
    · rfl
    · exact h7
  unfold requestMessage.marshalChildren
  simp only [List.count_append, h0, hce, hdfp, count_map_const]
  cases bt <;> cases pt <;> cases card <;> cases mdd <;> cases afs <;>
    simp only [h2, h3, h4, h5, h6, List.count_nil, Nat.zero_add, Nat.add_zero]

/-! ## Claims on the HTTP status, the request message and the configuration -/

/-- C11, the code at the failing input. A response with HTTP status 500 whose body
`<Envelope><Body></Body></Envelope>` decodes without fault: `AnalyzeRisk` returns a
nil error and a result (the zero reply) with status 500; no `HTTPError` is returned. -/
theorem AnalyzeRisk_ignores_http_status :
    (AnalyzeRisk
        (exampleClientLib exampleDocument 500 (str "<Envelope><Body></Body></Envelope>")
          exampleEmptyResponse)
        (exampleClient exampleCertificate) (exampleRequest (str "4111111111111111"))).resp =
      { HTTPStatus := 500, Body := str "<Envelope><Body></Body></Envelope>",
        Data := RiskAnalysisResponse.zero } ∧
    ¬ ((200 : Int) ≤ 500 ∧ (500 : Int) ≤ 299) ∧
    exampleEmptyResponse.Body.Fault = none ∧
    (AnalyzeRisk
        (exampleClientLib exampleDocument 500 (str "<Envelope><Body></Body></Envelope>")
          exampleEmptyResponse)
        (exampleClient exampleCertificate) (exampleRequest (str "4111111111111111"))).err =
      none := by
  refine ⟨by decide, by decide, rfl, by decide⟩

/-- C12, counterexample. For a request whose purchase totals have no currency and no
amount, the message built by `buildSOAPRequest` still has a purchase totals block (a
non-nil pointer to a block with two empty strings), and the `ns1:purchaseTotals`
element is written. -/
theorem buildSOAPRequest_purchaseTotals_always_present :
    exampleBareRequest.PurchaseTotals = { Currency := [], GrandTotalAmount := [] } ∧
    (buildSOAPRequest exampleConfig exampleRuntime
        exampleBareRequest).Body.RequestMessage.PurchaseTotals =
      some { Currency := [], GrandTotalAmount := [] } ∧
    str "ns1:purchaseTotals" ∈
      (buildSOAPRequest exampleConfig exampleRuntime
        exampleBareRequest).Body.RequestMessage.marshalChildren ∧
    ¬ (∀ (cfg : Config) (rt : GoRuntime) (req : RiskAnalysisRequest),
        req.PurchaseTotals.Currency = [] → req.PurchaseTotals.GrandTotalAmount = [] →
        (buildSOAPRequest cfg rt req).Body.RequestMessage.PurchaseTotals = none ∧
        str "ns1:purchaseTotals" ∉
          (buildSOAPRequest cfg rt req).Body.RequestMessage.marshalChildren) := by
  refine ⟨rfl, by decide, by decide, fun H => ?_⟩
  have := (H exampleConfig exampleRuntime exampleBareRequest rfl rfl).1
  revert this
  decide

/-- C12, amended. For every request, the message built by `buildSOAPRequest` leaves
out the billing block when `BillTo` is nil, the item elements when `Items` is empty,
the custom-fields block when `MerchantDefinedData` is nil or empty, and the device
fingerprint id when `DeviceFingerprintID` is empty (nil pointer, empty slice or empty
string, and no element written); the purchase totals block is always present, holding
the currency and amount of the request (two empty elements when the request has
neither). -/
theorem buildSOAPRequest_optional_sections (cfg : Config) (rt : GoRuntime)
    (req : RiskAnalysisRequest) :
    (req.BillTo = none →
      (buildSOAPRequest cfg rt req).Body.RequestMessage.BillTo = none ∧
      str "ns1:billTo" ∉ (buildSOAPRequest cfg rt req).Body.RequestMessage.marshalChildren) ∧
    (req.Items = [] →
      (buildSOAPRequest cfg rt req).Body.RequestMessage.Items = [] ∧
      str "ns1:item" ∉ (buildSOAPRequest cfg rt req).Body.RequestMessage.marshalChildren) ∧
    (req.MerchantDefinedData = [] →
      (buildSOAPRequest cfg rt req).Body.RequestMessage.MerchantDefinedData = none ∧
      str "ns1:merchantDefinedData" ∉
        (buildSOAPRequest cfg rt req).Body.RequestMessage.marshalChildren) ∧
    (req.DeviceFingerprintID = [] →
      (buildSOAPRequest cfg rt req).Body.RequestMessage.DeviceFingerprintID = [] ∧
      str "ns1:deviceFingerprintID" ∉
        (buildSOAPRequest cfg rt req).Body.RequestMessage.marshalChildren) ∧
    ((buildSOAPRequest cfg rt req).Body.RequestMessage.PurchaseTotals =
        some { Currency := req.PurchaseTotals.Currency,
               GrandTotalAmount := req.PurchaseTotals.GrandTotalAmount } ∧
      (soapPurchase.marshalChildren
          { Currency := req.PurchaseTotals.Currency,
            GrandTotalAmount := req.PurchaseTotals.GrandTotalAmount }).map Prod.fst =
        [str "ns1:currency", str "ns1:grandTotalAmount"] ∧
      str "ns1:purchaseTotals" ∈
        (buildSOAPRequest cfg rt req).Body.RequestMessage.marshalChildren) := by
  have hm := buildSOAPRequest_message cfg rt req
  have hB : (buildSOAPRequest cfg rt req).Body.RequestMessage.BillTo =
      req.BillTo.map billToElement := by rw [hm]
  have hI : (buildSOAPRequest cfg rt req).Body.RequestMessage.Items =
      appendItems [] 0 req.Items := by rw [hm]
  have hM : (buildSOAPRequest cfg rt req).Body.RequestMessage.MerchantDefinedData =
      if req.MerchantDefinedData.length > 0 then some { Fields := req.MerchantDefinedData }
      else none := by rw [hm]
  have hD : (buildSOAPRequest cfg rt req).Body.RequestMessage.DeviceFingerprintID =
      req.DeviceFingerprintID := by rw [hm]
  have hP : (buildSOAPRequest cfg rt req).Body.RequestMessage.PurchaseTotals =
      some { Currency := req.PurchaseTotals.Currency,
             GrandTotalAmount := req.PurchaseTotals.GrandTotalAmount } := by rw [hm]
  refine ⟨fun h => ?_, fun h => ?_, fun h => ?_, fun h => ?_, hP, rfl, ?_⟩
  · have e : (buildSOAPRequest cfg rt req).Body.RequestMessage.BillTo = none := by
      rw [hB, h]; rfl
    exact ⟨e, fun hin => (billTo_written _).1 hin e⟩
  · have e : (buildSOAPRequest cfg rt req).Body.RequestMessage.Items = [] := by
      rw [hI, h]; rfl
    exact ⟨e, fun hin => (item_written _).1 hin e⟩
  · have e : (buildSOAPRequest cfg rt req).Body.RequestMessage.MerchantDefinedData = none := by
      rw [hM, h]; rfl
    exact ⟨e, fun hin => (merchantDefinedData_written _).1 hin e⟩
  · have e : (buildSOAPRequest cfg rt req).Body.RequestMessage.DeviceFingerprintID = [] := by
      rw [hD, h]
    exact ⟨e, fun hin => (deviceFingerprintID_written _).1 hin e⟩
  · exact (purchaseTotals_written _).2 (by rw [hP]; exact Option.some_ne_none _)

/-- Witness for C12 (amended): the example request without optional data. -/
theorem buildSOAPRequest_optional_sections_witness :
    (buildSOAPRequest exampleConfig exampleRuntime
        exampleBareRequest).Body.RequestMessage.BillTo = none ∧
    str "ns1:item" ∉
      (buildSOAPRequest exampleConfig exampleRuntime
        exampleBareRequest).Body.RequestMessage.marshalChildren :=
  ⟨((buildSOAPRequest_optional_sections exampleConfig exampleRuntime
      exampleBareRequest).1 rfl).1,
   ((buildSOAPRequest_optional_sections exampleConfig exampleRuntime
      exampleBareRequest).2.1 rfl).2⟩

/-- C13. For every list of line items in a request, `buildSOAPRequest` produces as
many item elements, in the same order: the element at position `i` (from 0) has id
`i` and the unit price, quantity, product code, product name and SKU of the `i`-th
input item. -/
theorem buildSOAPRequest_items (cfg : Config) (rt : GoRuntime) (req : RiskAnalysisRequest) :
    (buildSOAPRequest cfg rt req).Body.RequestMessage.Items.length = req.Items.length ∧
    (∀ (i : Nat) (item : Item), req.Items[i]? = some item →
      ∃ el : soapItem,
        (buildSOAPRequest cfg rt req).Body.RequestMessage.Items[i]? = some el ∧
        el.ID = (i : Int) ∧ el.UnitPrice = item.UnitPrice ∧ el.Quantity = item.Quantity ∧
        el.ProductCode = item.ProductCode ∧ el.ProductName = item.ProductName ∧
        el.ProductSKU = item.ProductSKU) ∧
    ((buildSOAPRequest cfg rt req).Body.RequestMessage.marshalChildren.count
        (str "ns1:item") = req.Items.length) := by
  have hI : (buildSOAPRequest cfg rt req).Body.RequestMessage.Items =
      appendItems [] 0 req.Items := by rw [buildSOAPRequest_message cfg rt req]
  obtain ⟨h1, -, h3⟩ := appendItems_eq [] 0 req.Items
  refine ⟨?_, ?_, ?_⟩
  · rw [hI, h1]; simp
  · intro i item hi
    have := h3 i
    simp only [List.length_nil, Nat.zero_add] at this
    rw [hi] at this
    exact ⟨itemElement i item, by rw [hI]; exact this, rfl, rfl, rfl, rfl, rfl, rfl⟩
  · rw [item_count, hI, h1]; simp

/-- Witness for C13: the example request with two items. -/
theorem buildSOAPRequest_items_witness :
    (buildSOAPRequest exampleConfig exampleRuntime
        exampleItemsRequest).Body.RequestMessage.Items.length = 2 ∧
    ∃ el : soapItem,
      (buildSOAPRequest exampleConfig exampleRuntime
        exampleItemsRequest).Body.RequestMessage.Items[1]? = some el ∧
      el.ID = 1 ∧ el.ProductName = str "pen" :=
  ⟨(buildSOAPRequest_items exampleConfig exampleRuntime exampleItemsRequest).1,
   match (buildSOAPRequest_items exampleConfig exampleRuntime exampleItemsRequest).2.1 1
      { UnitPrice := str "2.50", Quantity := 4, ProductCode := [],
        ProductName := str "pen", ProductSKU := [] } rfl with
   | ⟨el, h1, h2, _, _, _, h6, _⟩ => ⟨el, h1, h2, h6⟩⟩

/-- C14, counterexample. A configuration with merchant identifier and credential path
but an empty unlock secret passes `Validate`. -/
theorem Validate_accepts_empty_password :
    exampleConfigNoPassword.P12Password = [] ∧
    exampleConfigNoPassword.Validate = none ∧
    ¬ (∀ c : Config, c.Validate ≠ none ↔
        (c.MerchantID = [] ∨ c.P12Path = [] ∨ c.P12Password = [])) := by
  refine ⟨rfl, by decide, fun H => ?_⟩
  have := (H exampleConfigNoPassword).2 (Or.inr (Or.inr rfl))
  revert this
  decide

/-- C14, amended. `Config.Validate` returns an error exactly when the merchant
identifier (`MerchantID`) or the credential source path (`P12Path`) is empty; it
returns nil when both are non-empty, whatever the unlock secret (`P12Password`), `Env`
and `BaseURL` are: its result does not depend on these three settings. -/
theorem Validate_required_settings (c : Config) :
    (c.Validate ≠ none ↔ (c.MerchantID = [] ∨ c.P12Path = [])) ∧
    (c.MerchantID ≠ [] → c.P12Path ≠ [] → c.Validate = none) ∧
    (c.MerchantID = [] → c.Validate = some .merchantIDRequired) ∧
    (c.MerchantID ≠ [] → c.P12Path = [] → c.Validate = some .p12PathRequired) ∧
    (∀ password env baseURL : GoString,
      Config.Validate { c with P12Password := password, Env := env, BaseURL := baseURL } =
        c.Validate) := by
  unfold Config.Validate
  refine ⟨?_, ?_, ?_, ?_, ?_⟩
  · by_cases h1 : c.MerchantID = [] <;> by_cases h2 : c.P12Path = [] <;> simp [h1, h2]
  · intro h1 h2; simp [h1, h2]
  · intro h1; simp [h1]
  · intro h1 h2; simp [h1, h2]
  · intro _ _ _; rfl

/-- Witness for C14 (amended): the example configuration passes, also without
unlock secret. -/
theorem Validate_required_settings_witness :
    exampleConfig.Validate = none ∧ exampleConfigNoPassword.Validate = none :=
  ⟨(Validate_required_settings exampleConfig).2.1 (by decide) (by decide),
   (Validate_required_settings exampleConfigNoPassword).2.1 (by decide) (by decide)⟩

/-- C15. For every `Config`, `DefaultBaseURL` returns `BaseURL` unchanged when it is
non-empty, whatever `Env` is; when `BaseURL` is empty it returns the production
endpoint iff `Env` is "production", and the sandbox endpoint for every other value of
`Env`, the empty one and unrecognised ones included. -/
theorem DefaultBaseURL_rules (c : Config) :
    (c.BaseURL ≠ [] → c.DefaultBaseURL = c.BaseURL) ∧
    (c.BaseURL = [] →
      (c.DefaultBaseURL = productionURL ↔ c.Env = str "production") ∧
      (c.Env ≠ str "production" → c.DefaultBaseURL = sandboxURL) ∧
      (c.Env = [] → c.DefaultBaseURL = sandboxURL) ∧
      (c.Env = str "sandbox" → c.DefaultBaseURL = sandboxURL) ∧
      (c.Env = str "staging" → c.DefaultBaseURL = sandboxURL)) ∧
    productionURL = str "https://ics2ws.ic3.com/commerce/1.x/transactionProcessor" ∧
    sandboxURL = str "https://ics2wstest.ic3.com/commerce/1.x/transactionProcessor" := by
  have hne : sandboxURL ≠ productionURL := by decide
  have hother : c.BaseURL = [] → c.Env ≠ str "production" → c.DefaultBaseURL = sandboxURL := by
    intro hb he
    unfold Config.DefaultBaseURL
    rw [if_neg (by simpa using hb), if_neg (by simpa [EnvProduction] using he)]
  refine ⟨fun h => ?_, fun hb => ⟨?_, hother hb, ?_, ?_, ?_⟩, rfl, rfl⟩
  · unfold Config.DefaultBaseURL
    rw [if_pos h]
  · constructor
    · intro h
      by_contra he
      rw [hother hb he] at h
      exact hne h
    · intro he
      unfold Config.DefaultBaseURL
      rw [if_neg (by simpa using hb), if_pos (by simpa [EnvProduction] using he)]
  · intro he
    exact hother hb (by rw [he]; decide)
  · intro he
    exact hother hb (by rw [he]; decide)
  · intro he
    exact hother hb (by rw [he]; decide)

/-- Witness for C15: an override, the production selector and an unrecognised one. -/
theorem DefaultBaseURL_rules_witness :
    Config.DefaultBaseURL { exampleConfig with BaseURL := str "https://proxy.example/soap" } =
      str "https://proxy.example/soap" ∧
    Config.DefaultBaseURL { exampleConfig with Env := str "production" } = productionURL ∧
    Config.DefaultBaseURL { exampleConfig with Env := str "staging" } = sandboxURL :=
  ⟨(DefaultBaseURL_rules
      { exampleConfig with BaseURL := str "https://proxy.example/soap" }).1 (by decide),
   ((DefaultBaseURL_rules { exampleConfig with Env := str "production" }).2.1 rfl).1.2 rfl,
   ((DefaultBaseURL_rules { exampleConfig with Env := str "staging" }).2.1 rfl).2.2.2.2 rfl⟩

end CybersourceSoapDm
